import Mathlib

/-!
CtrlMoney: period resolution, budget and goal evaluation.

A verification development for the browser scripts of the CtrlMoney dashboard
(`src/ДАТА/ФИЛЬТРЫ`, `src/main/static/js/script.js`,
`src/forecast/static/forecast/script.js`).

Modelling conventions.

* A JavaScript `Date` is its time value, an integer number of milliseconds on the
  local time line (the local time zone is taken to have a constant offset, so local
  time is a translation of UTC and comparisons of `Date`s are comparisons of these
  integers).  The calendar functions are those of ECMAScript (`Day`, `TimeWithinDay`,
  `DayFromYear`, `YearFromTime`, `MonthFromTime`, `DateFromTime`, `WeekDay`, `MakeDay`,
  `MakeTime`, `MakeDate`).  The platform limit of ±8.64e15 ms on time values is not
  modelled.  An unparsable date string yields the invalid date, modelled by `none`.
* Monetary amounts are exact rationals: rounding of binary floating point is not
  modelled.  Quotients are formed only under the guards of the source; where a claim is
  about such a guard the quotient is `jsDiv`, which marks a zero divisor.
* An object used as a mapping is the list of its entries in insertion order.
-/

namespace CtrlMoney

/-! ## ECMAScript time values -/

/-- Milliseconds per day. -/
def msPerDay : Int := 86400000

/-- Day number of a time value (floor division). -/
def Day (t : Int) : Int := t / msPerDay

/-- Milliseconds elapsed since the start of the day. -/
def TimeWithinDay (t : Int) : Int := t % msPerDay

/-- Day number of the first day of year `y`. -/
def DayFromYear (y : Int) : Int :=
  365 * (y - 1970) + (y - 1969) / 4 - (y - 1901) / 100 + (y - 1601) / 400

/-- Number of days of year `y` (Gregorian rule). -/
def DaysInYear (y : Int) : Int :=
  if y % 4 ≠ 0 then 365
  else if y % 100 ≠ 0 then 366
  else if y % 400 ≠ 0 then 365
  else 366

/-- The year containing day number `d`: the largest `y` with `DayFromYear y ≤ d`
(see `DayFromYear_YearFromDay_le` and `lt_DayFromYear_YearFromDay_succ`), computed
from an estimate that is off by at most one. -/
def YearFromDay (d : Int) : Int :=
  let y0 := 1970 + (400 * d) / 146097
  if DayFromYear (y0 + 1) ≤ d then y0 + 1
  else if DayFromYear y0 ≤ d then y0
  else y0 - 1

/-- Year of a time value. -/
def YearFromTime (t : Int) : Int := YearFromDay (Day t)

/-- One for a leap year, zero otherwise. -/
def InLeapYear (y : Int) : Int := if DaysInYear y = 366 then 1 else 0

/-- Day within the year, counted from zero. -/
def DayWithinYear (t : Int) : Int := Day t - DayFromYear (YearFromTime t)

/-- Number of days of the year that precede month `m` (0 = January), for leap
indicator `l`. -/
def monthStartDay (m : Int) (l : Int) : Int :=
  if m = 0 then 0
  else if m = 1 then 31
  else if m = 2 then 59 + l
  else if m = 3 then 90 + l
  else if m = 4 then 120 + l
  else if m = 5 then 151 + l
  else if m = 6 then 181 + l
  else if m = 7 then 212 + l
  else if m = 8 then 243 + l
  else if m = 9 then 273 + l
  else if m = 10 then 304 + l
  else 334 + l

/-- The month (0 = January) that contains day `d` of a year with leap indicator `l`. -/
def monthOfDayWithinYear (d l : Int) : Int :=
  if d < 31 then 0
  else if d < 59 + l then 1
  else if d < 90 + l then 2
  else if d < 120 + l then 3
  else if d < 151 + l then 4
  else if d < 181 + l then 5
  else if d < 212 + l then 6
  else if d < 243 + l then 7
  else if d < 273 + l then 8
  else if d < 304 + l then 9
  else if d < 334 + l then 10
  else 11

/-- Month of a time value, 0 = January. -/
def MonthFromTime (t : Int) : Int :=
  monthOfDayWithinYear (DayWithinYear t) (InLeapYear (YearFromTime t))

/-- Day of the month of a time value, counted from one. -/
def DateFromTime (t : Int) : Int :=
  DayWithinYear t - monthStartDay (MonthFromTime t) (InLeapYear (YearFromTime t)) + 1

/-- Day of the week of a time value, 0 = Sunday. -/
def WeekDay (t : Int) : Int := (Day t + 4) % 7

/-- Day number of the given year, month (any integer, carried into the year) and
day of month (any integer, carried into the months). -/
def MakeDay (year month date : Int) : Int :=
  let ym := year + month / 12
  let mn := month % 12
  DayFromYear ym + monthStartDay mn (InLeapYear ym) + date - 1

/-- Milliseconds within the day of the given hour, minute, second, millisecond. -/
def MakeTime (hour min sec ms : Int) : Int :=
  hour * 3600000 + min * 60000 + sec * 1000 + ms

/-- Time value of a day number and a time within the day. -/
def MakeDate (day time : Int) : Int := day * msPerDay + time

/-! ## The `Date` object -/

/-- The constructor `new Date(year, month, date, hours, minutes, seconds, ms)`;
a year from 0 to 99 stands for 1900 + year. -/
def newDate (year month date hours minutes seconds ms : Int) : Int :=
  let yr := if 0 ≤ year ∧ year ≤ 99 then 1900 + year else year
  MakeDate (MakeDay yr month date) (MakeTime hours minutes seconds ms)

/-- The method `getFullYear`. -/
def getFullYear (t : Int) : Int := YearFromTime t

/-- The method `getMonth`. -/
def getMonth (t : Int) : Int := MonthFromTime t

/-- The method `getDate`. -/
def getDate (t : Int) : Int := DateFromTime t

/-- The method `getDay`. -/
def getDay (t : Int) : Int := WeekDay t

/-- The method `setDate`: the day of the month is replaced, the time of day kept. -/
def setDate (t : Int) (dt : Int) : Int :=
  MakeDate (MakeDay (YearFromTime t) (MonthFromTime t) dt) (TimeWithinDay t)

/-- The method `setHours` with all four arguments: the day is kept. -/
def setHours (t : Int) (hour min sec ms : Int) : Int :=
  MakeDate (Day t) (MakeTime hour min sec ms)

/-! ## Period resolver (`src/ДАТА/ФИЛЬТРЫ`) -/

/-- A JavaScript value, as far as `switch (period)` can tell values apart. -/
inductive JSValue where
  | undefined : JSValue
  | null : JSValue
  | boolean (b : Bool) : JSValue
  | number (q : ℚ) : JSValue
  | string (s : String) : JSValue
  deriving DecidableEq

/-- The object `{ startDate, endDate }`. -/
structure DateRange where
  startDate : Int
  endDate : Int
  deriving DecidableEq, Repr

/-- The function `getDateRange(period)`; `now` is the value of `new Date()`.
The `case` labels are compared with `===`, so only the strings match. -/
def getDateRange (period : JSValue) (now : Int) : DateRange :=
  if period = JSValue.string "week" then
    let startDate := now
    let startDate := setDate startDate
      (getDate now - getDay now + (if getDay now = 0 then -6 else 1))
    let startDate := setHours startDate 0 0 0 0
    let endDate := startDate
    let endDate := setDate endDate (getDate startDate + 6)
    let endDate := setHours endDate 23 59 59 999
    { startDate := startDate, endDate := endDate }
  else if period = JSValue.string "month" then
    { startDate := newDate (getFullYear now) (getMonth now) 1 0 0 0 0
      endDate := newDate (getFullYear now) (getMonth now + 1) 0 23 59 59 999 }
  else if period = JSValue.string "year" then
    { startDate := newDate (getFullYear now) 0 1 0 0 0 0
      endDate := newDate (getFullYear now) 11 31 23 59 59 999 }
  else
    { startDate := newDate (getFullYear now) (getMonth now) 1 0 0 0 0
      endDate := newDate (getFullYear now) (getMonth now + 1) 0 23 59 59 999 }

/-- Length of month `m` (0 = January) of year `y`, as the calendar gives it:
31, 30, or for February 29 in a leap year and 28 otherwise. -/
def lastDayOfMonth (y m : Int) : Int :=
  if m = 1 then
    (if y % 4 = 0 ∧ (y % 100 ≠ 0 ∨ y % 400 = 0) then 29 else 28)
  else if m = 3 ∨ m = 5 ∨ m = 8 ∨ m = 10 then 30
  else 31

/-! ## Records of the forecast page (`src/forecast/static/forecast/script.js`) -/

/-- An element of `incomeTransactions` or `expensesTransactions`.  The field `date`
holds the time value of `new Date(t.date)`, `none` for an invalid date. -/
structure Transaction where
  id : Nat
  name : String
  amount : ℚ
  category : String
  date : Option Int
  deriving DecidableEq

/-- An element of `accounts`. -/
structure Account where
  id : Nat
  name : String
  amount : ℚ
  deriving DecidableEq

/-- An element of `goals`.  A goal without an `accounts` array behaves as one with
the empty array: both skip the loop over the linked accounts. -/
structure Goal where
  id : Nat
  name : String
  target : ℚ
  accounts : List Nat
  use_only_accounts : Bool
  deriving DecidableEq

/-- An element of `categories`. -/
structure Category where
  name : String
  budget : ℚ
  emoji : String
  deriving DecidableEq

/-- The expression `x || 0` on a number. -/
def orZero (x : ℚ) : ℚ := if x = 0 then 0 else x

/-- The reduction `arr.reduce((s, t) => s + t.amount, 0)`. -/
def sumAmounts (arr : List Transaction) : ℚ :=
  arr.foldl (fun s t => s + t.amount) 0

/-- The test `tDate >= monthStart && tDate <= monthEnd`; every comparison with an
invalid date is false. -/
def dateBetween (tDate : Option Int) (lo hi : Int) : Bool :=
  match tDate with
  | none => false
  | some d => decide (lo ≤ d) && decide (d ≤ hi)

/-! ## Budget evaluator: `renderCategories` -/

/-- The function `getEmoji`. -/
def getEmoji (category : String) : String :=
  if category = "еда" then "🍔"
  else if category = "транспорт" then "🚌"
  else if category = "развлечения" then "🎮"
  else if category = "жилье" then "🏠"
  else if category = "здоровье" then "💊"
  else if category = "одежда" then "👕"
  else if category = "другое" then "💡"
  else if category = "доход" then "💰"
  else "💸"

/-- The constant `allCategoriesList`. -/
def allCategoriesList : List String :=
  ["еда", "транспорт", "развлечения", "жилье", "здоровье", "одежда", "другое"]

/-- What `renderCategories` puts on the page for one category.  `overspent` is the
amount inserted in the message of an over-budget category. -/
structure CategoryItem where
  name : String
  emoji : String
  budget : ℚ
  spent : ℚ
  progress : ℚ
  statusClass : String
  statusMessage : String
  overspent : Option ℚ
  statusEmoji : String
  deriving DecidableEq

/-- The categories `renderCategories` works on: when `categories` is empty it is
replaced by `window.forecastData.categories` if that is not empty, and by the
default names with budget 0 otherwise. -/
def effectiveCategories (categories forecastCategories : List Category) : List Category :=
  if categories.length = 0 then
    if forecastCategories.length > 0 then forecastCategories
    else allCategoriesList.map (fun cat => { name := cat, budget := 0, emoji := getEmoji cat })
  else categories

/-- The value `spent` of one category in `renderCategories`. -/
def categorySpent (expensesTransactions : List Transaction) (monthStart monthEnd : Int)
    (cat : Category) : ℚ :=
  sumAmounts (expensesTransactions.filter
    (fun t => decide (t.category = cat.name) && dateBetween t.date monthStart monthEnd))

/-- The value `progress` of one category in `renderCategories`. -/
def categoryProgress (budget spent : ℚ) : ℚ :=
  if budget > 0 then min (spent / budget * 100) 100 else 0

/-- The body of `categories.forEach` in `renderCategories`, given `spent`. -/
def categoryItem (cat : Category) (spent : ℚ) : CategoryItem :=
  let progress := categoryProgress cat.budget spent
  let emoji := if cat.emoji = "" then getEmoji cat.name else cat.emoji
  if cat.budget = 0 then
    { name := cat.name, emoji := emoji, budget := cat.budget, spent := spent,
      progress := progress, statusClass := "no-budget",
      statusMessage := "Бюджет не установлен", overspent := none, statusEmoji := "📝" }
  else if spent > cat.budget then
    { name := cat.name, emoji := emoji, budget := cat.budget, spent := spent,
      progress := progress, statusClass := "over-budget",
      statusMessage := "Превышен на ", overspent := some (spent - cat.budget),
      statusEmoji := "🚨" }
  else if progress ≥ 90 then
    { name := cat.name, emoji := emoji, budget := cat.budget, spent := spent,
      progress := progress, statusClass := "warning",
      statusMessage := "Почти достигнут лимит", overspent := none, statusEmoji := "⚠️" }
  else
    { name := cat.name, emoji := emoji, budget := cat.budget, spent := spent,
      progress := progress, statusClass := "good",
      statusMessage := "В пределах нормы", overspent := none, statusEmoji := "✅" }

/-- The function `renderCategories` on a page that has the element `categoryList`
(without it the function returns at once): the list of items appended to it. -/
def renderCategories (currentMonth : Int) (categories forecastCategories : List Category)
    (expensesTransactions : List Transaction) : List CategoryItem :=
  let monthStart := newDate (getFullYear currentMonth) (getMonth currentMonth) 1 0 0 0 0
  let monthEnd := newDate (getFullYear currentMonth) (getMonth currentMonth + 1) 0 0 0 0 0
  (effectiveCategories categories forecastCategories).map
    (fun cat => categoryItem cat (categorySpent expensesTransactions monthStart monthEnd cat))

/-! ## Goal evaluator: `renderGoals` -/

/-- An element of `connectedAccountsList`. -/
structure ConnectedAccount where
  id : Nat
  name : String
  amount : ℚ
  deriving DecidableEq

/-- What `renderGoals` puts on the page for one goal. -/
structure GoalItem where
  name : String
  target : ℚ
  accountsSum : ℚ
  connectedAccountsList : List ConnectedAccount
  useOnlyAccounts : Bool
  accumulated : ℚ
  totalProgress : ℚ
  canAfford : Bool
  isOverBudget : Bool
  statusText : String
  emoji : String
  deriving DecidableEq

/-- The loop `goal.accounts.forEach(accId => ...)`: the state is the pair of
`accountsSum` and `connectedAccountsList`. -/
def linkAccounts (accounts : List Account) (ids : List Nat) :
    ℚ × List ConnectedAccount :=
  ids.foldl
    (fun st accId =>
      match accounts.find? (fun a => decide (a.id = accId)) with
      | some account =>
          (st.1 + orZero account.amount,
           st.2 ++ [{ id := account.id, name := account.name,
                      amount := orZero account.amount }])
      | none => st)
    (0, [])

/-- The value `totalProgress` of one goal in `renderGoals`. -/
def goalProgress (target accumulated : ℚ) : ℚ :=
  if target > 0 then min (accumulated / target * 100) 100 else 0

/-- The body of `goals.forEach` in `renderGoals`. -/
def goalItem (freeMoney : ℚ) (accounts : List Account) (goal : Goal) : GoalItem :=
  let linked := linkAccounts accounts goal.accounts
  let accountsSum := linked.1
  let connectedAccountsList := linked.2
  let useOnlyAccounts := goal.use_only_accounts
  let accumulated := if useOnlyAccounts then accountsSum else freeMoney + accountsSum
  let totalProgress := goalProgress goal.target accumulated
  let canAfford := decide (accumulated ≥ goal.target)
  let isOverBudget := decide (accumulated > goal.target)
  let status : String × String :=
    if isOverBudget then ("Цель перевыполнена!", "🎉")
    else if canAfford then ("Цель достигнута!", "✅")
    else if totalProgress ≥ 80 then ("Почти у цели!", "🔥")
    else if totalProgress ≥ 50 then ("На полпути!", "📈")
    else if totalProgress ≥ 25 then ("Есть прогресс!", "👍")
    else ("В процессе...", "⏳")
  { name := goal.name, target := goal.target, accountsSum := accountsSum,
    connectedAccountsList := connectedAccountsList, useOnlyAccounts := useOnlyAccounts,
    accumulated := accumulated, totalProgress := totalProgress, canAfford := canAfford,
    isOverBudget := isOverBudget, statusText := status.1, emoji := status.2 }

/-- The value `freeMoney` of `renderGoals`. -/
def freeMoney (incomeTransactions expensesTransactions : List Transaction) : ℚ :=
  sumAmounts incomeTransactions - sumAmounts expensesTransactions

/-- The function `renderGoals` on a page that has the element `goalsList` (without it
the function returns at once): the list of items appended to it. -/
def renderGoals (incomeTransactions expensesTransactions : List Transaction)
    (accounts : List Account) (goals : List Goal) : List GoalItem :=
  goals.map (goalItem (freeMoney incomeTransactions expensesTransactions) accounts)

/-- The accounts a goal links to, in the order of the goal's ids. -/
def resolvedAccounts (accounts : List Account) (ids : List Nat) : List Account :=
  ids.filterMap (fun accId => accounts.find? (fun a => decide (a.id = accId)))

/-- The balances a goal links to, as the specification words it: each id of the goal
is resolved against the snapshot, ids without an account are dropped. -/
def resolvedBalances (accounts : List Account) (ids : List Nat) : List ℚ :=
  ids.filterMap (fun accId => (accounts.find? (fun a => decide (a.id = accId))).map
    (fun a => a.amount))

/-! ## Transaction filter (`src/ДАТА/ФИЛЬТРЫ`) -/

/-- The function `filterTransactions(transactions, period)`; `now` is the value of
`new Date()` that `getDateRange` reads. -/
def filterTransactions (transactions : List Transaction) (period : JSValue) (now : Int) :
    List Transaction :=
  let range := getDateRange period now
  transactions.filter (fun t => dateBetween t.date range.startDate range.endDate)

/-- The transactions outside a range, as the specification words the complement of the
range: those dated before the start or after the end. -/
def outsideRange (transactions : List Transaction) (startDate endDate : Int) :
    List Transaction :=
  transactions.filter (fun t =>
    match t.date with
    | none => false
    | some d => decide (d < startDate) || decide (endDate < d))

/-! ## Averages (`src/main/static/js/script.js`) -/

/-- The quotient `a / b` of two numbers; `none` stands for the non-finite results
(`Infinity`, `-Infinity`, `NaN`) of a division by zero. -/
def jsDiv (a b : ℚ) : Option ℚ := if b = 0 then none else some (a / b)

/-- The averaging step `divisor ? total / divisor : 0` of `updateAverages`. -/
def average (total : ℚ) (divisor : Int) : Option ℚ :=
  if divisor ≠ 0 then jsDiv total divisor else some 0

/-- The reduction `arr.reduce((sum, t) => sum + (t.amount || 0), 0)`. -/
def sumAmountsOrZero (arr : List Transaction) : ℚ :=
  arr.foldl (fun sum t => sum + orZero t.amount) 0

/-- The value `divisor` of `updateAverages`; `now` is the value of `new Date()` read
in the branch for month. -/
def averagesDivisor (period : JSValue) (now : Int) : Int :=
  if period = JSValue.string "week" then 7
  else if period = JSValue.string "month" then
    getDate (newDate (getFullYear now) (getMonth now + 1) 0 0 0 0 0)
  else if period = JSValue.string "year" then 12
  else 1

/-- What `updateAverages` computes before rounding for display. -/
structure Averages where
  totalIncome : ℚ
  totalExpenses : ℚ
  divisor : Int
  avgIncome : Option ℚ
  avgExpenses : Option ℚ
  deriving DecidableEq

/-- The function `updateAverages(period = 'month')`.  The instants `nowIncome`,
`nowExpenses` and `now` are the successive values of `new Date()`: in the two calls of
`filterTransactions` and in the branch for month. -/
def updateAverages (period : JSValue) (nowIncome nowExpenses now : Int)
    (incomeTransactions expensesTransactions : List Transaction) : Averages :=
  let period := if period = JSValue.undefined then JSValue.string "month" else period
  let filteredIncome := filterTransactions incomeTransactions period nowIncome
  let filteredExpenses := filterTransactions expensesTransactions period nowExpenses
  let totalIncome := sumAmountsOrZero filteredIncome
  let totalExpenses := sumAmountsOrZero filteredExpenses
  let divisor := averagesDivisor period now
  { totalIncome := totalIncome, totalExpenses := totalExpenses, divisor := divisor,
    avgIncome := average totalIncome divisor, avgExpenses := average totalExpenses divisor }

/-! ## Monthly summary and cash-flow projection
(`src/forecast/static/forecast/script.js`) -/

/-- What `calculateMonthlySummary` computes. -/
structure MonthlySummary where
  monthlyIncome : ℚ
  monthlyExpenses : ℚ
  surplus : ℚ
  daysInMonth : Int
  daysPassed : Int
  dailyIncome : ℚ
  dailyExpenses : ℚ
  forecast : ℚ
  deriving DecidableEq

/-- The function `calculateMonthlySummary`; `today` is the value of `new Date()`. -/
def calculateMonthlySummary (currentMonth today : Int)
    (incomeTransactions expensesTransactions : List Transaction) : MonthlySummary :=
  let monthStart := newDate (getFullYear currentMonth) (getMonth currentMonth) 1 0 0 0 0
  let monthEnd := newDate (getFullYear currentMonth) (getMonth currentMonth + 1) 0 0 0 0 0
  let monthlyIncome := sumAmounts
    (incomeTransactions.filter (fun t => dateBetween t.date monthStart monthEnd))
  let monthlyExpenses := sumAmounts
    (expensesTransactions.filter (fun t => dateBetween t.date monthStart monthEnd))
  let surplus := monthlyIncome - monthlyExpenses
  let daysInMonth := getDate monthEnd
  let daysPassed := min (getDate today) daysInMonth
  let dailyIncome := if daysPassed > 0 then monthlyIncome / (daysPassed : ℚ) else 0
  let dailyExpenses := if daysPassed > 0 then monthlyExpenses / (daysPassed : ℚ) else 0
  let forecast := (dailyIncome - dailyExpenses) * (daysInMonth : ℚ)
  { monthlyIncome := monthlyIncome, monthlyExpenses := monthlyExpenses, surplus := surplus,
    daysInMonth := daysInMonth, daysPassed := daysPassed, dailyIncome := dailyIncome,
    dailyExpenses := dailyExpenses, forecast := forecast }

/-- An element of `dailyData`. -/
structure DailyEntry where
  day : Int
  income : ℚ
  expenses : ℚ
  balance : ℚ
  deriving DecidableEq

/-- The filter test of one day in `renderCashflowForecastChart`: day of month, month
and year of the transaction are those of `day` and of the selected month.  The getters
of an invalid date return `NaN`, which equals nothing. -/
def onDay (tDate : Option Int) (day currentMonth : Int) : Bool :=
  match tDate with
  | none => false
  | some d =>
    decide (getDate d = day) && decide (getMonth d = getMonth currentMonth) &&
      decide (getFullYear d = getFullYear currentMonth)

/-- One turn of the loop over the days in `renderCashflowForecastChart`; the state is
the pair of `cumulativeBalance` and `dailyData`. -/
def cashflowStep (currentMonth : Int)
    (incomeTransactions expensesTransactions : List Transaction)
    (st : ℚ × List DailyEntry) (day : Int) : ℚ × List DailyEntry :=
  let dayIncome := sumAmounts
    (incomeTransactions.filter (fun t => onDay t.date day currentMonth))
  let dayExpenses := sumAmounts
    (expensesTransactions.filter (fun t => onDay t.date day currentMonth))
  let cumulativeBalance := st.1 + (dayIncome - dayExpenses)
  (cumulativeBalance,
   st.2 ++ [{ day := day, income := dayIncome, expenses := dayExpenses,
              balance := cumulativeBalance }])

/-- The array `dailyData` that `renderCashflowForecastChart` builds on a page that has
the element `cashflowForecastChart`: the loop runs `day` from 1 to `daysInMonth`. -/
def renderCashflowForecastChart (currentMonth : Int)
    (incomeTransactions expensesTransactions : List Transaction) : List DailyEntry :=
  let monthEnd := newDate (getFullYear currentMonth) (getMonth currentMonth + 1) 0 0 0 0 0
  let daysInMonth := getDate monthEnd
  (((List.range daysInMonth.toNat).map (fun (i : Nat) => (i : Int) + 1)).foldl
    (cashflowStep currentMonth incomeTransactions expensesTransactions) (0, [])).2

/-- The total of one day of the selected month, as the specification words it: the sum
of the amounts of the transactions whose day, month and year are `day` and the month
and year of `currentMonth`. -/
def dayTotal (transactions : List Transaction) (currentMonth day : Int) : ℚ :=
  ((transactions.filter (fun t =>
    match t.date with
    | none => false
    | some d => decide (getFullYear d = getFullYear currentMonth ∧
        getMonth d = getMonth currentMonth ∧ getDate d = day))).map
    (fun t => t.amount)).sum

/-! ## Monthly aggregation: `getMonthlyData` -/

/-- Decimal digits of a natural number. -/
def decimalDigits (n : Nat) : List Char :=
  if n = 0 then ['0'] else (Nat.digits 10 n).reverse.map Nat.digitChar

/-- The string of an integer-valued number, as a template literal inserts it. -/
def numberToString (n : Int) : String :=
  String.mk ((if n < 0 then ['-'] else []) ++ decimalDigits n.natAbs)

/-- The key `${d.getFullYear()}-${d.getMonth() + 1}` of a date; both getters of an
invalid date return `NaN`. -/
def monthKey (d : Option Int) : String :=
  match d with
  | none => "NaN-NaN"
  | some t => numberToString (getFullYear t) ++ "-" ++ numberToString (getMonth t + 1)

/-- The property read `m[k]` of an object with numeric values, kept as the list of its
entries in insertion order; `none` is `undefined`. -/
def objGet (m : List (String × ℚ)) (k : String) : Option ℚ :=
  match m with
  | [] => none
  | (k', v) :: rest => if k' = k then some v else objGet rest k

/-- The assignment `m[k] = v`: an existing key keeps its place, a new key goes last. -/
def objSet (m : List (String × ℚ)) (k : String) (v : ℚ) : List (String × ℚ) :=
  match m with
  | [] => [(k, v)]
  | (k', v') :: rest => if k' = k then (k', v) :: rest else (k', v') :: objSet rest k v

/-- The expression `m[k] || 0`. -/
def getOrZero (m : List (String × ℚ)) (k : String) : ℚ :=
  match objGet m k with
  | none => 0
  | some v => orZero v

/-- The function `getMonthlyData`. -/
def getMonthlyData (arr : List Transaction) : List (String × ℚ) :=
  arr.foldl (fun m t => objSet m (monthKey t.date) (getOrZero m (monthKey t.date) + t.amount)) []

/-- The string year-month of a year and a month (0 = January), the month written
1-based and not zero-padded. -/
def yearMonthKey (y m : Int) : String :=
  numberToString y ++ "-" ++ numberToString (m + 1)

/-- The total of a month, as the specification words the value of the mapping: the sum
of the amounts of the transactions dated in year `y` and month `m`. -/
def monthTotal (arr : List Transaction) (y m : Int) : ℚ :=
  ((arr.filter (fun t =>
    match t.date with
    | none => false
    | some d => decide (getFullYear d = y ∧ getMonth d = m))).map (fun t => t.amount)).sum

/-- The sum of the amounts of the transactions whose date is invalid. -/
def invalidDateTotal (arr : List Transaction) : ℚ :=
  ((arr.filter (fun t => t.date.isNone)).map (fun t => t.amount)).sum

/-- The sum of the amounts of the transactions of one key of `getMonthlyData`. -/
def keyTotal (arr : List Transaction) (k : String) : ℚ :=
  ((arr.filter (fun t => decide (monthKey t.date = k))).map (fun t => t.amount)).sum

/-! ## Charts of the forecast page: `renderCharts` -/

/-- The loop `arr.forEach(t => m[key(t)] = (m[key(t)] || 0) + t.amount)` on an empty
object, the shape shared by `getMonthlyData` and the category totals of `renderCharts`. -/
def aggregateBy (key : Transaction → String) (arr : List Transaction) : List (String × ℚ) :=
  arr.foldl (fun m t => objSet m (key t) (getOrZero m (key t) + t.amount)) []

/-- The object `expensesByCategory` of `renderCharts`. -/
def expensesByCategory (expenseData : List Transaction) : List (String × ℚ) :=
  expenseData.foldl
    (fun m t => objSet m t.category (getOrZero m t.category + t.amount)) []

/-- The array `sortedCats`: the entries sorted with the comparator `b[1] - a[1]`, that
is by descending value, entries of equal value keeping their order. -/
def sortedCats (entries : List (String × ℚ)) : List (String × ℚ) :=
  entries.insertionSort (fun a b => a.2 ≥ b.2)

/-- The array `[...new Set(keys)]`: the first occurrence of each key, in order. -/
def uniqueKeys (keys : List String) : List String :=
  keys.foldl (fun acc k => if k ∈ acc then acc else acc ++ [k]) []

/-- The method `sort()` without comparator on an array of strings: ascending
lexicographic order of the characters (for strings without characters beyond the basic
plane, as all month keys are, this is the order of the UTF-16 code units). -/
def sortStrings (l : List String) : List String :=
  l.insertionSort (fun a b => a ≤ b)

/-- The array `months` of `renderCharts`, for the two monthly mappings. -/
def chartMonths (mInc mExp : List (String × ℚ)) : List String :=
  sortStrings (uniqueKeys (mInc.map (fun e => e.1) ++ mExp.map (fun e => e.1)))

/-- The array `monthlyBalance` of `renderCharts`, for the two monthly mappings. -/
def monthlyBalance (mInc mExp : List (String × ℚ)) : List ℚ :=
  (chartMonths mInc mExp).map (fun m => getOrZero mInc m - getOrZero mExp m)

/-- The map `xs.map(x => cum += x)` with `cum` starting at 0; the state is the pair of
`cum` and the array built so far. -/
def runningTotals (net : List ℚ) : List ℚ :=
  (net.foldl (fun st x => (st.1 + x, st.2 ++ [st.1 + x])) ((0 : ℚ), ([] : List ℚ))).2

/-- What `renderCharts` computes for its three charts. -/
structure Charts where
  catLabels : List String
  catValues : List ℚ
  totalExp : ℚ
  months : List String
  monthlyBalance : List ℚ
  savings : List ℚ
  avg : ℚ
  deriving DecidableEq

/-- The function `renderCharts(incomeData, expenseData)` on a page that has the three
chart elements (without one of them the function returns at once). -/
def renderCharts (incomeData expenseData : List Transaction) : Charts :=
  let sorted := sortedCats (expensesByCategory expenseData)
  let catLabels := sorted.map (fun c => c.1)
  let catValues := sorted.map (fun c => c.2)
  let totalExp := orZero (catValues.foldl (fun a b => a + b) 0)
  let mInc := getMonthlyData incomeData
  let mExp := getMonthlyData expenseData
  let months := chartMonths mInc mExp
  let monthlyBalance := months.map (fun m => getOrZero mInc m - getOrZero mExp m)
  let savings := runningTotals (months.map (fun m => getOrZero mInc m - getOrZero mExp m))
  let avg := if savings.length ≠ 0 then
      savings.getD (savings.length - 1) 0 / (savings.length : ℚ) else 0
  { catLabels := catLabels, catValues := catValues, totalExp := totalExp, months := months,
    monthlyBalance := monthlyBalance, savings := savings, avg := avg }

/-- The total of a category, as the specification words it: the sum of the amounts of
the expenses of that category. -/
def categoryTotal (expenseData : List Transaction) (category : String) : ℚ :=
  ((expenseData.filter (fun t => decide (t.category = category))).map
    (fun t => t.amount)).sum

/-! ## Chart of the dashboard: `updateChart` (`src/ДАТА/ФИЛЬТРЫ`) -/

/-- The statement `data[i] += x` on an array of numbers.  A negative index names a
property, not an element, and leaves the elements as they are; an index beyond the end
would add an element that is not a number, which `none` stands for. -/
def bucketAdd (data : List ℚ) (i : Int) (x : ℚ) : Option (List ℚ) :=
  if i < 0 then some data
  else if i < data.length then some (data.set i.toNat (data.getD i.toNat 0 + x))
  else none

/-- One turn of a loop `filtered.forEach(t => ...)` of `updateChart`: the index is
computed from the date of the transaction and, when the test on the index holds, the
amount is added to that bucket.  An invalid date gives the index `NaN`, which names no
element and passes no comparison. -/
def bucketStep (index : Int → Int) (test : Int → Bool) (acc : Option (List ℚ))
    (t : Transaction) : Option (List ℚ) :=
  match t.date with
  | none => acc
  | some d =>
    if test (index d) then acc.bind (fun data => bucketAdd data (index d) t.amount)
    else acc

/-- What `updateChart` hands to the chart. -/
structure ChartData where
  labels : List String
  incomeData : Option (List ℚ)
  expensesData : Option (List ℚ)
  deriving DecidableEq

/-- The function `updateChart(period)` on a page that has the chart.  The instants are
the successive values of `new Date()`: in the two calls of `filterTransactions` and, in
the branch for month, in the two arguments of the `Date` constructor. -/
def updateChart (period : JSValue) (nowIncome nowExpenses nowYear nowMonth : Int)
    (incomeTransactions expensesTransactions : List Transaction) : ChartData :=
  let filteredIncome := filterTransactions incomeTransactions period nowIncome
  let filteredExpenses := filterTransactions expensesTransactions period nowExpenses
  if period = JSValue.string "week" then
    { labels := ["Пн", "Вт", "Ср", "Чт", "Пт", "Сб", "Вс"]
      incomeData := filteredIncome.foldl
        (bucketStep (fun d => (getDay d + 6) % 7) (fun _ => true))
        (some (List.replicate 7 0))
      expensesData := filteredExpenses.foldl
        (bucketStep (fun d => (getDay d + 6) % 7) (fun _ => true))
        (some (List.replicate 7 0)) }
  else if period = JSValue.string "month" then
    let daysInMonth := getDate (newDate (getFullYear nowYear) (getMonth nowMonth + 1) 0 0 0 0 0)
    { labels := (List.range daysInMonth.toNat).map
        (fun (i : Nat) => numberToString ((i : Int) + 1))
      incomeData := filteredIncome.foldl
        (bucketStep (fun d => getDate d - 1)
          (fun day => decide (day ≥ 0) && decide (day < daysInMonth)))
        (some (List.replicate daysInMonth.toNat 0))
      expensesData := filteredExpenses.foldl
        (bucketStep (fun d => getDate d - 1)
          (fun day => decide (day ≥ 0) && decide (day < daysInMonth)))
        (some (List.replicate daysInMonth.toNat 0)) }
  else
    { labels := ["Янв", "Фев", "Мар", "Апр", "Май", "Июн", "Июл", "Авг", "Сен", "Окт",
        "Ноя", "Дек"]
      incomeData := filteredIncome.foldl
        (bucketStep (fun d => getMonth d) (fun _ => true)) (some (List.replicate 12 0))
      expensesData := filteredExpenses.foldl
        (bucketStep (fun d => getMonth d) (fun _ => true)) (some (List.replicate 12 0)) }

/-- What conservation of amounts says of a bucket array `data` filled from the
transactions `ts` with the index function `index`: the array has `n` elements, every
transaction has a valid date whose index is from 0 to `n - 1`, every element is the
total of the transactions of its index, and the elements add up to the total of `ts`. -/
def Conserves (index : Int → Int) (n : Nat) (ts : List Transaction)
    (data : Option (List ℚ)) : Prop :=
  ∃ xs : List ℚ, data = some xs ∧ xs.length = n ∧
    (∀ t ∈ ts, ∃ d, t.date = some d ∧ 0 ≤ index d ∧ index d < n) ∧
    (∀ j : Nat, j < n → xs.getD j 0 =
      sumAmounts (ts.filter (fun t => decide (t.date.map index = some (j : Int))))) ∧
    xs.sum = sumAmounts ts

/-! ## Period summary: `updateEconomy` (`src/main/static/js/script.js`) -/

/-- The function `Math.round`: the nearest integer, a half rounding up. -/
def mathRound (x : ℚ) : Int := ⌊x + 1 / 2⌋

/-- What `updateEconomy` computes. -/
structure Economy where
  periodIncome : ℚ
  periodExpenses : ℚ
  periodSavings : ℚ
  periodPercent : Int
  deriving DecidableEq

/-- The function `updateEconomy(period = 'month')`; the two instants are the values of
`new Date()` in the two calls of `filterTransactions`. -/
def updateEconomy (period : JSValue) (nowIncome nowExpenses : Int)
    (incomeTransactions expensesTransactions : List Transaction) : Economy :=
  let period := if period = JSValue.undefined then JSValue.string "month" else period
  let filteredIncome := filterTransactions incomeTransactions period nowIncome
  let filteredExpenses := filterTransactions expensesTransactions period nowExpenses
  let periodIncome := sumAmounts filteredIncome
  let periodExpenses := sumAmounts filteredExpenses
  let periodSavings := periodIncome - periodExpenses
  let periodPercent :=
    if periodIncome > 0 then mathRound (periodSavings / periodIncome * 100) else 0
  { periodIncome := periodIncome, periodExpenses := periodExpenses,
    periodSavings := periodSavings, periodPercent := periodPercent }

/-! ## Malformed amounts -/

/-- A transaction as the pages hold it when the amount may be malformed: `amount` is
the value of `parseFloat(t.amount)`, with `none` for `NaN`. -/
structure ParsedTransaction where
  id : Nat
  name : String
  amount : Option ℚ
  category : String
  date : Option Int
  deriving DecidableEq

/-- The sum `a + b` of two numbers, with `none` for `NaN`. -/
def nanAdd (a b : Option ℚ) : Option ℚ :=
  match a, b with
  | some x, some y => some (x + y)
  | _, _ => none

/-- The expression `x || 0` on a number that may be `NaN`. -/
def nanOrZero (x : Option ℚ) : ℚ :=
  match x with
  | none => 0
  | some v => orZero v

/-- The reduction `arr.reduce((sum, t) => sum + t.amount, 0)` on parsed transactions. -/
def sumParsed (arr : List ParsedTransaction) : Option ℚ :=
  arr.foldl (fun sum t => nanAdd sum t.amount) (some 0)

/-- The reduction `arr.reduce((s, t) => s + (t.amount || 0), 0)` on parsed
transactions. -/
def sumParsedOrZero (arr : List ParsedTransaction) : ℚ :=
  arr.foldl (fun s t => s + nanOrZero t.amount) 0

/-- The function `filterTransactions` on parsed transactions. -/
def filterParsed (transactions : List ParsedTransaction) (period : JSValue) (now : Int) :
    List ParsedTransaction :=
  let range := getDateRange period now
  transactions.filter (fun t => dateBetween t.date range.startDate range.endDate)

/-- The all-time total `income` (or `expenses`) that `loadDataFromServer` computes. -/
def allTimeTotal (transactions : List ParsedTransaction) : ℚ :=
  sumParsedOrZero transactions

/-- The value `periodIncome` (or `periodExpenses`) of `updateEconomy` on parsed
transactions. -/
def economyTotal (transactions : List ParsedTransaction) (period : JSValue) (now : Int) :
    Option ℚ :=
  sumParsed (filterParsed transactions
    (if period = JSValue.undefined then JSValue.string "month" else period) now)

/-- The value `totalIncome` (or `totalExpenses`) of `updateAverages` on parsed
transactions. -/
def averagesTotal (transactions : List ParsedTransaction) (period : JSValue) (now : Int) :
    ℚ :=
  sumParsedOrZero (filterParsed transactions
    (if period = JSValue.undefined then JSValue.string "month" else period) now)

/-- The value `monthlyIncome` (or `monthlyExpenses`) of `calculateMonthlySummary` on
parsed transactions. -/
def monthlyTotal (transactions : List ParsedTransaction) (currentMonth : Int) : Option ℚ :=
  let monthStart := newDate (getFullYear currentMonth) (getMonth currentMonth) 1 0 0 0 0
  let monthEnd := newDate (getFullYear currentMonth) (getMonth currentMonth + 1) 0 0 0 0 0
  sumParsed (transactions.filter (fun t => dateBetween t.date monthStart monthEnd))

/-- The sum of the well-formed amounts of a list of parsed transactions. -/
def wellFormedSum (transactions : List ParsedTransaction) : ℚ :=
  (transactions.filterMap (fun t => t.amount)).sum

/-- A transaction with a well-formed amount, as a parsed transaction. -/
def toParsed (t : Transaction) : ParsedTransaction :=
  { id := t.id, name := t.name, amount := some t.amount, category := t.category,
    date := t.date }

/-! ## Goal status order -/

/-- The place of a goal status text in the order in progress, started, halfway, near,
achieved, over target. -/
def statusRank (statusText : String) : Nat :=
  if statusText = "Цель перевыполнена!" then 5
  else if statusText = "Цель достигнута!" then 4
  else if statusText = "Почти у цели!" then 3
  else if statusText = "На полпути!" then 2
  else if statusText = "Есть прогресс!" then 1
  else 0

/-! ## HTML escaping -/

/-- The apostrophe. -/
def apostrophe : Char := Char.ofNat 39

/-- The double quote. -/
def doubleQuote : Char := Char.ofNat 34

namespace Main

/-- The replacement of one character by the callback of `escapeHtml` in
`src/main/static/js/script.js`; characters the pattern does not match stay. -/
def escapeChar (c : Char) : String :=
  if c = '&' then "&amp"
  else if c = '<' then "&lt"
  else if c = '>' then "&gt"
  else if c = doubleQuote then "&quot"
  else if c = apostrophe then "&#39"
  else String.singleton c

/-- The function `escapeHtml` of `src/main/static/js/script.js`, on a string. -/
def escapeHtml (str : String) : String :=
  if str = "" then ""
  else String.join (str.data.map escapeChar)

end Main

namespace Forecast

/-- The replacement of one character by the callback of `escapeHtml` in
`src/forecast/static/forecast/script.js`; characters the pattern does not match stay. -/
def escapeChar (c : Char) : String :=
  if c = '&' then "&amp;"
  else if c = '<' then "&lt;"
  else if c = '>' then "&gt;"
  else if c = doubleQuote then "&quot;"
  else if c = apostrophe then "&#39;"
  else String.singleton c

/-- The function `escapeHtml` of `src/forecast/static/forecast/script.js`, on a
string. -/
def escapeHtml (str : String) : String :=
  String.join (str.data.map escapeChar)

end Forecast

end CtrlMoney

namespace CtrlMoney

theorem DayFromYear_YearFromDay_le (d : Int) : DayFromYear (YearFromDay d) ≤ d := by
  unfold YearFromDay DayFromYear
  simp only
  split_ifs <;> omega

theorem lt_DayFromYear_YearFromDay_succ (d : Int) : d < DayFromYear (YearFromDay d + 1) := by
  unfold YearFromDay
  simp only
  split_ifs with h1 h2
  · unfold DayFromYear; omega
  · omega
  · rw [sub_add_cancel]; omega

end CtrlMoney


namespace CtrlMoney

/-! ## Calendar lemmas -/

theorem DayFromYear_succ (y : Int) : DayFromYear (y + 1) = DayFromYear y + DaysInYear y := by
  unfold DayFromYear DaysInYear
  split_ifs <;> omega

theorem DayFromYear_lt_of_lt {a b : Int} (h : a < b) : DayFromYear a < DayFromYear b := by
  unfold DayFromYear
  omega

/-- The year of a day number is characterised by the two bounds of ECMAScript. -/
theorem YearFromDay_eq_of_bounds {d y : Int} (h1 : DayFromYear y ≤ d)
    (h2 : d < DayFromYear (y + 1)) : YearFromDay d = y := by
  have h3 := DayFromYear_YearFromDay_le d
  have h4 := lt_DayFromYear_YearFromDay_succ d
  rcases lt_trichotomy (YearFromDay d) y with h | h | h
  · have h5 : YearFromDay d + 1 ≤ y := h
    rcases eq_or_lt_of_le h5 with h6 | h6
    · rw [h6] at h4; omega
    · have := DayFromYear_lt_of_lt h6; omega
  · exact h
  · have h5 : y + 1 ≤ YearFromDay d := h
    rcases eq_or_lt_of_le h5 with h6 | h6
    · rw [← h6] at h3; omega
    · have := DayFromYear_lt_of_lt h6; omega

theorem InLeapYear_cases (y : Int) :
    (InLeapYear y = 0 ∧ DaysInYear y = 365) ∨ (InLeapYear y = 1 ∧ DaysInYear y = 366) := by
  unfold InLeapYear DaysInYear
  split_ifs <;> omega

theorem Day_MakeDate {d tm : Int} (h0 : 0 ≤ tm) (h1 : tm < msPerDay) :
    Day (MakeDate d tm) = d := by
  unfold Day MakeDate msPerDay at *
  omega

theorem TimeWithinDay_MakeDate {d tm : Int} (h0 : 0 ≤ tm) (h1 : tm < msPerDay) :
    TimeWithinDay (MakeDate d tm) = tm := by
  unfold TimeWithinDay MakeDate msPerDay at *
  omega

theorem TimeWithinDay_bounds (t : Int) : 0 ≤ TimeWithinDay t ∧ TimeWithinDay t < msPerDay := by
  unfold TimeWithinDay msPerDay
  omega

theorem MakeDate_Day_TimeWithinDay (t : Int) : MakeDate (Day t) (TimeWithinDay t) = t := by
  unfold MakeDate Day TimeWithinDay msPerDay
  omega

theorem DayWithinYear_bounds (t : Int) :
    0 ≤ DayWithinYear t ∧ DayWithinYear t < DaysInYear (YearFromTime t) := by
  unfold DayWithinYear YearFromTime
  have h3 := DayFromYear_YearFromDay_le (Day t)
  have h4 := lt_DayFromYear_YearFromDay_succ (Day t)
  rw [DayFromYear_succ] at h4
  omega

theorem monthOfDayWithinYear_bounds (d l : Int) :
    0 ≤ monthOfDayWithinYear d l ∧ monthOfDayWithinYear d l ≤ 11 := by
  unfold monthOfDayWithinYear
  omega

theorem MonthFromTime_bounds (t : Int) : 0 ≤ MonthFromTime t ∧ MonthFromTime t ≤ 11 :=
  monthOfDayWithinYear_bounds _ _

end CtrlMoney

namespace CtrlMoney

/-- Setting the day of the month moves the day number by the difference to the
current day of the month. -/
theorem MakeDay_of_time (t dt : Int) :
    MakeDay (YearFromTime t) (MonthFromTime t) dt = Day t + (dt - DateFromTime t) := by
  have hm := MonthFromTime_bounds t
  have h1 : MonthFromTime t / 12 = 0 := by omega
  have h2 : MonthFromTime t % 12 = MonthFromTime t := by omega
  unfold MakeDay DateFromTime DayWithinYear
  simp only [h1, h2, add_zero]
  omega

theorem Day_setDate (t dt : Int) : Day (setDate t dt) = Day t + (dt - getDate t) := by
  unfold setDate getDate
  have hb := TimeWithinDay_bounds t
  rw [Day_MakeDate hb.1 hb.2, MakeDay_of_time]

theorem setHours_setDate (t dt h m s ms : Int) :
    setHours (setDate t dt) h m s ms = MakeDate (Day t + (dt - getDate t)) (MakeTime h m s ms) := by
  unfold setHours
  rw [Day_setDate]

theorem monthOfDayWithinYear_monthStartDay (m l dd : Int) (hl0 : 0 ≤ l) (hl1 : l ≤ 1)
    (hm0 : 0 ≤ m) (hm1 : m ≤ 11) (hd0 : 1 ≤ dd)
    (hd1 : dd ≤ if m = 1 then 28 + l else if m = 3 ∨ m = 5 ∨ m = 8 ∨ m = 10 then 30 else 31) :
    monthOfDayWithinYear (monthStartDay m l + dd - 1) l = m := by
  interval_cases m <;> simp only [monthStartDay] <;> norm_num at hd1 ⊢ <;>
    unfold monthOfDayWithinYear <;> omega

theorem monthStartDay_add_lt (m l dd : Int) (hl0 : 0 ≤ l) (hl1 : l ≤ 1)
    (hm0 : 0 ≤ m) (hm1 : m ≤ 11)
    (hd1 : dd ≤ if m = 1 then 28 + l else if m = 3 ∨ m = 5 ∨ m = 8 ∨ m = 10 then 30 else 31) :
    0 ≤ monthStartDay m l ∧ monthStartDay m l + dd - 1 < 365 + l := by
  interval_cases m <;> simp only [monthStartDay] <;> norm_num at hd1 ⊢ <;> omega

theorem monthStartDay_succ (m l : Int) (hm0 : 0 ≤ m) (hm1 : m ≤ 10) :
    monthStartDay (m + 1) l = monthStartDay m l +
      (if m = 1 then 28 + l else if m = 3 ∨ m = 5 ∨ m = 8 ∨ m = 10 then 30 else 31) := by
  interval_cases m <;> simp only [monthStartDay] <;> norm_num <;> omega

theorem lastDayOfMonth_eq (y m : Int) :
    lastDayOfMonth y m =
      if m = 1 then 28 + InLeapYear y
      else if m = 3 ∨ m = 5 ∨ m = 8 ∨ m = 10 then 30 else 31 := by
  unfold lastDayOfMonth InLeapYear DaysInYear
  split_ifs <;> omega

theorem InLeapYear_bounds (y : Int) :
    0 ≤ InLeapYear y ∧ InLeapYear y ≤ 1 ∧ DaysInYear y = 365 + InLeapYear y := by
  rcases InLeapYear_cases y with h | h <;> omega

/-- Year, month and day of month of a time value built from a calendar date. -/
theorem civil_of_MakeDate (y m dd tm : Int) (hm0 : 0 ≤ m) (hm1 : m ≤ 11)
    (hd0 : 1 ≤ dd) (hd1 : dd ≤ lastDayOfMonth y m) (h0 : 0 ≤ tm) (h1 : tm < msPerDay) :
    YearFromTime (MakeDate (DayFromYear y + monthStartDay m (InLeapYear y) + dd - 1) tm) = y ∧
    MonthFromTime (MakeDate (DayFromYear y + monthStartDay m (InLeapYear y) + dd - 1) tm) = m ∧
    DateFromTime (MakeDate (DayFromYear y + monthStartDay m (InLeapYear y) + dd - 1) tm) = dd := by
  have hl := InLeapYear_bounds y
  rw [lastDayOfMonth_eq] at hd1
  have hb := monthStartDay_add_lt m (InLeapYear y) dd hl.1 hl.2.1 hm0 hm1 hd1
  have hyear : YearFromTime
      (MakeDate (DayFromYear y + monthStartDay m (InLeapYear y) + dd - 1) tm) = y := by
    unfold YearFromTime
    rw [Day_MakeDate h0 h1]
    apply YearFromDay_eq_of_bounds
    · omega
    · rw [DayFromYear_succ]; omega
  have hdwy : DayWithinYear
      (MakeDate (DayFromYear y + monthStartDay m (InLeapYear y) + dd - 1) tm) =
      monthStartDay m (InLeapYear y) + dd - 1 := by
    unfold DayWithinYear
    rw [hyear, Day_MakeDate h0 h1]
    omega
  have hmonth : MonthFromTime
      (MakeDate (DayFromYear y + monthStartDay m (InLeapYear y) + dd - 1) tm) = m := by
    unfold MonthFromTime
    rw [hyear, hdwy]
    exact monthOfDayWithinYear_monthStartDay m _ dd hl.1 hl.2.1 hm0 hm1 hd0 hd1
  refine ⟨hyear, hmonth, ?_⟩
  unfold DateFromTime
  rw [hmonth, hyear, hdwy]
  omega

end CtrlMoney

namespace CtrlMoney

/-! ## Period resolver -/

theorem getDateRange_week_eq (now : Int) :
    getDateRange (JSValue.string "week") now =
      { startDate := MakeDate
          (Day now - (if getDay now = 0 then 6 else getDay now - 1)) (MakeTime 0 0 0 0)
        endDate := MakeDate
          (Day now - (if getDay now = 0 then 6 else getDay now - 1) + 6)
          (MakeTime 23 59 59 999) } := by
  have hd : Day now + (getDate now - getDay now + (if getDay now = 0 then -6 else 1)
      - getDate now) = Day now - (if getDay now = 0 then 6 else getDay now - 1) := by
    split_ifs with h
    · rw [h]; ring
    · ring
  have hs : setHours (setDate now (getDate now - getDay now +
      (if getDay now = 0 then -6 else 1))) 0 0 0 0 =
      MakeDate (Day now - (if getDay now = 0 then 6 else getDay now - 1))
        (MakeTime 0 0 0 0) := by
    rw [setHours_setDate, hd]
  have h0 : (0 : Int) ≤ MakeTime 0 0 0 0 ∧ MakeTime 0 0 0 0 < msPerDay := by
    unfold MakeTime msPerDay; omega
  simp only [getDateRange, if_true]
  rw [hs, setHours_setDate, Day_MakeDate h0.1 h0.2]
  congr 2
  ring

/-- C8: the week range starts at 00:00:00.000 of the reference day moved back 6 days
on a Sunday and (day-of-week − 1) days otherwise, which is a Monday; it ends at
23:59:59.999 of the day 6 days later, a Sunday; and it contains the reference instant. -/
theorem getDateRange_week (now : Int) :
    (getDateRange (JSValue.string "week") now).startDate =
      MakeDate (Day now - (if getDay now = 0 then 6 else getDay now - 1))
        (MakeTime 0 0 0 0) ∧
    getDay (getDateRange (JSValue.string "week") now).startDate = 1 ∧
    (getDateRange (JSValue.string "week") now).endDate =
      MakeDate (Day (getDateRange (JSValue.string "week") now).startDate + 6)
        (MakeTime 23 59 59 999) ∧
    getDay (getDateRange (JSValue.string "week") now).endDate = 0 ∧
    (getDateRange (JSValue.string "week") now).startDate ≤ now ∧
    now ≤ (getDateRange (JSValue.string "week") now).endDate := by
  have h0 : (0 : Int) ≤ MakeTime 0 0 0 0 ∧ MakeTime 0 0 0 0 < msPerDay := by
    unfold MakeTime msPerDay; omega
  have h1 : (0 : Int) ≤ MakeTime 23 59 59 999 ∧ MakeTime 23 59 59 999 < msPerDay := by
    unfold MakeTime msPerDay; omega
  rw [getDateRange_week_eq]
  dsimp only
  refine ⟨rfl, ?_, ?_, ?_, ?_, ?_⟩
  · unfold getDay WeekDay
    rw [Day_MakeDate h0.1 h0.2]
    split_ifs with h <;> omega
  · rw [Day_MakeDate h0.1 h0.2]
  · unfold getDay WeekDay
    rw [Day_MakeDate h1.1 h1.2]
    split_ifs with h <;> omega
  · unfold getDay WeekDay MakeDate MakeTime Day msPerDay
    split_ifs with h <;> omega
  · unfold getDay WeekDay MakeDate MakeTime Day msPerDay
    split_ifs with h <;> omega

theorem MakeTime_bounds_start : (0 : Int) ≤ MakeTime 0 0 0 0 ∧ MakeTime 0 0 0 0 < msPerDay := by
  unfold MakeTime msPerDay; omega

theorem MakeTime_bounds_end :
    (0 : Int) ≤ MakeTime 23 59 59 999 ∧ MakeTime 23 59 59 999 < msPerDay := by
  unfold MakeTime msPerDay; omega

theorem lastDayOfMonth_pos (y m : Int) : 1 ≤ lastDayOfMonth y m := by
  unfold lastDayOfMonth
  split_ifs <;> omega

/-- The day number `new Date(y, m + 1, 0)` falls on: the last day of month `m`. -/
theorem MakeDay_succ_month_zero (y m : Int) (hm0 : 0 ≤ m) (hm1 : m ≤ 11) :
    MakeDay y (m + 1) 0 =
      DayFromYear y + monthStartDay m (InLeapYear y) + lastDayOfMonth y m - 1 := by
  have hl := InLeapYear_bounds y
  rw [lastDayOfMonth_eq]
  unfold MakeDay
  simp only
  by_cases h11 : m = 11
  · subst h11
    have e1 : ((11 : Int) + 1) / 12 = 1 := by decide
    have e2 : ((11 : Int) + 1) % 12 = 0 := by decide
    rw [e1, e2, DayFromYear_succ]
    simp only [monthStartDay]
    norm_num
    omega
  · have e1 : (m + 1) / 12 = 0 := by omega
    have e2 : (m + 1) % 12 = m + 1 := by omega
    simp only [e1, e2, add_zero]
    rw [monthStartDay_succ m _ hm0 (by omega)]
    omega

theorem MakeDay_month_one (y m : Int) (hm0 : 0 ≤ m) (hm1 : m ≤ 11) :
    MakeDay y m 1 = DayFromYear y + monthStartDay m (InLeapYear y) + 1 - 1 := by
  have e1 : m / 12 = 0 := by omega
  have e2 : m % 12 = m := by omega
  unfold MakeDay
  simp only [e1, e2, add_zero]

end CtrlMoney

namespace CtrlMoney

/-- C9: for a reference instant whose year is not one of the two-digit years 0 to 99
(which the `Date` constructor maps to 1900 to 1999), the month range starts on day 1 of
the reference month at 00:00:00.000 and ends on the last calendar day of that month
(`lastDayOfMonth`: 31, 30, 29 or 28 by the Gregorian rule) at 23:59:59.999. -/
theorem getDateRange_month (now : Int)
    (hy : ¬ (0 ≤ getFullYear now ∧ getFullYear now ≤ 99)) :
    getFullYear (getDateRange (JSValue.string "month") now).startDate = getFullYear now ∧
    getMonth (getDateRange (JSValue.string "month") now).startDate = getMonth now ∧
    getDate (getDateRange (JSValue.string "month") now).startDate = 1 ∧
    TimeWithinDay (getDateRange (JSValue.string "month") now).startDate = 0 ∧
    getFullYear (getDateRange (JSValue.string "month") now).endDate = getFullYear now ∧
    getMonth (getDateRange (JSValue.string "month") now).endDate = getMonth now ∧
    getDate (getDateRange (JSValue.string "month") now).endDate =
      lastDayOfMonth (getFullYear now) (getMonth now) ∧
    TimeWithinDay (getDateRange (JSValue.string "month") now).endDate =
      MakeTime 23 59 59 999 := by
  have hm : 0 ≤ getMonth now ∧ getMonth now ≤ 11 := MonthFromTime_bounds now
  have hs := MakeTime_bounds_start
  have he := MakeTime_bounds_end
  have hrange : getDateRange (JSValue.string "month") now =
      { startDate := MakeDate (DayFromYear (getFullYear now) +
          monthStartDay (getMonth now) (InLeapYear (getFullYear now)) + 1 - 1)
          (MakeTime 0 0 0 0)
        endDate := MakeDate (DayFromYear (getFullYear now) +
          monthStartDay (getMonth now) (InLeapYear (getFullYear now)) +
          lastDayOfMonth (getFullYear now) (getMonth now) - 1)
          (MakeTime 23 59 59 999) } := by
    have h1 : JSValue.string "month" ≠ JSValue.string "week" := by decide
    simp only [getDateRange, if_neg h1, if_true, newDate, if_neg hy]
    rw [MakeDay_month_one _ _ hm.1 hm.2, MakeDay_succ_month_zero _ _ hm.1 hm.2]
  rw [hrange]
  dsimp only
  have c1 := civil_of_MakeDate (getFullYear now) (getMonth now) 1 (MakeTime 0 0 0 0)
    hm.1 hm.2 (le_refl 1) (lastDayOfMonth_pos _ _) hs.1 hs.2
  have c2 := civil_of_MakeDate (getFullYear now) (getMonth now)
    (lastDayOfMonth (getFullYear now) (getMonth now)) (MakeTime 23 59 59 999)
    hm.1 hm.2 (lastDayOfMonth_pos _ _) (le_refl _) he.1 he.2
  refine ⟨c1.1, c1.2.1, c1.2.2, ?_, c2.1, c2.2.1, c2.2.2, ?_⟩
  · rw [TimeWithinDay_MakeDate hs.1 hs.2]; rfl
  · rw [TimeWithinDay_MakeDate he.1 he.2]

/-- C9, at 10 February 2024 05:00 and 10 February 2023 05:00: the month ends on the
29th and on the 28th. -/
theorem getDateRange_month_witness :
    getDate (getDateRange (JSValue.string "month") 1707541200000).endDate = 29 ∧
    getDate (getDateRange (JSValue.string "month") 1676005200000).endDate = 28 :=
  ⟨((getDateRange_month 1707541200000 (by decide)).2.2.2.2.2.2.1).trans (by decide),
   ((getDateRange_month 1676005200000 (by decide)).2.2.2.2.2.2.1).trans (by decide)⟩

/-- C10: every period value other than the strings week, month and year is resolved to
the range of month; the function is total, so no error is raised. -/
theorem getDateRange_default (period : JSValue) (now : Int)
    (hw : period ≠ JSValue.string "week") (hm : period ≠ JSValue.string "month")
    (hy : period ≠ JSValue.string "year") :
    getDateRange period now = getDateRange (JSValue.string "month") now := by
  have h1 : JSValue.string "month" ≠ JSValue.string "week" := by decide
  simp only [getDateRange, if_neg hw, if_neg hm, if_neg hy, if_neg h1, if_true]

/-- C10, at the values `undefined` and the empty string. -/
theorem getDateRange_default_witness :
    getDateRange JSValue.undefined 1707541200000 =
      getDateRange (JSValue.string "month") 1707541200000 ∧
    getDateRange (JSValue.string "") 1707541200000 =
      getDateRange (JSValue.string "month") 1707541200000 :=
  ⟨getDateRange_default JSValue.undefined 1707541200000 (by decide) (by decide) (by decide),
   getDateRange_default (JSValue.string "") 1707541200000 (by decide) (by decide)
    (by decide)⟩

end CtrlMoney

namespace CtrlMoney

/-! ## Sums -/

theorem orZero_eq (x : ℚ) : orZero x = x := by
  unfold orZero
  split_ifs with h
  · exact h.symm
  · rfl

theorem foldl_add_amount (arr : List Transaction) (s : ℚ) :
    arr.foldl (fun s t => s + t.amount) s = s + (arr.map (fun t => t.amount)).sum := by
  induction arr generalizing s with
  | nil => simp
  | cons t ts ih => simp [List.foldl_cons, ih, add_assoc]

theorem sumAmounts_eq_sum (arr : List Transaction) :
    sumAmounts arr = (arr.map (fun t => t.amount)).sum := by
  unfold sumAmounts
  rw [foldl_add_amount, zero_add]

end CtrlMoney

namespace CtrlMoney

theorem foldl_linkAccounts (accounts : List Account) (ids : List Nat)
    (st : ℚ × List ConnectedAccount) :
    ids.foldl
      (fun st accId =>
        match accounts.find? (fun a => decide (a.id = accId)) with
        | some account =>
            (st.1 + orZero account.amount,
             st.2 ++ [{ id := account.id, name := account.name,
                        amount := orZero account.amount }])
        | none => st)
      st =
    (st.1 + ((resolvedAccounts accounts ids).map (fun a => a.amount)).sum,
     st.2 ++ (resolvedAccounts accounts ids).map
       (fun a => { id := a.id, name := a.name, amount := a.amount })) := by
  induction ids generalizing st with
  | nil => simp [resolvedAccounts]
  | cons x xs ih =>
    rw [List.foldl_cons, ih]
    cases hfind : accounts.find? (fun a => decide (a.id = x)) with
    | none => simp [resolvedAccounts, hfind]
    | some account =>
      simp [resolvedAccounts, hfind, orZero_eq, add_assoc]

theorem linkAccounts_eq (accounts : List Account) (ids : List Nat) :
    linkAccounts accounts ids =
      (((resolvedAccounts accounts ids).map (fun a => a.amount)).sum,
       (resolvedAccounts accounts ids).map
        (fun a => { id := a.id, name := a.name, amount := a.amount })) := by
  unfold linkAccounts
  rw [foldl_linkAccounts]
  simp

theorem resolvedBalances_eq (accounts : List Account) (ids : List Nat) :
    resolvedBalances accounts ids = (resolvedAccounts accounts ids).map (fun a => a.amount) := by
  unfold resolvedBalances resolvedAccounts
  rw [List.map_filterMap]

/-- An id that no account carries contributes no account. -/
theorem resolvedAccounts_dangling (accounts : List Account) (pre post : List Nat) (x : Nat)
    (hx : ∀ a ∈ accounts, a.id ≠ x) :
    resolvedAccounts accounts (pre ++ x :: post) = resolvedAccounts accounts (pre ++ post) := by
  have hfind : accounts.find? (fun a => decide (a.id = x)) = none := by
    rw [List.find?_eq_none]
    intro a ha
    simpa using hx a ha
  simp [resolvedAccounts, List.filterMap_append, List.filterMap_cons, hfind]

theorem categoryItem_fields (cat : Category) (spent : ℚ) :
    (categoryItem cat spent).budget = cat.budget ∧ (categoryItem cat spent).spent = spent ∧
    (categoryItem cat spent).progress = categoryProgress cat.budget spent ∧
    (categoryItem cat spent).name = cat.name := by
  unfold categoryItem
  simp only
  split_ifs <;> exact ⟨rfl, rfl, rfl, rfl⟩

theorem categoryItem_statusClass (cat : Category) (spent : ℚ) :
    (categoryItem cat spent).statusClass =
      if cat.budget = 0 then "no-budget"
      else if spent > cat.budget then "over-budget"
      else if categoryProgress cat.budget spent ≥ 90 then "warning"
      else "good" := by
  unfold categoryItem
  simp only
  split_ifs <;> rfl

theorem categoryItem_overspent (cat : Category) (spent : ℚ) :
    (categoryItem cat spent).overspent =
      if cat.budget = 0 then none
      else if spent > cat.budget then some (spent - cat.budget)
      else none := by
  unfold categoryItem
  simp only
  split_ifs <;> rfl

theorem mem_renderCategories {currentMonth : Int} {categories forecastCategories : List Category}
    {expensesTransactions : List Transaction} {it : CategoryItem}
    (h : it ∈ renderCategories currentMonth categories forecastCategories
      expensesTransactions) :
    ∃ cat spent, cat ∈ effectiveCategories categories forecastCategories ∧
      it = categoryItem cat spent := by
  unfold renderCategories at h
  simp only [List.mem_map] at h
  obtain ⟨cat, hc, rfl⟩ := h
  exact ⟨cat, _, hc, rfl⟩

end CtrlMoney

namespace CtrlMoney

/-! ## Budget evaluator -/

/-- C1: for every item `renderCategories` produces, the status is decided by the first
test that holds, in the order: budget equal to 0, spent above budget, progress at
least 90, otherwise good; and the status is exactly one of the four. -/
theorem renderCategories_status (currentMonth : Int)
    (categories forecastCategories : List Category)
    (expensesTransactions : List Transaction) (it : CategoryItem)
    (h : it ∈ renderCategories currentMonth categories forecastCategories
      expensesTransactions) :
    (it.budget = 0 → it.statusClass = "no-budget") ∧
    (it.budget ≠ 0 → it.spent > it.budget → it.statusClass = "over-budget") ∧
    (it.budget ≠ 0 → ¬ it.spent > it.budget → it.progress ≥ 90 →
      it.statusClass = "warning") ∧
    (it.budget ≠ 0 → ¬ it.spent > it.budget → ¬ it.progress ≥ 90 →
      it.statusClass = "good") ∧
    (∃! s, s ∈ ["no-budget", "over-budget", "warning", "good"] ∧ it.statusClass = s) := by
  obtain ⟨cat, spent, -, rfl⟩ := mem_renderCategories h
  obtain ⟨hb, hs, hp, -⟩ := categoryItem_fields cat spent
  rw [hb, hs, hp, categoryItem_statusClass]
  refine ⟨?_, ?_, ?_, ?_, ?_⟩
  · intro h0; rw [if_pos h0]
  · intro h0 h1; rw [if_neg h0, if_pos h1]
  · intro h0 h1 h2; rw [if_neg h0, if_neg h1, if_pos h2]
  · intro h0 h1 h2; rw [if_neg h0, if_neg h1, if_neg h2]
  · refine ⟨_, ⟨?_, rfl⟩, fun s hs => hs.2.symm⟩
    split_ifs <;> simp

/-- C2: an item whose budget is positive and whose spent amount exceeds it is
over-budget, not warning, although its progress is capped at 100; the overspent
amount shown is spent − budget, a positive amount. -/
theorem renderCategories_over_budget (currentMonth : Int)
    (categories forecastCategories : List Category)
    (expensesTransactions : List Transaction) (it : CategoryItem)
    (h : it ∈ renderCategories currentMonth categories forecastCategories
      expensesTransactions)
    (hb : it.budget > 0) (hs : it.spent > it.budget) :
    it.statusClass = "over-budget" ∧ it.statusClass ≠ "warning" ∧
    it.progress = 100 ∧ it.progress ≥ 90 ∧
    it.overspent = some (it.spent - it.budget) ∧ it.spent - it.budget > 0 := by
  obtain ⟨cat, spent, -, rfl⟩ := mem_renderCategories h
  obtain ⟨hb', hs', hp', -⟩ := categoryItem_fields cat spent
  rw [hb'] at hb hs
  rw [hs'] at hs
  have hne : cat.budget ≠ 0 := ne_of_gt hb
  have hprog : categoryProgress cat.budget spent = 100 := by
    unfold categoryProgress
    rw [if_pos hb]
    apply min_eq_right
    rw [le_mul_iff_one_le_left (by norm_num), one_le_div hb]
    exact le_of_lt hs
  rw [hb', hs', hp', categoryItem_statusClass, categoryItem_overspent, if_neg hne, if_pos hs,
    if_neg hne, if_pos hs, hprog]
  refine ⟨rfl, by decide, rfl, by norm_num, rfl, sub_pos.mpr hs⟩

end CtrlMoney

namespace CtrlMoney

/-- For a selected month at 15 January 2024 09:30 the bounds used by `renderCategories`
are 1 January 2024 00:00:00.000 and 31 January 2024 00:00:00.000. -/
theorem monthBounds_january_2024 :
    newDate (getFullYear 1705311000000) (getMonth 1705311000000) 1 0 0 0 0 =
      1704067200000 ∧
    newDate (getFullYear 1705311000000) (getMonth 1705311000000 + 1) 0 0 0 0 0 =
      1706659200000 := by
  decide

/-- C1, at a category of budget 1000 with one expense of 950 on 20 January 2024 18:00,
the selected month being January 2024: the item is a warning. -/
theorem renderCategories_status_witness :
    ({ name := "еда", emoji := "🍔", budget := 1000, spent := 950, progress := 95,
       statusClass := "warning", statusMessage := "Почти достигнут лимит",
       overspent := none, statusEmoji := "⚠️" } : CategoryItem) ∈
      renderCategories 1705311000000 [⟨"еда", 1000, "🍔"⟩] []
        [⟨1, "обед", 950, "еда", some 1705773600000⟩] ∧
    (renderCategories 1705311000000 [⟨"еда", 1000, "🍔"⟩] []
        [⟨1, "обед", 950, "еда", some 1705773600000⟩]).map (fun it => it.statusClass) =
      ["warning"] := by
  have heval : renderCategories 1705311000000 [⟨"еда", 1000, "🍔"⟩] []
      [⟨1, "обед", 950, "еда", some 1705773600000⟩] =
      [{ name := "еда", emoji := "🍔", budget := 1000, spent := 950, progress := 95,
         statusClass := "warning", statusMessage := "Почти достигнут лимит",
         overspent := none, statusEmoji := "⚠️" }] := by
    unfold renderCategories
    rw [monthBounds_january_2024.1, monthBounds_january_2024.2]
    simp [effectiveCategories, categorySpent, dateBetween, sumAmounts, categoryItem,
      categoryProgress]
    norm_num
  have hmem :
    ({ name := "еда", emoji := "🍔", budget := 1000, spent := 950, progress := 95,
       statusClass := "warning", statusMessage := "Почти достигнут лимит",
       overspent := none, statusEmoji := "⚠️" } : CategoryItem) ∈
      renderCategories 1705311000000 [⟨"еда", 1000, "🍔"⟩] []
        [⟨1, "обед", 950, "еда", some 1705773600000⟩] := by
    rw [heval]; exact List.mem_singleton.mpr rfl
  refine ⟨hmem, ?_⟩
  have hst := (renderCategories_status _ _ _ _ _ hmem).2.2.1
    (by norm_num) (by norm_num) (by norm_num)
  rw [heval, List.map_singleton, hst]

/-- C2, at budget 1000 and one expense of 1500 on 20 January 2024 18:00, the selected
month being January 2024: the item is over-budget with overspent amount 500. -/
theorem renderCategories_over_budget_witness :
    ({ name := "еда", emoji := "🍔", budget := 1000, spent := 1500, progress := 100,
       statusClass := "over-budget", statusMessage := "Превышен на ",
       overspent := some 500, statusEmoji := "🚨" } : CategoryItem) ∈
      renderCategories 1705311000000 [⟨"еда", 1000, "🍔"⟩] []
        [⟨1, "обед", 1500, "еда", some 1705773600000⟩] ∧
    (renderCategories 1705311000000 [⟨"еда", 1000, "🍔"⟩] []
        [⟨1, "обед", 1500, "еда", some 1705773600000⟩]).map
        (fun it => (it.statusClass, it.overspent)) = [("over-budget", some 500)] := by
  have heval : renderCategories 1705311000000 [⟨"еда", 1000, "🍔"⟩] []
      [⟨1, "обед", 1500, "еда", some 1705773600000⟩] =
      [{ name := "еда", emoji := "🍔", budget := 1000, spent := 1500, progress := 100,
         statusClass := "over-budget", statusMessage := "Превышен на ",
         overspent := some 500, statusEmoji := "🚨" }] := by
    unfold renderCategories
    rw [monthBounds_january_2024.1, monthBounds_january_2024.2]
    simp [effectiveCategories, categorySpent, dateBetween, sumAmounts, categoryItem,
      categoryProgress]
    norm_num
  have hmem :
    ({ name := "еда", emoji := "🍔", budget := 1000, spent := 1500, progress := 100,
       statusClass := "over-budget", statusMessage := "Превышен на ",
       overspent := some 500, statusEmoji := "🚨" } : CategoryItem) ∈
      renderCategories 1705311000000 [⟨"еда", 1000, "🍔"⟩] []
        [⟨1, "обед", 1500, "еда", some 1705773600000⟩] := by
    rw [heval]; exact List.mem_singleton.mpr rfl
  refine ⟨hmem, ?_⟩
  have hob := renderCategories_over_budget _ _ _ _ _ hmem (by norm_num) (by norm_num)
  rw [heval, List.map_singleton, hob.1, hob.2.2.2.2.1]
  norm_num

/-- C3, at one expense of 100 in the category on 31 January 2024 12:00, the selected
month being January 2024: the expense lies in the calendar month (and in the month
range of `getDateRange`), yet `renderCategories` reports spent 0, because its upper
bound is 31 January 00:00:00.000. -/
theorem renderCategories_spent_last_day :
    getFullYear 1706702400000 = 2024 ∧ getMonth 1706702400000 = 0 ∧
    getDate 1706702400000 = 31 ∧
    (getDateRange (JSValue.string "month") 1705311000000).startDate ≤ 1706702400000 ∧
    1706702400000 ≤ (getDateRange (JSValue.string "month") 1705311000000).endDate ∧
    renderCategories 1705311000000 [⟨"еда", 1000, "🍔"⟩] []
        [⟨1, "обед", 100, "еда", some 1706702400000⟩] =
      [{ name := "еда", emoji := "🍔", budget := 1000, spent := 0, progress := 0,
         statusClass := "good", statusMessage := "В пределах нормы", overspent := none,
         statusEmoji := "✅" }] := by
  refine ⟨by decide, by decide, by decide, by decide, by decide, ?_⟩
  unfold renderCategories
  rw [monthBounds_january_2024.1, monthBounds_january_2024.2]
  simp [effectiveCategories, categorySpent, dateBetween, sumAmounts, categoryItem,
    categoryProgress]
  norm_num

end CtrlMoney

namespace CtrlMoney

/-! ## Goal evaluator -/

theorem goalItem_fields (fm : ℚ) (accounts : List Account) (goal : Goal) :
    (goalItem fm accounts goal).target = goal.target ∧
    (goalItem fm accounts goal).accountsSum = (linkAccounts accounts goal.accounts).1 ∧
    (goalItem fm accounts goal).accumulated =
      (if goal.use_only_accounts then (linkAccounts accounts goal.accounts).1
       else fm + (linkAccounts accounts goal.accounts).1) ∧
    (goalItem fm accounts goal).totalProgress =
      goalProgress goal.target (goalItem fm accounts goal).accumulated := by
  exact ⟨rfl, rfl, rfl, rfl⟩

theorem goalItem_statusText (fm : ℚ) (accounts : List Account) (goal : Goal) :
    (goalItem fm accounts goal).statusText =
      if (goalItem fm accounts goal).accumulated > (goalItem fm accounts goal).target then
        "Цель перевыполнена!"
      else if (goalItem fm accounts goal).accumulated ≥ (goalItem fm accounts goal).target then
        "Цель достигнута!"
      else if (goalItem fm accounts goal).totalProgress ≥ 80 then "Почти у цели!"
      else if (goalItem fm accounts goal).totalProgress ≥ 50 then "На полпути!"
      else if (goalItem fm accounts goal).totalProgress ≥ 25 then "Есть прогресс!"
      else "В процессе..." := by
  simp only [goalItem, decide_eq_true_eq]
  split_ifs <;> rfl

theorem mem_renderGoals {incomeTransactions expensesTransactions : List Transaction}
    {accounts : List Account} {goals : List Goal} {it : GoalItem}
    (h : it ∈ renderGoals incomeTransactions expensesTransactions accounts goals) :
    ∃ goal, goal ∈ goals ∧
      it = goalItem (freeMoney incomeTransactions expensesTransactions) accounts goal := by
  unfold renderGoals at h
  simp only [List.mem_map] at h
  obtain ⟨goal, hg, rfl⟩ := h
  exact ⟨goal, hg, rfl⟩

/-- C4: for every item `renderGoals` produces, the status is decided by the first test
that holds, in the order: accumulated above target (over-target), accumulated at least
target (achieved), progress at least 80 (near), at least 50 (halfway), at least 25
(started), otherwise in progress. -/
theorem renderGoals_status (incomeTransactions expensesTransactions : List Transaction)
    (accounts : List Account) (goals : List Goal) (it : GoalItem)
    (h : it ∈ renderGoals incomeTransactions expensesTransactions accounts goals) :
    (it.accumulated > it.target → it.statusText = "Цель перевыполнена!") ∧
    (¬ it.accumulated > it.target → it.accumulated ≥ it.target →
      it.statusText = "Цель достигнута!") ∧
    (¬ it.accumulated ≥ it.target → it.totalProgress ≥ 80 →
      it.statusText = "Почти у цели!") ∧
    (¬ it.accumulated ≥ it.target → ¬ it.totalProgress ≥ 80 → it.totalProgress ≥ 50 →
      it.statusText = "На полпути!") ∧
    (¬ it.accumulated ≥ it.target → ¬ it.totalProgress ≥ 50 → it.totalProgress ≥ 25 →
      it.statusText = "Есть прогресс!") ∧
    (¬ it.accumulated ≥ it.target → ¬ it.totalProgress ≥ 25 →
      it.statusText = "В процессе...") := by
  obtain ⟨goal, -, rfl⟩ := mem_renderGoals h
  rw [goalItem_statusText]
  refine ⟨?_, ?_, ?_, ?_, ?_, ?_⟩
  · intro h1; rw [if_pos h1]
  · intro h1 h2; rw [if_neg h1, if_pos h2]
  · intro h2 h3
    have h1 := fun hh => h2 (le_of_lt hh)
    rw [if_neg h1, if_neg h2, if_pos h3]
  · intro h2 h3 h4
    have h1 := fun hh => h2 (le_of_lt hh)
    rw [if_neg h1, if_neg h2, if_neg h3, if_pos h4]
  · intro h2 h4 h5
    have h1 := fun hh => h2 (le_of_lt hh)
    have h3 : ¬ (goalItem (freeMoney incomeTransactions expensesTransactions) accounts
        goal).totalProgress ≥ 80 := fun hh => h4 (le_trans (by norm_num) hh)
    rw [if_neg h1, if_neg h2, if_neg h3, if_neg h4, if_pos h5]
  · intro h2 h5
    have h1 := fun hh => h2 (le_of_lt hh)
    have h4 : ¬ (goalItem (freeMoney incomeTransactions expensesTransactions) accounts
        goal).totalProgress ≥ 50 := fun hh => h5 (le_trans (by norm_num) hh)
    have h3 : ¬ (goalItem (freeMoney incomeTransactions expensesTransactions) accounts
        goal).totalProgress ≥ 80 := fun hh => h5 (le_trans (by norm_num) hh)
    rw [if_neg h1, if_neg h2, if_neg h3, if_neg h4, if_neg h5]

end CtrlMoney

namespace CtrlMoney

/-- C4, at target 1000, `use_only_accounts` false, one income of 1200, no expenses and
no linked accounts (free money 1200, linked sum 0): accumulated is 1200 and the goal is
over-target. -/
theorem renderGoals_status_witness :
    ({ name := "отпуск", target := 1000, accountsSum := 0, connectedAccountsList := [],
       useOnlyAccounts := false, accumulated := 1200, totalProgress := 100,
       canAfford := true, isOverBudget := true, statusText := "Цель перевыполнена!",
       emoji := "🎉" } : GoalItem) ∈
      renderGoals [⟨1, "зарплата", 1200, "доход", some 1705773600000⟩] [] []
        [⟨1, "отпуск", 1000, [], false⟩] ∧
    (renderGoals [⟨1, "зарплата", 1200, "доход", some 1705773600000⟩] [] []
        [⟨1, "отпуск", 1000, [], false⟩]).map (fun it => (it.accumulated, it.statusText)) =
      [(1200, "Цель перевыполнена!")] := by
  have heval : renderGoals [⟨1, "зарплата", 1200, "доход", some 1705773600000⟩] [] []
      [⟨1, "отпуск", 1000, [], false⟩] =
      [{ name := "отпуск", target := 1000, accountsSum := 0, connectedAccountsList := [],
         useOnlyAccounts := false, accumulated := 1200, totalProgress := 100,
         canAfford := true, isOverBudget := true, statusText := "Цель перевыполнена!",
         emoji := "🎉" }] := by
    simp [renderGoals, goalItem, freeMoney, sumAmounts, linkAccounts, goalProgress]
    norm_num
  have hmem :
    ({ name := "отпуск", target := 1000, accountsSum := 0, connectedAccountsList := [],
       useOnlyAccounts := false, accumulated := 1200, totalProgress := 100,
       canAfford := true, isOverBudget := true, statusText := "Цель перевыполнена!",
       emoji := "🎉" } : GoalItem) ∈
      renderGoals [⟨1, "зарплата", 1200, "доход", some 1705773600000⟩] [] []
        [⟨1, "отпуск", 1000, [], false⟩] := by
    rw [heval]; exact List.mem_singleton.mpr rfl
  refine ⟨hmem, ?_⟩
  have hst := (renderGoals_status _ _ _ _ _ hmem).1 (by norm_num)
  rw [heval, List.map_singleton, hst]

/-- C6: free money is the sum of all income amounts minus the sum of all expense
amounts; for every goal the linked sum is the sum of the balances of the accounts its
ids resolve to, and accumulated is the linked sum when `use_only_accounts` is true and
free money plus the linked sum otherwise. -/
theorem renderGoals_accumulated (incomeTransactions expensesTransactions : List Transaction)
    (accounts : List Account) (goals : List Goal) :
    freeMoney incomeTransactions expensesTransactions =
      (incomeTransactions.map (fun t => t.amount)).sum -
        (expensesTransactions.map (fun t => t.amount)).sum ∧
    (renderGoals incomeTransactions expensesTransactions accounts goals).map
        (fun it => (it.accountsSum, it.accumulated)) =
      goals.map (fun goal =>
        ((resolvedBalances accounts goal.accounts).sum,
         if goal.use_only_accounts then (resolvedBalances accounts goal.accounts).sum
         else (incomeTransactions.map (fun t => t.amount)).sum -
                (expensesTransactions.map (fun t => t.amount)).sum +
              (resolvedBalances accounts goal.accounts).sum)) := by
  have hfree : freeMoney incomeTransactions expensesTransactions =
      (incomeTransactions.map (fun t => t.amount)).sum -
        (expensesTransactions.map (fun t => t.amount)).sum := by
    unfold freeMoney
    rw [sumAmounts_eq_sum, sumAmounts_eq_sum]
  refine ⟨hfree, ?_⟩
  unfold renderGoals
  rw [List.map_map]
  apply List.map_congr_left
  intro goal _
  obtain ⟨-, hsum, hacc, -⟩ :=
    goalItem_fields (freeMoney incomeTransactions expensesTransactions) accounts goal
  simp only [Function.comp_apply]
  rw [hsum, hacc, linkAccounts_eq, resolvedBalances_eq, hfree]

/-- C7: an id of `goal.accounts` that no account of the snapshot carries is skipped:
with or without it, at any position, `renderGoals` produces the same items (the same
linked sum, accumulated amount, progress and status). -/
theorem renderGoals_dangling (incomeTransactions expensesTransactions : List Transaction)
    (accounts : List Account) (before after : List Goal) (goal : Goal)
    (pre post : List Nat) (x : Nat) (hx : ∀ a ∈ accounts, a.id ≠ x) :
    renderGoals incomeTransactions expensesTransactions accounts
        (before ++ { goal with accounts := pre ++ x :: post } :: after) =
      renderGoals incomeTransactions expensesTransactions accounts
        (before ++ { goal with accounts := pre ++ post } :: after) := by
  have hlink : linkAccounts accounts (pre ++ x :: post) = linkAccounts accounts (pre ++ post) := by
    rw [linkAccounts_eq, linkAccounts_eq, resolvedAccounts_dangling accounts pre post x hx]
  unfold renderGoals
  simp only [List.map_append, List.map_cons, goalItem, hlink]

end CtrlMoney

namespace CtrlMoney

/-- C7, at a goal linked to account 7 (balance 400) and to the id 9 that no account
carries. -/
theorem renderGoals_dangling_witness :
    renderGoals [⟨1, "зарплата", 5000, "доход", some 1705773600000⟩] []
        [⟨7, "вклад", 400⟩] [⟨1, "отпуск", 1000, [7, 9], true⟩] =
      renderGoals [⟨1, "зарплата", 5000, "доход", some 1705773600000⟩] []
        [⟨7, "вклад", 400⟩] [⟨1, "отпуск", 1000, [7], true⟩] :=
  renderGoals_dangling [⟨1, "зарплата", 5000, "доход", some 1705773600000⟩] []
    [⟨7, "вклад", 400⟩] [] [] ⟨1, "отпуск", 1000, [], true⟩ [7] [] 9 (by simp)

/-- C5 as stated fails: with target 1000, `use_only_accounts` true, linked accounts of
150 and 250 and free money 5000, the status is not the else-branch text. -/
theorem renderGoals_linked_only_not_in_progress :
    (renderGoals [⟨1, "зарплата", 5000, "доход", some 1705773600000⟩] []
        [⟨7, "вклад", 150⟩, ⟨8, "наличные", 250⟩]
        [⟨1, "отпуск", 1000, [7, 8], true⟩]).map
        (fun it => (it.accumulated, it.totalProgress, it.statusText)) ≠
      [(400, 40, "В процессе...")] := by
  simp [renderGoals, goalItem, freeMoney, sumAmounts, linkAccounts, goalProgress, orZero]
  norm_num
  decide

/-- C5, amended: a goal with target 1000 and `use_only_accounts` true whose linked
accounts sum to 400 has accumulated 400 whatever the free money, progress 40, and the
status of the branch for progress at least 25. -/
theorem renderGoals_linked_only_started
    (incomeTransactions expensesTransactions : List Transaction)
    (accounts : List Account) (goal : Goal) (ht : goal.target = 1000)
    (hu : goal.use_only_accounts = true)
    (hs : (resolvedBalances accounts goal.accounts).sum = 400) :
    (renderGoals incomeTransactions expensesTransactions accounts [goal]).map
        (fun it => (it.accumulated, it.totalProgress, it.statusText)) =
      [(400, 40, "Есть прогресс!")] := by
  obtain ⟨htar, -, hacc, hprog⟩ :=
    goalItem_fields (freeMoney incomeTransactions expensesTransactions) accounts goal
  rw [linkAccounts_eq, ← resolvedBalances_eq, hs, hu, if_pos rfl] at hacc
  have hp : (goalItem (freeMoney incomeTransactions expensesTransactions) accounts
      goal).totalProgress = 40 := by
    rw [hprog, hacc, ht]
    unfold goalProgress
    norm_num
  have hst := goalItem_statusText (freeMoney incomeTransactions expensesTransactions)
    accounts goal
  rw [hacc, htar, hp, ht] at hst
  norm_num at hst
  simp only [renderGoals, List.map_cons, List.map_nil, hacc, hp, hst]

/-- C5 amended, at linked accounts of 150 and 250 and one income of 5000. -/
theorem renderGoals_linked_only_started_witness :
    (renderGoals [⟨1, "зарплата", 5000, "доход", some 1705773600000⟩] []
        [⟨7, "вклад", 150⟩, ⟨8, "наличные", 250⟩]
        [⟨1, "отпуск", 1000, [7, 8], true⟩]).map
        (fun it => (it.accumulated, it.totalProgress, it.statusText)) =
      [(400, 40, "Есть прогресс!")] ∧
    freeMoney [⟨1, "зарплата", 5000, "доход", some 1705773600000⟩] [] = 5000 :=
  ⟨renderGoals_linked_only_started _ _ _ _ rfl rfl
    (by simp [resolvedBalances]; norm_num),
   by simp [freeMoney, sumAmounts]⟩

end CtrlMoney

namespace CtrlMoney

/-! ## Transaction filter -/

theorem newDate_month_le (y m : Int) (hm0 : 0 ≤ m) (hm1 : m ≤ 11) :
    newDate y m 1 0 0 0 0 ≤ newDate y (m + 1) 0 23 59 59 999 := by
  unfold newDate
  simp only
  rw [MakeDay_month_one _ _ hm0 hm1, MakeDay_succ_month_zero _ _ hm0 hm1]
  have h := lastDayOfMonth_pos (if 0 ≤ y ∧ y ≤ 99 then 1900 + y else y) m
  unfold MakeDate MakeTime msPerDay
  omega

theorem newDate_year_le (y : Int) :
    newDate y 0 1 0 0 0 0 ≤ newDate y 11 31 23 59 59 999 := by
  have hl := InLeapYear_bounds (if 0 ≤ y ∧ y ≤ 99 then 1900 + y else y)
  unfold newDate MakeDay
  simp only [monthStartDay]
  norm_num
  unfold MakeDate MakeTime msPerDay
  omega

/-- Every range `getDateRange` returns is well formed. -/
theorem getDateRange_start_le_end (period : JSValue) (now : Int) :
    (getDateRange period now).startDate ≤ (getDateRange period now).endDate := by
  have hm : 0 ≤ getMonth now ∧ getMonth now ≤ 11 := MonthFromTime_bounds now
  by_cases hw : period = JSValue.string "week"
  · subst hw
    rw [getDateRange_week_eq]
    dsimp only
    unfold MakeDate MakeTime msPerDay
    omega
  · by_cases hmo : period = JSValue.string "month"
    · simp only [getDateRange, if_neg hw, if_pos hmo]
      exact newDate_month_le _ _ hm.1 hm.2
    · by_cases hy : period = JSValue.string "year"
      · simp only [getDateRange, if_neg hw, if_neg hmo, if_pos hy]
        exact newDate_year_le _
      · simp only [getDateRange, if_neg hw, if_neg hmo, if_neg hy]
        exact newDate_month_le _ _ hm.1 hm.2

theorem dateBetween_iff (tDate : Option Int) (lo hi : Int) :
    dateBetween tDate lo hi = true ↔ ∃ d, tDate = some d ∧ lo ≤ d ∧ d ≤ hi := by
  cases tDate with
  | none => simp [dateBetween]
  | some d => simp [dateBetween]

/-- C11: `filterTransactions` returns a subsequence of its input (original relative
order), made of exactly the transactions whose date d satisfies
startDate ≤ d ≤ endDate for the resolved range, each as often as it occurs in the
input; transactions dated exactly at startDate or at endDate are included. -/
theorem filterTransactions_exact (transactions : List Transaction) (period : JSValue)
    (now : Int) :
    List.Sublist (filterTransactions transactions period now) transactions ∧
    (∀ t, t ∈ filterTransactions transactions period now ↔
      t ∈ transactions ∧ ∃ d, t.date = some d ∧
        (getDateRange period now).startDate ≤ d ∧ d ≤ (getDateRange period now).endDate) ∧
    (∀ t, t ∈ filterTransactions transactions period now →
      List.count t (filterTransactions transactions period now) =
        List.count t transactions) ∧
    (∀ t, t ∈ transactions → t.date = some (getDateRange period now).startDate →
      t ∈ filterTransactions transactions period now) ∧
    (∀ t, t ∈ transactions → t.date = some (getDateRange period now).endDate →
      t ∈ filterTransactions transactions period now) := by
  have hle := getDateRange_start_le_end period now
  have hmem : ∀ t, t ∈ filterTransactions transactions period now ↔
      t ∈ transactions ∧ ∃ d, t.date = some d ∧
        (getDateRange period now).startDate ≤ d ∧ d ≤ (getDateRange period now).endDate := by
    intro t
    unfold filterTransactions
    simp only [List.mem_filter, dateBetween_iff]
  refine ⟨?_, hmem, ?_, ?_, ?_⟩
  · unfold filterTransactions
    exact List.filter_sublist _
  · intro t ht
    have hb : dateBetween t.date (getDateRange period now).startDate
        (getDateRange period now).endDate = true :=
      (dateBetween_iff _ _ _).mpr ((hmem t).mp ht).2
    unfold filterTransactions
    exact List.count_filter (p := fun (u : Transaction) => dateBetween u.date
      (getDateRange period now).startDate (getDateRange period now).endDate) hb
  · intro t ht hd
    exact (hmem t).mpr ⟨ht, _, hd, le_refl _, hle⟩
  · intro t ht hd
    exact (hmem t).mpr ⟨ht, _, hd, hle, le_refl _⟩

/-- C12: a transaction with an invalid date is never in the result of
`filterTransactions`, and inserting or removing one at any position of the input leaves
the result unchanged; the function is total. -/
theorem filterTransactions_invalid_date (pre post : List Transaction) (t : Transaction)
    (period : JSValue) (now : Int) (ht : t.date = none) :
    t ∉ filterTransactions (pre ++ t :: post) period now ∧
    (∀ u, u ∈ filterTransactions (pre ++ t :: post) period now → u.date ≠ none) ∧
    filterTransactions (pre ++ t :: post) period now =
      filterTransactions (pre ++ post) period now := by
  have hno : ∀ u, u ∈ filterTransactions (pre ++ t :: post) period now → u.date ≠ none := by
    intro u hu hnone
    obtain ⟨-, d, hd, -⟩ := ((filterTransactions_exact _ period now).2.1 u).mp hu
    rw [hnone] at hd
    exact Option.noConfusion hd
  refine ⟨fun h => hno t h ht, hno, ?_⟩
  unfold filterTransactions
  simp only [List.filter_append, List.filter_cons, ht, dateBetween]
  simp

theorem sum_filter_add_sum_filter_not (l : List Transaction) (p q : Transaction → Bool)
    (h : ∀ t ∈ l, (p t = true ∧ q t = false) ∨ (p t = false ∧ q t = true)) :
    (l.map (fun t => t.amount)).sum =
      ((l.filter p).map (fun t => t.amount)).sum +
        ((l.filter q).map (fun t => t.amount)).sum := by
  induction l with
  | nil => simp
  | cons a l ih =>
    have ih' := ih (fun t ht => h t (List.mem_cons_of_mem _ ht))
    rcases h a (List.mem_cons_self _ _) with ⟨hp, hq⟩ | ⟨hp, hq⟩
    · simp only [List.filter_cons, hp, hq, List.map_cons, List.sum_cons, if_true]
      rw [ih']
      simp only [Bool.false_eq_true, if_false]
      ring
    · simp only [List.filter_cons, hp, hq, List.map_cons, List.sum_cons, if_true]
      rw [ih']
      simp only [Bool.false_eq_true, if_false]
      ring

/-- C13: when every transaction has a valid date, so that each falls either inside
the range or before its start or after its end, the sum of all amounts is the sum over
the transactions `filterTransactions` selects plus the sum over those outside the
range (amounts are exact rationals). -/
theorem filterTransactions_sum_partition (transactions : List Transaction)
    (period : JSValue) (now : Int) (hvalid : ∀ t ∈ transactions, t.date ≠ none) :
    sumAmounts transactions =
      sumAmounts (filterTransactions transactions period now) +
        sumAmounts (outsideRange transactions (getDateRange period now).startDate
          (getDateRange period now).endDate) := by
  rw [sumAmounts_eq_sum, sumAmounts_eq_sum, sumAmounts_eq_sum]
  unfold filterTransactions outsideRange
  apply sum_filter_add_sum_filter_not
  intro t ht
  cases hd : t.date with
  | none => exact absurd hd (hvalid t ht)
  | some d =>
    simp only [dateBetween]
    by_cases h1 : (getDateRange period now).startDate ≤ d
    · by_cases h2 : d ≤ (getDateRange period now).endDate
      · left; simp [h1, h2, not_lt.mpr h1, not_lt.mpr h2]
      · right; simp [h1, h2, not_lt.mpr h1, lt_of_not_le h2]
    · right; simp [h1, lt_of_not_le h1]

end CtrlMoney

namespace CtrlMoney

/-- C12, at a list of one transaction of 20 January 2024 18:00 followed by one with an
invalid date, the period month resolved at 15 January 2024 09:30. -/
theorem filterTransactions_invalid_date_witness :
    filterTransactions
        [⟨1, "обед", 100, "еда", some 1705773600000⟩, ⟨2, "кино", 50, "досуг", none⟩]
        (JSValue.string "month") 1705311000000 =
      filterTransactions [⟨1, "обед", 100, "еда", some 1705773600000⟩]
        (JSValue.string "month") 1705311000000 :=
  (filterTransactions_invalid_date [⟨1, "обед", 100, "еда", some 1705773600000⟩] []
    ⟨2, "кино", 50, "досуг", none⟩ (JSValue.string "month") 1705311000000 rfl).2.2

/-- C13, at one transaction of 20 January 2024 and one of 10 February 2024, the period
month resolved at 15 January 2024 09:30. -/
theorem filterTransactions_sum_partition_witness :
    sumAmounts
        [⟨1, "обед", 100, "еда", some 1705773600000⟩,
         ⟨2, "кино", 50, "досуг", some 1707541200000⟩] =
      sumAmounts (filterTransactions
        [⟨1, "обед", 100, "еда", some 1705773600000⟩,
         ⟨2, "кино", 50, "досуг", some 1707541200000⟩]
        (JSValue.string "month") 1705311000000) +
      sumAmounts (outsideRange
        [⟨1, "обед", 100, "еда", some 1705773600000⟩,
         ⟨2, "кино", 50, "досуг", some 1707541200000⟩]
        (getDateRange (JSValue.string "month") 1705311000000).startDate
        (getDateRange (JSValue.string "month") 1705311000000).endDate) :=
  filterTransactions_sum_partition _ (JSValue.string "month") 1705311000000 (by simp)

/-! ## Day of the month -/

theorem monthStartDay_monthOfDayWithinYear_le (d l : Int) (h0 : 0 ≤ d) :
    monthStartDay (monthOfDayWithinYear d l) l ≤ d := by
  unfold monthStartDay monthOfDayWithinYear
  omega

theorem DateFromTime_pos (t : Int) : 1 ≤ DateFromTime t := by
  have hb := DayWithinYear_bounds t
  have hl := InLeapYear_bounds (YearFromTime t)
  have h := monthStartDay_monthOfDayWithinYear_le (DayWithinYear t)
    (InLeapYear (YearFromTime t)) hb.1
  unfold DateFromTime MonthFromTime
  omega

/-- The day of the month of `new Date(y, m + 1, 0)`, for the year and month of an
instant whose year is not a two-digit year: the length of the month. -/
theorem getDate_monthEnd (t : Int) (hy : ¬ (0 ≤ getFullYear t ∧ getFullYear t ≤ 99)) :
    getDate (newDate (getFullYear t) (getMonth t + 1) 0 0 0 0 0) =
      lastDayOfMonth (getFullYear t) (getMonth t) := by
  have hm : 0 ≤ getMonth t ∧ getMonth t ≤ 11 := MonthFromTime_bounds t
  have hs := MakeTime_bounds_start
  simp only [newDate, if_neg hy]
  rw [MakeDay_succ_month_zero _ _ hm.1 hm.2]
  exact (civil_of_MakeDate (getFullYear t) (getMonth t)
    (lastDayOfMonth (getFullYear t) (getMonth t)) (MakeTime 0 0 0 0)
    hm.1 hm.2 (lastDayOfMonth_pos _ _) (le_refl _) hs.1 hs.2).2.2

theorem lastDayOfMonth_bounds (y m : Int) :
    28 ≤ lastDayOfMonth y m ∧ lastDayOfMonth y m ≤ 31 := by
  unfold lastDayOfMonth
  split_ifs <;> omega

end CtrlMoney

namespace CtrlMoney

/-! ## Cash-flow projection -/

theorem sumAmounts_onDay (transactions : List Transaction) (currentMonth day : Int) :
    sumAmounts (transactions.filter (fun t => onDay t.date day currentMonth)) =
      dayTotal transactions currentMonth day := by
  rw [sumAmounts_eq_sum]
  unfold dayTotal
  congr 2
  apply List.filter_congr
  intro t _
  cases hd : t.date with
  | none => simp [onDay]
  | some d =>
    simp only [onDay]
    by_cases h1 : getDate d = day <;> by_cases h2 : getMonth d = getMonth currentMonth <;>
      by_cases h3 : getFullYear d = getFullYear currentMonth <;> simp [h1, h2, h3]

theorem cashflow_fold (currentMonth : Int)
    (incomeTransactions expensesTransactions : List Transaction) (n : Nat) :
    ((List.range n).map (fun (i : Nat) => (i : Int) + 1)).foldl
        (cashflowStep currentMonth incomeTransactions expensesTransactions) (0, []) =
      (((List.range n).map (fun (k : Nat) =>
          dayTotal incomeTransactions currentMonth ((k : Int) + 1) -
            dayTotal expensesTransactions currentMonth ((k : Int) + 1))).sum,
       (List.range n).map (fun (i : Nat) =>
        { day := (i : Int) + 1
          income := dayTotal incomeTransactions currentMonth ((i : Int) + 1)
          expenses := dayTotal expensesTransactions currentMonth ((i : Int) + 1)
          balance := ((List.range (i + 1)).map (fun (k : Nat) =>
            dayTotal incomeTransactions currentMonth ((k : Int) + 1) -
              dayTotal expensesTransactions currentMonth ((k : Int) + 1))).sum })) := by
  induction n with
  | zero => simp
  | succ n ih =>
    rw [List.range_succ, List.map_append, List.foldl_append, ih]
    simp only [List.map_cons, List.map_nil, List.foldl_cons, List.foldl_nil, cashflowStep,
      sumAmounts_onDay, List.map_append, List.sum_append, List.sum_cons, List.sum_nil,
      add_zero]
    rw [List.range_succ]
    simp only [List.map_append, List.map_cons, List.map_nil, List.sum_append, List.sum_cons,
      List.sum_nil, add_zero]

/-- C14: for a selected month whose year is not a two-digit year, `dailyData` has one
entry per calendar day, the days 1, 2, ..., `lastDayOfMonth` in ascending order; the
entry of day d holds the income and the expenses of that day (`dayTotal`: the sum of the
amounts of the transactions whose day, month and year are d and the selected month and
year, 0 when there are none) and as balance the sum over the days k ≤ d of income of k
minus expenses of k. -/
theorem renderCashflowForecastChart_entries (currentMonth : Int)
    (incomeTransactions expensesTransactions : List Transaction)
    (hy : ¬ (0 ≤ getFullYear currentMonth ∧ getFullYear currentMonth ≤ 99)) :
    renderCashflowForecastChart currentMonth incomeTransactions expensesTransactions =
      (List.range (lastDayOfMonth (getFullYear currentMonth)
          (getMonth currentMonth)).toNat).map (fun (i : Nat) =>
        { day := (i : Int) + 1
          income := dayTotal incomeTransactions currentMonth ((i : Int) + 1)
          expenses := dayTotal expensesTransactions currentMonth ((i : Int) + 1)
          balance := ((List.range (i + 1)).map (fun (k : Nat) =>
            dayTotal incomeTransactions currentMonth ((k : Int) + 1) -
              dayTotal expensesTransactions currentMonth ((k : Int) + 1))).sum }) ∧
    ((renderCashflowForecastChart currentMonth incomeTransactions
        expensesTransactions).length : Int) =
      lastDayOfMonth (getFullYear currentMonth) (getMonth currentMonth) ∧
    (renderCashflowForecastChart currentMonth incomeTransactions
        expensesTransactions).map (fun e => e.day) =
      (List.range (lastDayOfMonth (getFullYear currentMonth)
          (getMonth currentMonth)).toNat).map (fun (i : Nat) => (i : Int) + 1) := by
  have heq : renderCashflowForecastChart currentMonth incomeTransactions
      expensesTransactions =
      (List.range (lastDayOfMonth (getFullYear currentMonth)
          (getMonth currentMonth)).toNat).map (fun (i : Nat) =>
        ({ day := (i : Int) + 1
           income := dayTotal incomeTransactions currentMonth ((i : Int) + 1)
           expenses := dayTotal expensesTransactions currentMonth ((i : Int) + 1)
           balance := ((List.range (i + 1)).map (fun (k : Nat) =>
            dayTotal incomeTransactions currentMonth ((k : Int) + 1) -
              dayTotal expensesTransactions currentMonth ((k : Int) + 1))).sum } :
          DailyEntry)) := by
    unfold renderCashflowForecastChart
    simp only
    rw [getDate_monthEnd currentMonth hy, cashflow_fold]
  have hpos := lastDayOfMonth_pos (getFullYear currentMonth) (getMonth currentMonth)
  refine ⟨heq, ?_, ?_⟩
  · rw [heq, List.length_map, List.length_range]
    omega
  · rw [heq, List.map_map]
    rfl

end CtrlMoney

namespace CtrlMoney

/-- Calendar facts of the instants used for April 2024: the selected month is read at
10 April 00:00, the income is dated 1 April 10:00 and the expense 15 April 10:00. -/
theorem april_2024_facts :
    getFullYear 1712707200000 = 2024 ∧ getMonth 1712707200000 = 3 ∧
    getFullYear 1711965600000 = 2024 ∧ getMonth 1711965600000 = 3 ∧
    getDate 1711965600000 = 1 ∧
    getFullYear 1713175200000 = 2024 ∧ getMonth 1713175200000 = 3 ∧
    getDate 1713175200000 = 15 := by
  decide

theorem dayTotal_april_income (day : Int) :
    dayTotal [⟨1, "зарплата", 1000, "доход", some 1711965600000⟩] 1712707200000 day =
      if day = 1 then 1000 else 0 := by
  obtain ⟨h1, h2, h3, h4, h5, -⟩ := april_2024_facts
  unfold dayTotal
  simp only [List.filter_cons, List.filter_nil, h1, h2, h3, h4, h5, true_and]
  by_cases h : day = 1
  · subst h; simp
  · have h' : ¬ (1 : Int) = day := fun e => h e.symm
    simp [h, h']

theorem dayTotal_april_expense (day : Int) :
    dayTotal [⟨1, "аренда", 300, "жилье", some 1713175200000⟩] 1712707200000 day =
      if day = 15 then 300 else 0 := by
  obtain ⟨h1, h2, -, -, -, h3, h4, h5⟩ := april_2024_facts
  unfold dayTotal
  simp only [List.filter_cons, List.filter_nil, h1, h2, h3, h4, h5, true_and]
  by_cases h : day = 15
  · subst h; simp
  · have h' : ¬ (15 : Int) = day := fun e => h e.symm
    simp [h, h']

/-- C14, at April 2024 (30 days) with one income of 1000 on day 1 and one expense of
300 on day 15: the balance is 1000 on days 1 to 14 and 700 on days 15 to 30. -/
theorem renderCashflowForecastChart_entries_witness :
    (renderCashflowForecastChart 1712707200000
        [⟨1, "зарплата", 1000, "доход", some 1711965600000⟩]
        [⟨1, "аренда", 300, "жилье", some 1713175200000⟩]).map
        (fun e => (e.day, e.balance)) =
      (List.range 30).map
        (fun (i : Nat) => ((i : Int) + 1, if i < 14 then (1000 : ℚ) else 700)) := by
  rw [(renderCashflowForecastChart_entries 1712707200000 _ _ (by decide)).1]
  have hl : lastDayOfMonth (getFullYear 1712707200000) (getMonth 1712707200000) = 30 := by
    decide
  rw [hl, List.map_map]
  simp only [dayTotal_april_income, dayTotal_april_expense]
  simp only [Int.toNat_ofNat, Function.comp_def]
  simp [List.range_succ]
  norm_num

/-! ## Monthly summary -/

/-- The forecast formula of `calculateMonthlySummary` over the two totals that the
function itself computes: daysPassed = min(day of month of today, daysInMonth), which is
at least 1; the daily values are monthlyIncome and monthlyExpenses divided by daysPassed
(and 0 if daysPassed were 0); forecast = (dailyIncome − dailyExpenses) × daysInMonth;
and when the day of month of today is at least daysInMonth the forecast is
monthlyIncome − monthlyExpenses.  These two totals are not the totals of the month when
a transaction is dated on its last day after 00:00, see
`calculateMonthlySummary_forecast_last_day`.  For a selected month whose year is not a
two-digit year, daysInMonth is the length of that month. -/
theorem calculateMonthlySummary_forecast (currentMonth today : Int)
    (incomeTransactions expensesTransactions : List Transaction) :
    (calculateMonthlySummary currentMonth today incomeTransactions
        expensesTransactions).daysPassed =
      min (getDate today) (calculateMonthlySummary currentMonth today incomeTransactions
        expensesTransactions).daysInMonth ∧
    1 ≤ (calculateMonthlySummary currentMonth today incomeTransactions
        expensesTransactions).daysPassed ∧
    ((calculateMonthlySummary currentMonth today incomeTransactions
        expensesTransactions).daysPassed = 0 →
      (calculateMonthlySummary currentMonth today incomeTransactions
        expensesTransactions).dailyIncome = 0 ∧
      (calculateMonthlySummary currentMonth today incomeTransactions
        expensesTransactions).dailyExpenses = 0) ∧
    (calculateMonthlySummary currentMonth today incomeTransactions
        expensesTransactions).dailyIncome =
      (calculateMonthlySummary currentMonth today incomeTransactions
        expensesTransactions).monthlyIncome /
      ((calculateMonthlySummary currentMonth today incomeTransactions
        expensesTransactions).daysPassed : ℚ) ∧
    (calculateMonthlySummary currentMonth today incomeTransactions
        expensesTransactions).dailyExpenses =
      (calculateMonthlySummary currentMonth today incomeTransactions
        expensesTransactions).monthlyExpenses /
      ((calculateMonthlySummary currentMonth today incomeTransactions
        expensesTransactions).daysPassed : ℚ) ∧
    (calculateMonthlySummary currentMonth today incomeTransactions
        expensesTransactions).forecast =
      ((calculateMonthlySummary currentMonth today incomeTransactions
          expensesTransactions).dailyIncome -
        (calculateMonthlySummary currentMonth today incomeTransactions
          expensesTransactions).dailyExpenses) *
      ((calculateMonthlySummary currentMonth today incomeTransactions
        expensesTransactions).daysInMonth : ℚ) ∧
    ((calculateMonthlySummary currentMonth today incomeTransactions
        expensesTransactions).daysInMonth ≤ getDate today →
      (calculateMonthlySummary currentMonth today incomeTransactions
        expensesTransactions).forecast =
      (calculateMonthlySummary currentMonth today incomeTransactions
        expensesTransactions).monthlyIncome -
      (calculateMonthlySummary currentMonth today incomeTransactions
        expensesTransactions).monthlyExpenses) ∧
    (¬ (0 ≤ getFullYear currentMonth ∧ getFullYear currentMonth ≤ 99) →
      (calculateMonthlySummary currentMonth today incomeTransactions
        expensesTransactions).daysInMonth =
      lastDayOfMonth (getFullYear currentMonth) (getMonth currentMonth)) := by
  have hd1 : 1 ≤ getDate today := DateFromTime_pos today
  have hd2 : 1 ≤ getDate (newDate (getFullYear currentMonth) (getMonth currentMonth + 1)
      0 0 0 0 0) := DateFromTime_pos _
  have hp : 1 ≤ min (getDate today) (getDate (newDate (getFullYear currentMonth)
      (getMonth currentMonth + 1) 0 0 0 0 0)) := le_min hd1 hd2
  have hp0 : (0 : Int) < min (getDate today) (getDate (newDate (getFullYear currentMonth)
      (getMonth currentMonth + 1) 0 0 0 0 0)) := by omega
  simp only [calculateMonthlySummary, gt_iff_lt, if_pos hp0]
  refine ⟨trivial, hp, ?_, trivial, trivial, trivial, ?_, ?_⟩
  · intro h0; omega
  · intro hle
    rw [min_eq_right hle]
    have hne : ((getDate (newDate (getFullYear currentMonth) (getMonth currentMonth + 1)
        0 0 0 0 0) : Int) : ℚ) ≠ 0 := by
      have : (1 : ℚ) ≤ ((getDate (newDate (getFullYear currentMonth)
          (getMonth currentMonth + 1) 0 0 0 0 0) : Int) : ℚ) := by exact_mod_cast hd2
      linarith
    field_simp
  · intro hy
    exact getDate_monthEnd currentMonth hy

end CtrlMoney

namespace CtrlMoney

/-- For a selected month read at 10 April 2024 the bounds used by
`calculateMonthlySummary` are 1 April 2024 00:00 and 30 April 2024 00:00. -/
theorem monthBounds_april_2024 :
    newDate (getFullYear 1712707200000) (getMonth 1712707200000) 1 0 0 0 0 =
      1711929600000 ∧
    newDate (getFullYear 1712707200000) (getMonth 1712707200000 + 1) 0 0 0 0 0 =
      1714435200000 := by
  decide

/-- The forecast formula at April 2024 with one income of 1000 on day 1 and one expense
of 300 on day 15, today being 30 April 2024 12:00: the forecast is 1000 − 300 = 700. -/
theorem calculateMonthlySummary_forecast_witness :
    (calculateMonthlySummary 1712707200000 1714478400000
        [⟨1, "зарплата", 1000, "доход", some 1711965600000⟩]
        [⟨1, "аренда", 300, "жилье", some 1713175200000⟩]).forecast = 700 := by
  rw [(calculateMonthlySummary_forecast 1712707200000 1714478400000 _ _).2.2.2.2.2.2.1
    (by decide)]
  simp only [calculateMonthlySummary, monthBounds_april_2024.1, monthBounds_april_2024.2]
  simp [sumAmounts, dateBetween]
  norm_num

/-- C15, at April 2024 with one income of 1000 dated 30 April 2024 12:00, today being
that same instant: the day of the month of today is 30, the number of days of the month,
and the income of April is 1000 with no expenses, but `calculateMonthlySummary` finds
the monthly income 0 and the forecast 0: its month filter ends at 30 April 00:00. -/
theorem calculateMonthlySummary_forecast_last_day :
    getFullYear 1712707200000 = 2024 ∧ getMonth 1712707200000 = 3 ∧
    getFullYear 1714478400000 = 2024 ∧ getMonth 1714478400000 = 3 ∧
    getDate 1714478400000 = 30 ∧
    (calculateMonthlySummary 1712707200000 1714478400000
        [⟨1, "зарплата", 1000, "доход", some 1714478400000⟩] []).daysInMonth = 30 ∧
    (calculateMonthlySummary 1712707200000 1714478400000
        [⟨1, "зарплата", 1000, "доход", some 1714478400000⟩] []).daysPassed = 30 ∧
    monthTotal [⟨1, "зарплата", 1000, "доход", some 1714478400000⟩] 2024 3 = 1000 ∧
    monthTotal [] 2024 3 = 0 ∧
    (calculateMonthlySummary 1712707200000 1714478400000
        [⟨1, "зарплата", 1000, "доход", some 1714478400000⟩] []).monthlyIncome = 0 ∧
    (calculateMonthlySummary 1712707200000 1714478400000
        [⟨1, "зарплата", 1000, "доход", some 1714478400000⟩] []).monthlyExpenses = 0 ∧
    (calculateMonthlySummary 1712707200000 1714478400000
        [⟨1, "зарплата", 1000, "доход", some 1714478400000⟩] []).forecast = 0 ∧
    (calculateMonthlySummary 1712707200000 1714478400000
        [⟨1, "зарплата", 1000, "доход", some 1714478400000⟩] []).forecast ≠
      monthTotal [⟨1, "зарплата", 1000, "доход", some 1714478400000⟩] 2024 3 -
        monthTotal [] 2024 3 := by
  have hy : getFullYear 1714478400000 = 2024 := by decide
  have hm : getMonth 1714478400000 = 3 := by decide
  have hdim : getDate (1714435200000 : Int) = 30 := by decide
  have hmt : monthTotal [⟨1, "зарплата", 1000, "доход", some 1714478400000⟩] 2024 3 =
      1000 := by
    simp [monthTotal, hy, hm]
  have hme : monthTotal [] 2024 3 = 0 := by simp [monthTotal]
  have hinc : (calculateMonthlySummary 1712707200000 1714478400000
      [⟨1, "зарплата", 1000, "доход", some 1714478400000⟩] []).monthlyIncome = 0 := by
    simp only [calculateMonthlySummary, monthBounds_april_2024.1, monthBounds_april_2024.2]
    simp [sumAmounts, dateBetween]
  have hexp : (calculateMonthlySummary 1712707200000 1714478400000
      [⟨1, "зарплата", 1000, "доход", some 1714478400000⟩] []).monthlyExpenses = 0 := by
    simp [calculateMonthlySummary, sumAmounts]
  have hf : (calculateMonthlySummary 1712707200000 1714478400000
      [⟨1, "зарплата", 1000, "доход", some 1714478400000⟩] []).forecast = 0 := by
    simp only [calculateMonthlySummary, monthBounds_april_2024.1, monthBounds_april_2024.2]
    simp [sumAmounts, dateBetween]
  refine ⟨by decide, by decide, hy, hm, by decide, ?_, ?_, hmt, hme, hinc, hexp, hf, ?_⟩
  · simp only [calculateMonthlySummary, monthBounds_april_2024.2]
    exact hdim
  · simp only [calculateMonthlySummary, monthBounds_april_2024.2, hdim]
    decide
  · rw [hf, hmt, hme]
    norm_num

/-! ## Progress percentages -/

theorem categoryProgress_le (budget spent : ℚ) : categoryProgress budget spent ≤ 100 := by
  unfold categoryProgress
  split_ifs
  · exact min_le_right _ _
  · norm_num

theorem categoryProgress_eq_hundred_iff (budget spent : ℚ) :
    categoryProgress budget spent = 100 ↔ budget > 0 ∧ spent ≥ budget := by
  unfold categoryProgress
  constructor
  · intro h
    by_cases hb : budget > 0
    · rw [if_pos hb] at h
      refine ⟨hb, ?_⟩
      have h1 : min (spent / budget * 100) 100 ≤ spent / budget * 100 := min_le_left _ _
      rw [h] at h1
      have h2 : (1 : ℚ) ≤ spent / budget := by linarith
      exact (one_le_div hb).mp h2
    · rw [if_neg hb] at h
      norm_num at h
  · rintro ⟨hb, hs⟩
    rw [if_pos hb]
    apply min_eq_right
    have h2 : (1 : ℚ) ≤ spent / budget := (one_le_div hb).mpr hs
    linarith

theorem categoryProgress_nonneg (budget spent : ℚ) (hs : 0 ≤ spent) :
    0 ≤ categoryProgress budget spent := by
  unfold categoryProgress
  split_ifs with hb
  · apply le_min
    · exact mul_nonneg (div_nonneg hs (le_of_lt hb)) (by norm_num)
    · norm_num
  · exact le_refl _

/-- C16: for every item `renderCategories` produces, progress is
min(spent / budget × 100, 100) when budget > 0 and 0 otherwise; it never exceeds 100, it
is non-negative when spent is, and it equals 100 exactly when budget > 0 and
spent ≥ budget. -/
theorem renderCategories_progress (currentMonth : Int)
    (categories forecastCategories : List Category)
    (expensesTransactions : List Transaction) (it : CategoryItem)
    (h : it ∈ renderCategories currentMonth categories forecastCategories
      expensesTransactions) :
    it.progress = (if it.budget > 0 then min (it.spent / it.budget * 100) 100 else 0) ∧
    it.progress ≤ 100 ∧
    (0 ≤ it.spent → 0 ≤ it.progress) ∧
    (it.progress = 100 ↔ it.budget > 0 ∧ it.spent ≥ it.budget) := by
  obtain ⟨cat, spent, -, rfl⟩ := mem_renderCategories h
  obtain ⟨hb, hs, hp, -⟩ := categoryItem_fields cat spent
  rw [hb, hs, hp]
  exact ⟨rfl, categoryProgress_le _ _, categoryProgress_nonneg _ _,
    categoryProgress_eq_hundred_iff _ _⟩

/-- C16, at budget 1000 with one expense of 250 on 20 January 2024 18:00, the selected
month being January 2024: progress is 25. -/
theorem renderCategories_progress_witness :
    ({ name := "еда", emoji := "🍔", budget := 1000, spent := 250, progress := 25,
       statusClass := "good", statusMessage := "В пределах нормы",
       overspent := none, statusEmoji := "✅" } : CategoryItem) ∈
      renderCategories 1705311000000 [⟨"еда", 1000, "🍔"⟩] []
        [⟨1, "обед", 250, "еда", some 1705773600000⟩] ∧
    (25 : ℚ) = min ((250 : ℚ) / 1000 * 100) 100 := by
  have heval : renderCategories 1705311000000 [⟨"еда", 1000, "🍔"⟩] []
      [⟨1, "обед", 250, "еда", some 1705773600000⟩] =
      [{ name := "еда", emoji := "🍔", budget := 1000, spent := 250, progress := 25,
         statusClass := "good", statusMessage := "В пределах нормы",
         overspent := none, statusEmoji := "✅" }] := by
    unfold renderCategories
    rw [monthBounds_january_2024.1, monthBounds_january_2024.2]
    simp [effectiveCategories, categorySpent, dateBetween, sumAmounts, categoryItem,
      categoryProgress]
    norm_num
  have hmem :
    ({ name := "еда", emoji := "🍔", budget := 1000, spent := 250, progress := 25,
       statusClass := "good", statusMessage := "В пределах нормы",
       overspent := none, statusEmoji := "✅" } : CategoryItem) ∈
      renderCategories 1705311000000 [⟨"еда", 1000, "🍔"⟩] []
        [⟨1, "обед", 250, "еда", some 1705773600000⟩] := by
    rw [heval]; exact List.mem_singleton.mpr rfl
  refine ⟨hmem, ?_⟩
  have hp := (renderCategories_progress _ _ _ _ _ hmem).1
  rw [if_pos (by norm_num)] at hp
  exact hp

theorem goalProgress_le (target accumulated : ℚ) : goalProgress target accumulated ≤ 100 := by
  unfold goalProgress
  split_ifs
  · exact min_le_right _ _
  · norm_num

theorem goalProgress_nonneg (target accumulated : ℚ) (ha : 0 ≤ accumulated) :
    0 ≤ goalProgress target accumulated := by
  unfold goalProgress
  split_ifs with ht
  · apply le_min
    · exact mul_nonneg (div_nonneg ha (le_of_lt ht)) (by norm_num)
    · norm_num
  · exact le_refl _

/-- C17: for every item `renderGoals` produces, totalProgress is
min(accumulated / target × 100, 100) when target > 0 and 0 otherwise; it never exceeds
100, also when accumulated > target, in which case the item is flagged over target and
carries the over-target status; and it is non-negative when accumulated is. -/
theorem renderGoals_progress (incomeTransactions expensesTransactions : List Transaction)
    (accounts : List Account) (goals : List Goal) (it : GoalItem)
    (h : it ∈ renderGoals incomeTransactions expensesTransactions accounts goals) :
    it.totalProgress =
      (if it.target > 0 then min (it.accumulated / it.target * 100) 100 else 0) ∧
    it.totalProgress ≤ 100 ∧
    (it.accumulated > it.target →
      it.isOverBudget = true ∧ it.statusText = "Цель перевыполнена!") ∧
    (0 ≤ it.accumulated → 0 ≤ it.totalProgress) := by
  obtain ⟨goal, -, rfl⟩ := mem_renderGoals h
  obtain ⟨htar, -, -, hprog⟩ :=
    goalItem_fields (freeMoney incomeTransactions expensesTransactions) accounts goal
  refine ⟨?_, ?_, ?_, ?_⟩
  · rw [hprog, htar]; rfl
  · rw [hprog]; exact goalProgress_le _ _
  · intro hover
    refine ⟨?_, ?_⟩
    · simp only [goalItem, decide_eq_true_eq]
      exact hover
    · rw [goalItem_statusText, if_pos hover]
  · intro ha
    rw [hprog]; exact goalProgress_nonneg _ _ ha

/-- C17, at target 1000, free money 1200 and no linked accounts: progress is capped at
100 and the item is over target. -/
theorem renderGoals_progress_witness :
    ({ name := "отпуск", target := 1000, accountsSum := 0, connectedAccountsList := [],
       useOnlyAccounts := false, accumulated := 1200, totalProgress := 100,
       canAfford := true, isOverBudget := true, statusText := "Цель перевыполнена!",
       emoji := "🎉" } : GoalItem) ∈
      renderGoals [⟨1, "зарплата", 1200, "доход", some 1705773600000⟩] [] []
        [⟨1, "отпуск", 1000, [], false⟩] ∧
    (100 : ℚ) = min ((1200 : ℚ) / 1000 * 100) 100 := by
  have heval : renderGoals [⟨1, "зарплата", 1200, "доход", some 1705773600000⟩] [] []
      [⟨1, "отпуск", 1000, [], false⟩] =
      [{ name := "отпуск", target := 1000, accountsSum := 0, connectedAccountsList := [],
         useOnlyAccounts := false, accumulated := 1200, totalProgress := 100,
         canAfford := true, isOverBudget := true, statusText := "Цель перевыполнена!",
         emoji := "🎉" }] := by
    simp [renderGoals, goalItem, freeMoney, sumAmounts, linkAccounts, goalProgress]
    norm_num
  have hmem :
    ({ name := "отпуск", target := 1000, accountsSum := 0, connectedAccountsList := [],
       useOnlyAccounts := false, accumulated := 1200, totalProgress := 100,
       canAfford := true, isOverBudget := true, statusText := "Цель перевыполнена!",
       emoji := "🎉" } : GoalItem) ∈
      renderGoals [⟨1, "зарплата", 1200, "доход", some 1705773600000⟩] [] []
        [⟨1, "отпуск", 1000, [], false⟩] := by
    rw [heval]; exact List.mem_singleton.mpr rfl
  refine ⟨hmem, ?_⟩
  have hp := (renderGoals_progress _ _ _ _ _ hmem).1
  rw [if_pos (by norm_num)] at hp
  exact hp

end CtrlMoney

namespace CtrlMoney

/-! ## Averages -/

theorem sumAmountsOrZero_eq (arr : List Transaction) : sumAmountsOrZero arr = sumAmounts arr := by
  unfold sumAmountsOrZero sumAmounts
  simp only [orZero_eq]

theorem averagesDivisor_pos (period : JSValue) (now : Int) : 1 ≤ averagesDivisor period now := by
  unfold averagesDivisor
  split_ifs
  · norm_num
  · exact DateFromTime_pos _
  · norm_num
  · norm_num

theorem average_of_ne_zero (total : ℚ) (divisor : Int) (h : divisor ≠ 0) :
    average total divisor = some (total / (divisor : ℚ)) := by
  have hq : (divisor : ℚ) ≠ 0 := by exact_mod_cast h
  unfold average jsDiv
  rw [if_pos h, if_neg hq]

/-- C18: the averaging step gives 0 when the divisor is 0, for every total, so that no
quotient by zero is formed; in `updateAverages` both averages come from this step and
are finite numbers (the divisor there is at least 1). -/
theorem average_zero_divisor (total : ℚ) (period : JSValue) (nowIncome nowExpenses now : Int)
    (incomeTransactions expensesTransactions : List Transaction) :
    average total 0 = some 0 ∧
    (∀ divisor : Int, average total divisor ≠ none) ∧
    (updateAverages period nowIncome nowExpenses now incomeTransactions
        expensesTransactions).avgIncome =
      average (updateAverages period nowIncome nowExpenses now incomeTransactions
          expensesTransactions).totalIncome
        (updateAverages period nowIncome nowExpenses now incomeTransactions
          expensesTransactions).divisor ∧
    (updateAverages period nowIncome nowExpenses now incomeTransactions
        expensesTransactions).avgExpenses =
      average (updateAverages period nowIncome nowExpenses now incomeTransactions
          expensesTransactions).totalExpenses
        (updateAverages period nowIncome nowExpenses now incomeTransactions
          expensesTransactions).divisor ∧
    (updateAverages period nowIncome nowExpenses now incomeTransactions
        expensesTransactions).avgIncome ≠ none ∧
    (updateAverages period nowIncome nowExpenses now incomeTransactions
        expensesTransactions).avgExpenses ≠ none := by
  have hall : ∀ (x : ℚ) (divisor : Int), average x divisor ≠ none := by
    intro x divisor
    by_cases h : divisor = 0
    · subst h
      simp [average]
    · rw [average_of_ne_zero x divisor h]
      exact Option.some_ne_none _
  refine ⟨by simp [average], hall total, rfl, rfl, hall _ _, hall _ _⟩

/-- C19: `updateAverages` divides the period totals by 7 for week, by 12 for year, and
for month by the number of days of the current calendar month (28 to 31) when the year
of the clock reading is not a two-digit year. -/
theorem updateAverages_divisor (nowIncome nowExpenses now : Int)
    (incomeTransactions expensesTransactions : List Transaction) :
    ((updateAverages (JSValue.string "week") nowIncome nowExpenses now incomeTransactions
        expensesTransactions).avgIncome =
      some (sumAmounts (filterTransactions incomeTransactions (JSValue.string "week")
        nowIncome) / 7) ∧
     (updateAverages (JSValue.string "week") nowIncome nowExpenses now incomeTransactions
        expensesTransactions).avgExpenses =
      some (sumAmounts (filterTransactions expensesTransactions (JSValue.string "week")
        nowExpenses) / 7)) ∧
    (¬ (0 ≤ getFullYear now ∧ getFullYear now ≤ 99) →
     (updateAverages (JSValue.string "month") nowIncome nowExpenses now incomeTransactions
        expensesTransactions).divisor =
      lastDayOfMonth (getFullYear now) (getMonth now) ∧
     28 ≤ lastDayOfMonth (getFullYear now) (getMonth now) ∧
     lastDayOfMonth (getFullYear now) (getMonth now) ≤ 31 ∧
     (updateAverages (JSValue.string "month") nowIncome nowExpenses now incomeTransactions
        expensesTransactions).avgIncome =
      some (sumAmounts (filterTransactions incomeTransactions (JSValue.string "month")
        nowIncome) / (lastDayOfMonth (getFullYear now) (getMonth now) : ℚ)) ∧
     (updateAverages (JSValue.string "month") nowIncome nowExpenses now incomeTransactions
        expensesTransactions).avgExpenses =
      some (sumAmounts (filterTransactions expensesTransactions (JSValue.string "month")
        nowExpenses) / (lastDayOfMonth (getFullYear now) (getMonth now) : ℚ))) ∧
    ((updateAverages (JSValue.string "year") nowIncome nowExpenses now incomeTransactions
        expensesTransactions).avgIncome =
      some (sumAmounts (filterTransactions incomeTransactions (JSValue.string "year")
        nowIncome) / 12) ∧
     (updateAverages (JSValue.string "year") nowIncome nowExpenses now incomeTransactions
        expensesTransactions).avgExpenses =
      some (sumAmounts (filterTransactions expensesTransactions (JSValue.string "year")
        nowExpenses) / 12)) := by
  have hw : averagesDivisor (JSValue.string "week") now = 7 := by
    simp [averagesDivisor]
  have hm : ¬ (0 ≤ getFullYear now ∧ getFullYear now ≤ 99) →
      averagesDivisor (JSValue.string "month") now =
        lastDayOfMonth (getFullYear now) (getMonth now) := by
    intro hy
    have h1 : JSValue.string "month" ≠ JSValue.string "week" := by decide
    simp only [averagesDivisor, if_neg h1, if_true]
    exact getDate_monthEnd now hy
  have hyr : averagesDivisor (JSValue.string "year") now = 12 := by
    have h1 : JSValue.string "year" ≠ JSValue.string "week" := by decide
    have h2 : JSValue.string "year" ≠ JSValue.string "month" := by decide
    simp only [averagesDivisor, if_neg h1, if_neg h2, if_true]
  have hb := lastDayOfMonth_bounds (getFullYear now) (getMonth now)
  have hu1 : JSValue.string "week" ≠ JSValue.undefined := by decide
  have hu2 : JSValue.string "month" ≠ JSValue.undefined := by decide
  have hu3 : JSValue.string "year" ≠ JSValue.undefined := by decide
  simp only [updateAverages, if_neg hu1, if_neg hu2, if_neg hu3, sumAmountsOrZero_eq, hw, hyr]
  refine ⟨⟨?_, ?_⟩, ?_, ⟨?_, ?_⟩⟩
  · rw [average_of_ne_zero _ _ (by norm_num)]; norm_num
  · rw [average_of_ne_zero _ _ (by norm_num)]; norm_num
  · intro hy
    rw [hm hy]
    refine ⟨rfl, hb.1, hb.2, ?_, ?_⟩
    · rw [average_of_ne_zero _ _ (by omega)]
    · rw [average_of_ne_zero _ _ (by omega)]
  · rw [average_of_ne_zero _ _ (by norm_num)]; norm_num
  · rw [average_of_ne_zero _ _ (by norm_num)]; norm_num

/-- C19, at 15 January 2024 09:30 with one income of 310 on 20 January 2024: the month
average is 310 / 31 = 10. -/
theorem updateAverages_divisor_witness :
    (updateAverages (JSValue.string "month") 1705311000000 1705311000000 1705311000000
        [⟨1, "зарплата", 310, "доход", some 1705773600000⟩] []).avgIncome = some 10 := by
  have h := ((updateAverages_divisor 1705311000000 1705311000000 1705311000000
    [⟨1, "зарплата", 310, "доход", some 1705773600000⟩] []).2.1 (by decide)).2.2.2.1
  have hl : lastDayOfMonth (getFullYear 1705311000000) (getMonth 1705311000000) = 31 := by
    decide
  have hr : (getDateRange (JSValue.string "month") 1705311000000).startDate =
        1704067200000 ∧
      (getDateRange (JSValue.string "month") 1705311000000).endDate = 1706745599999 := by
    decide
  rw [h, hl]
  simp only [filterTransactions, hr.1, hr.2]
  simp [sumAmounts, dateBetween]
  norm_num

end CtrlMoney

namespace CtrlMoney

/-! ## Objects as entry lists -/

theorem objGet_objSet_self (m : List (String × ℚ)) (k : String) (v : ℚ) :
    objGet (objSet m k v) k = some v := by
  induction m with
  | nil => simp [objSet, objGet]
  | cons e rest ih =>
    obtain ⟨k', v'⟩ := e
    by_cases h : k' = k
    · simp [objSet, objGet, h]
    · simp [objSet, objGet, h, ih]

theorem objGet_objSet_of_ne (m : List (String × ℚ)) (k k' : String) (v : ℚ) (hne : k ≠ k') :
    objGet (objSet m k v) k' = objGet m k' := by
  induction m with
  | nil => simp [objSet, objGet, hne]
  | cons e rest ih =>
    obtain ⟨k₁, v₁⟩ := e
    by_cases h : k₁ = k
    · subst h
      simp [objSet, objGet, hne]
    · by_cases h' : k₁ = k'
      · subst h'
        simp [objSet, objGet, h]
      · simp [objSet, objGet, h, h', ih]

theorem objGet_eq_none_iff (m : List (String × ℚ)) (k : String) :
    objGet m k = none ↔ k ∉ m.map (fun e => e.1) := by
  induction m with
  | nil => simp [objGet]
  | cons e rest ih =>
    obtain ⟨k', v'⟩ := e
    by_cases h : k' = k
    · simp [objGet, h]
    · have h' : ¬ k = k' := fun e => h e.symm
      simp [objGet, h, h', ih]

theorem keys_objSet (m : List (String × ℚ)) (k : String) (v : ℚ) :
    (objSet m k v).map (fun e => e.1) =
      if k ∈ m.map (fun e => e.1) then m.map (fun e => e.1)
      else m.map (fun e => e.1) ++ [k] := by
  induction m with
  | nil => simp [objSet]
  | cons e rest ih =>
    obtain ⟨k', v'⟩ := e
    by_cases h : k' = k
    · simp [objSet, h]
    · have h' : ¬ k = k' := fun e => h e.symm
      simp only [objSet, if_neg h, List.map_cons, ih, List.mem_cons, h', false_or]
      split_ifs <;> simp

theorem sum_values_objSet (m : List (String × ℚ)) (k : String) (v : ℚ) :
    ((objSet m k v).map (fun e => e.2)).sum =
      (m.map (fun e => e.2)).sum - getOrZero m k + v := by
  induction m with
  | nil => simp [objSet, getOrZero, objGet]
  | cons e rest ih =>
    obtain ⟨k', v'⟩ := e
    by_cases h : k' = k
    · simp [objSet, getOrZero, objGet, h, orZero_eq]
      ring
    · have hg : getOrZero ((k', v') :: rest) k = getOrZero rest k := by
        simp [getOrZero, objGet, h]
      simp only [objSet, if_neg h, List.map_cons, List.sum_cons, ih, hg]
      ring

end CtrlMoney

namespace CtrlMoney

/-! ## Monthly aggregation -/

theorem getMonthlyData_append (arr : List Transaction) (t : Transaction) :
    getMonthlyData (arr ++ [t]) =
      objSet (getMonthlyData arr) (monthKey t.date)
        (getOrZero (getMonthlyData arr) (monthKey t.date) + t.amount) := by
  unfold getMonthlyData
  rw [List.foldl_append]
  rfl

theorem keyTotal_append (arr : List Transaction) (t : Transaction) (k : String) :
    keyTotal (arr ++ [t]) k =
      keyTotal arr k + (if monthKey t.date = k then t.amount else 0) := by
  unfold keyTotal
  by_cases h : monthKey t.date = k
  · simp [List.filter_append, h]
  · simp [List.filter_append, h]

/-- The entries of `getMonthlyData`: a key is present exactly when a transaction carries
it, and then its value is the total of the transactions that carry it. -/
theorem objGet_getMonthlyData (arr : List Transaction) (k : String) :
    objGet (getMonthlyData arr) k =
      if k ∈ arr.map (fun t => monthKey t.date) then some (keyTotal arr k) else none := by
  induction arr using List.reverseRecOn generalizing k with
  | nil => simp [getMonthlyData, objGet]
  | append_singleton arr t ih =>
    rw [getMonthlyData_append, keyTotal_append]
    by_cases h : monthKey t.date = k
    · subst h
      rw [objGet_objSet_self]
      simp only [List.map_append, List.map_cons, List.map_nil, List.mem_append,
        List.mem_singleton, or_true, if_true]
      congr 1
      unfold getOrZero
      rw [ih]
      split_ifs with hk
      · simp [orZero_eq]
      · have hz : keyTotal arr (monthKey t.date) = 0 := by
          unfold keyTotal
          rw [List.filter_eq_nil_iff.mpr]
          · simp
          · intro u hu
            simp only [decide_eq_true_eq]
            intro hu'
            exact hk (List.mem_map.mpr ⟨u, hu, hu'⟩)
        simp [hz]
    · rw [objGet_objSet_of_ne _ _ _ _ h, ih]
      have h' : ¬ k = monthKey t.date := fun e => h e.symm
      simp [h, h']

theorem keys_getMonthlyData_nodup (arr : List Transaction) :
    ((getMonthlyData arr).map (fun e => e.1)).Nodup := by
  induction arr using List.reverseRecOn with
  | nil => simp [getMonthlyData]
  | append_singleton arr t ih =>
    rw [getMonthlyData_append, keys_objSet]
    split_ifs with h
    · exact ih
    · rw [List.nodup_append]
      refine ⟨ih, List.nodup_singleton _, ?_⟩
      intro a ha hb
      rw [List.mem_singleton] at hb
      subst hb
      exact h ha

theorem mem_keys_getMonthlyData (arr : List Transaction) (k : String) :
    k ∈ (getMonthlyData arr).map (fun e => e.1) ↔ k ∈ arr.map (fun t => monthKey t.date) := by
  have h := objGet_getMonthlyData arr k
  have h2 := objGet_eq_none_iff (getMonthlyData arr) k
  by_cases hk : k ∈ arr.map (fun t => monthKey t.date)
  · rw [if_pos hk] at h
    constructor
    · intro _; exact hk
    · intro _
      by_contra hc
      rw [h2.mpr hc] at h
      exact Option.noConfusion h
  · rw [if_neg hk] at h
    constructor
    · intro hc; exact absurd hc (h2.mp h)
    · intro hc; exact absurd hc hk

theorem sum_values_getMonthlyData (arr : List Transaction) :
    ((getMonthlyData arr).map (fun e => e.2)).sum = sumAmounts arr := by
  induction arr using List.reverseRecOn with
  | nil => simp [getMonthlyData, sumAmounts]
  | append_singleton arr t ih =>
    rw [getMonthlyData_append, sum_values_objSet, ih, sumAmounts_eq_sum, sumAmounts_eq_sum]
    simp only [List.map_append, List.sum_append, List.map_cons, List.map_nil, List.sum_cons,
      List.sum_nil]
    ring

end CtrlMoney

namespace CtrlMoney

/-! ## Key strings -/

theorem digitChar_ne (d : Nat) (h : d < 10) :
    Nat.digitChar d ≠ '-' ∧ Nat.digitChar d ≠ 'N' := by
  interval_cases d <;> decide

theorem digitChar_inj (a b : Nat) (ha : a < 10) (hb : b < 10)
    (h : Nat.digitChar a = Nat.digitChar b) : a = b := by
  interval_cases a <;> interval_cases b <;> first | rfl | (exact absurd h (by decide))

theorem map_digitChar_inj (l₁ l₂ : List Nat) (h₁ : ∀ d ∈ l₁, d < 10) (h₂ : ∀ d ∈ l₂, d < 10)
    (h : l₁.map Nat.digitChar = l₂.map Nat.digitChar) : l₁ = l₂ := by
  induction l₁ generalizing l₂ with
  | nil =>
    cases l₂ with
    | nil => rfl
    | cons b l₂ => simp at h
  | cons a l₁ ih =>
    cases l₂ with
    | nil => simp at h
    | cons b l₂ =>
      simp only [List.map_cons, List.cons.injEq] at h
      have hab := digitChar_inj a b (h₁ a (List.mem_cons_self _ _))
        (h₂ b (List.mem_cons_self _ _)) h.1
      have hl := ih l₂ (fun d hd => h₁ d (List.mem_cons_of_mem _ hd))
        (fun d hd => h₂ d (List.mem_cons_of_mem _ hd)) h.2
      rw [hab, hl]

theorem decimalDigits_chars (n : Nat) :
    ∀ c ∈ decimalDigits n, c ≠ '-' ∧ c ≠ 'N' := by
  intro c hc
  unfold decimalDigits at hc
  split_ifs at hc with h0
  · rw [List.mem_singleton] at hc
    subst hc
    decide
  · rw [List.mem_map] at hc
    obtain ⟨d, hd, rfl⟩ := hc
    rw [List.mem_reverse] at hd
    exact digitChar_ne d (Nat.digits_lt_base (by norm_num) hd)

theorem decimalDigits_ne_nil (n : Nat) : decimalDigits n ≠ [] := by
  unfold decimalDigits
  split_ifs with h0
  · simp
  · simp [Nat.digits_ne_nil_iff_ne_zero, h0]

theorem decimalDigits_inj (n m : Nat) (h : decimalDigits n = decimalDigits m) : n = m := by
  have key : ∀ a : Nat, a ≠ 0 → decimalDigits a ≠ ['0'] := by
    intro a ha hEq
    unfold decimalDigits at hEq
    rw [if_neg ha] at hEq
    have h1 : (Nat.digits 10 a).reverse.map Nat.digitChar = [0].map Nat.digitChar := by
      rw [hEq]; rfl
    have h2 := map_digitChar_inj _ _
      (fun d hd => Nat.digits_lt_base (by norm_num) (List.mem_reverse.mp hd))
      (by intro d hd; rw [List.mem_singleton] at hd; omega) h1
    have h3 : Nat.digits 10 a = [0] := by
      have := congrArg List.reverse h2
      simpa using this
    have h4 := Nat.getLast_digit_ne_zero 10 ha
    simp [h3] at h4
  by_cases hn : n = 0
  · by_cases hm : m = 0
    · rw [hn, hm]
    · subst hn
      exact absurd h.symm (by simpa [decimalDigits] using key m hm)
  · by_cases hm : m = 0
    · subst hm
      exact absurd h (by simpa [decimalDigits] using key n hn)
    · unfold decimalDigits at h
      rw [if_neg hn, if_neg hm] at h
      have h2 := map_digitChar_inj _ _
        (fun d hd => Nat.digits_lt_base (by norm_num) (List.mem_reverse.mp hd))
        (fun d hd => Nat.digits_lt_base (by norm_num) (List.mem_reverse.mp hd)) h
      have h3 : Nat.digits 10 n = Nat.digits 10 m := by
        have := congrArg List.reverse h2
        simpa using this
      exact (Nat.digits_inj_iff).mp h3

end CtrlMoney

namespace CtrlMoney

theorem numberToString_data (n : Int) :
    (numberToString n).data = (if n < 0 then ['-'] else []) ++ decimalDigits n.natAbs := rfl

theorem numberToString_data_nonneg (n : Int) (h : 0 ≤ n) :
    (numberToString n).data = decimalDigits n.natAbs := by
  rw [numberToString_data, if_neg (not_lt.mpr h), List.nil_append]

theorem numberToString_head (n : Int) :
    ∃ c rest, (numberToString n).data = c :: rest ∧ c ≠ 'N' ∧ (c = '-' ↔ n < 0) := by
  rw [numberToString_data]
  by_cases h : n < 0
  · rw [if_pos h]
    exact ⟨'-', decimalDigits n.natAbs, rfl, by decide, by simp [h]⟩
  · rw [if_neg h, List.nil_append]
    cases hd : decimalDigits n.natAbs with
    | nil => exact absurd hd (decimalDigits_ne_nil _)
    | cons c rest =>
      have hc := decimalDigits_chars n.natAbs c (by rw [hd]; exact List.mem_cons_self _ _)
      exact ⟨c, rest, rfl, hc.2, by simp [h, hc.1]⟩

theorem numberToString_inj (a b : Int) (h : numberToString a = numberToString b) : a = b := by
  have hdata : (numberToString a).data = (numberToString b).data := by rw [h]
  obtain ⟨ca, ra, ha, -, hsa⟩ := numberToString_head a
  obtain ⟨cb, rb, hb, -, hsb⟩ := numberToString_head b
  have hc : ca = cb := by
    rw [ha, hb] at hdata
    exact (List.cons.inj hdata).1
  have hsign : a < 0 ↔ b < 0 := by rw [← hsa, ← hsb, hc]
  rw [numberToString_data, numberToString_data] at hdata
  by_cases hneg : a < 0
  · have hnegb := hsign.mp hneg
    rw [if_pos hneg, if_pos hnegb] at hdata
    have := decimalDigits_inj _ _ (List.append_cancel_left hdata)
    omega
  · have hnegb : ¬ b < 0 := fun hb' => hneg (hsign.mpr hb')
    rw [if_neg hneg, if_neg hnegb] at hdata
    have := decimalDigits_inj _ _ (List.append_cancel_left hdata)
    omega

theorem append_dash_inj (a b c d : List Char) (hb : '-' ∉ b) (hd : '-' ∉ d)
    (h : a ++ '-' :: b = c ++ '-' :: d) : a = c ∧ b = d := by
  induction a generalizing c with
  | nil =>
    cases c with
    | nil => exact ⟨rfl, (List.cons.inj h).2⟩
    | cons y c =>
      exfalso
      simp only [List.nil_append, List.cons_append, List.cons.injEq] at h
      apply hb
      rw [h.2]
      simp
  | cons x a ih =>
    cases c with
    | nil =>
      exfalso
      simp only [List.nil_append, List.cons_append, List.cons.injEq] at h
      apply hd
      rw [← h.2]
      simp
    | cons y c =>
      simp only [List.cons_append, List.cons.injEq] at h
      obtain ⟨h1, h2⟩ := ih c h.2
      exact ⟨by rw [h.1, h1], h2⟩

theorem yearMonthKey_data (y m : Int) :
    (yearMonthKey y m).data =
      (numberToString y).data ++ '-' :: (numberToString (m + 1)).data := by
  unfold yearMonthKey
  simp [String.data_append]

/-- The key strings of two months coincide only for the same year and month. -/
theorem yearMonthKey_inj (y₁ m₁ y₂ m₂ : Int) (h₁ : 0 ≤ m₁) (h₂ : 0 ≤ m₂)
    (h : yearMonthKey y₁ m₁ = yearMonthKey y₂ m₂) : y₁ = y₂ ∧ m₁ = m₂ := by
  have hdata : (yearMonthKey y₁ m₁).data = (yearMonthKey y₂ m₂).data := by rw [h]
  rw [yearMonthKey_data, yearMonthKey_data] at hdata
  have hno : ∀ m : Int, 0 ≤ m → '-' ∉ (numberToString (m + 1)).data := by
    intro m hm hmem
    rw [numberToString_data_nonneg _ (by omega)] at hmem
    exact (decimalDigits_chars _ _ hmem).1 rfl
  obtain ⟨hy, hm⟩ := append_dash_inj _ _ _ _ (hno m₁ h₁) (hno m₂ h₂) hdata
  have hy' := numberToString_inj y₁ y₂ (String.ext hy)
  have hm' := numberToString_inj (m₁ + 1) (m₂ + 1) (String.ext hm)
  exact ⟨hy', by omega⟩

/-- The key of an invalid date is the key of no month. -/
theorem yearMonthKey_ne_NaN (y m : Int) : yearMonthKey y m ≠ "NaN-NaN" := by
  intro h
  have hdata : (yearMonthKey y m).data = ("NaN-NaN" : String).data := by rw [h]
  rw [yearMonthKey_data] at hdata
  obtain ⟨c, rest, hc, hN, -⟩ := numberToString_head y
  rw [hc] at hdata
  have : c = 'N' := (List.cons.inj hdata).1
  exact hN this

theorem monthKey_some (d : Int) :
    monthKey (some d) = yearMonthKey (getFullYear d) (getMonth d) := rfl

theorem monthKey_eq_yearMonthKey_iff (tDate : Option Int) (y m : Int) (hm : 0 ≤ m) :
    monthKey tDate = yearMonthKey y m ↔
      ∃ d, tDate = some d ∧ getFullYear d = y ∧ getMonth d = m := by
  cases tDate with
  | none =>
    constructor
    · intro h; exact absurd h.symm (yearMonthKey_ne_NaN y m)
    · rintro ⟨d, hd, -⟩; exact Option.noConfusion hd
  | some d =>
    rw [monthKey_some]
    constructor
    · intro h
      have hd : 0 ≤ getMonth d := (MonthFromTime_bounds d).1
      obtain ⟨h1, h2⟩ := yearMonthKey_inj _ _ _ _ hd hm h
      exact ⟨d, rfl, h1, h2⟩
    · rintro ⟨d', hd', h1, h2⟩
      cases hd'
      rw [h1, h2]

theorem monthKey_eq_NaN_iff (tDate : Option Int) :
    monthKey tDate = "NaN-NaN" ↔ tDate = none := by
  cases tDate with
  | none => exact ⟨fun _ => rfl, fun _ => rfl⟩
  | some d =>
    rw [monthKey_some]
    constructor
    · intro h; exact absurd h (yearMonthKey_ne_NaN _ _)
    · intro h; exact Option.noConfusion h

end CtrlMoney

namespace CtrlMoney

theorem keyTotal_yearMonthKey (arr : List Transaction) (y m : Int) (hm : 0 ≤ m) :
    keyTotal arr (yearMonthKey y m) = monthTotal arr y m := by
  unfold keyTotal monthTotal
  congr 2
  apply List.filter_congr
  intro t _
  have h := monthKey_eq_yearMonthKey_iff t.date y m hm
  cases hd : t.date with
  | none =>
    rw [hd] at h
    simp only [decide_eq_false_iff_not]
    intro hk
    obtain ⟨d, hd', -⟩ := h.mp hk
    exact Option.noConfusion hd'
  | some d =>
    rw [hd] at h
    simp only [decide_eq_decide]
    rw [h]
    constructor
    · rintro ⟨d', hd', h1, h2⟩
      cases hd'
      exact ⟨h1, h2⟩
    · rintro ⟨h1, h2⟩
      exact ⟨d, rfl, h1, h2⟩

theorem keyTotal_NaN (arr : List Transaction) :
    keyTotal arr "NaN-NaN" = invalidDateTotal arr := by
  unfold keyTotal invalidDateTotal
  congr 2
  apply List.filter_congr
  intro t _
  have h := monthKey_eq_NaN_iff t.date
  cases hd : t.date with
  | none => rw [hd] at h; simp [h]
  | some d => rw [hd] at h; simp [h]

/-- C20, amended: the keys of `getMonthlyData` are pairwise different; they are the
strings year-month (month 1-based, not zero-padded) of the months in which at least one
transaction is dated and, when some transaction has an invalid date, the string
NaN-NaN; the value of a month key is the sum of the amounts of the transactions dated in
that year and month, the value of NaN-NaN the sum of the amounts of the transactions
with an invalid date; and all values add up to the sum of all amounts. -/
theorem getMonthlyData_entries (arr : List Transaction) :
    ((getMonthlyData arr).map (fun e => e.1)).Nodup ∧
    (∀ k, k ∈ (getMonthlyData arr).map (fun e => e.1) ↔
      (∃ t ∈ arr, ∃ d, t.date = some d ∧ k = yearMonthKey (getFullYear d) (getMonth d)) ∨
      (k = "NaN-NaN" ∧ ∃ t ∈ arr, t.date = none)) ∧
    (∀ t ∈ arr, ∀ d, t.date = some d →
      objGet (getMonthlyData arr) (yearMonthKey (getFullYear d) (getMonth d)) =
        some (monthTotal arr (getFullYear d) (getMonth d))) ∧
    ((∃ t ∈ arr, t.date = none) →
      objGet (getMonthlyData arr) "NaN-NaN" = some (invalidDateTotal arr)) ∧
    ((getMonthlyData arr).map (fun e => e.2)).sum = sumAmounts arr := by
  refine ⟨keys_getMonthlyData_nodup arr, ?_, ?_, ?_, sum_values_getMonthlyData arr⟩
  · intro k
    rw [mem_keys_getMonthlyData, List.mem_map]
    constructor
    · rintro ⟨t, ht, hk⟩
      cases hd : t.date with
      | none =>
        right
        rw [hd] at hk
        exact ⟨hk.symm, t, ht, hd⟩
      | some d =>
        left
        rw [hd] at hk
        exact ⟨t, ht, d, hd, hk.symm⟩
    · rintro (⟨t, ht, d, hd, hk⟩ | ⟨hk, t, ht, hd⟩)
      · exact ⟨t, ht, by rw [hd, hk]; rfl⟩
      · exact ⟨t, ht, by rw [hd, hk]; rfl⟩
  · intro t ht d hd
    have hm : 0 ≤ getMonth d := (MonthFromTime_bounds d).1
    rw [objGet_getMonthlyData, if_pos, keyTotal_yearMonthKey _ _ _ hm]
    exact List.mem_map.mpr ⟨t, ht, by rw [hd]; rfl⟩
  · rintro ⟨t, ht, hd⟩
    rw [objGet_getMonthlyData, if_pos, keyTotal_NaN]
    exact List.mem_map.mpr ⟨t, ht, by rw [hd]; rfl⟩

/-- C20 as stated fails: a list whose only transaction has an invalid date yields the
key NaN-NaN, which is the string of no month, although no month contains a
transaction. -/
theorem getMonthlyData_invalid_date_key :
    getMonthlyData [⟨1, "кино", 50, "досуг", none⟩] = [("NaN-NaN", 50)] ∧
    (∀ y m : Int, yearMonthKey y m ≠ "NaN-NaN") ∧
    ¬ (∃ t ∈ [(⟨1, "кино", 50, "досуг", none⟩ : Transaction)], ∃ d, t.date = some d) := by
  refine ⟨?_, yearMonthKey_ne_NaN, ?_⟩
  · simp [getMonthlyData, monthKey, objSet, getOrZero, objGet]
  · simp

theorem numberToString_examples : numberToString 2024 = "2024" ∧ numberToString 1 = "1" ∧
    numberToString 2 = "2" := by
  refine ⟨?_, ?_, ?_⟩ <;> simp [numberToString, decimalDigits, Nat.digitChar]

end CtrlMoney

namespace CtrlMoney

/-- Keys of 15 January, 31 January and 10 February 2024. -/
theorem monthKey_examples :
    monthKey (some 1705311000000) = "2024-1" ∧ monthKey (some 1706702400000) = "2024-1" ∧
    monthKey (some 1707541200000) = "2024-2" := by
  have h : getFullYear 1705311000000 = 2024 ∧ getMonth 1705311000000 = 0 ∧
      getFullYear 1706702400000 = 2024 ∧ getMonth 1706702400000 = 0 ∧
      getFullYear 1707541200000 = 2024 ∧ getMonth 1707541200000 = 1 := by decide
  obtain ⟨h1, h2, h3, h4, h5, h6⟩ := h
  refine ⟨?_, ?_, ?_⟩
  · simp only [monthKey, h1, h2]
    simp [numberToString, decimalDigits, Nat.digitChar]
  · simp only [monthKey, h3, h4]
    simp [numberToString, decimalDigits, Nat.digitChar]
  · simp only [monthKey, h5, h6]
    simp [numberToString, decimalDigits, Nat.digitChar]

/-- C20 amended, at transactions of 15 January 2024 (5), of an invalid date (7), of 31
January 2024 (10) and of 10 February 2024 (10). -/
theorem getMonthlyData_entries_witness :
    getMonthlyData
        [⟨1, "чай", 5, "еда", some 1705311000000⟩, ⟨2, "кино", 7, "досуг", none⟩,
         ⟨3, "обед", 10, "еда", some 1706702400000⟩,
         ⟨4, "такси", 10, "транспорт", some 1707541200000⟩] =
      [("2024-1", 15), ("NaN-NaN", 7), ("2024-2", 10)] ∧
    ((getMonthlyData
        [⟨1, "чай", 5, "еда", some 1705311000000⟩, ⟨2, "кино", 7, "досуг", none⟩,
         ⟨3, "обед", 10, "еда", some 1706702400000⟩,
         ⟨4, "такси", 10, "транспорт", some 1707541200000⟩]).map (fun e => e.2)).sum =
      sumAmounts
        [⟨1, "чай", 5, "еда", some 1705311000000⟩, ⟨2, "кино", 7, "досуг", none⟩,
         ⟨3, "обед", 10, "еда", some 1706702400000⟩,
         ⟨4, "такси", 10, "транспорт", some 1707541200000⟩] := by
  refine ⟨?_, (getMonthlyData_entries _).2.2.2.2⟩
  simp only [getMonthlyData, List.foldl_cons, List.foldl_nil, monthKey_examples.1,
    monthKey_examples.2.1, monthKey_examples.2.2]
  simp [monthKey, objSet, getOrZero, objGet, orZero]
  norm_num

/-! ## Category totals of `renderCharts` -/

theorem aggregateBy_append (key : Transaction → String) (arr : List Transaction)
    (t : Transaction) :
    aggregateBy key (arr ++ [t]) =
      objSet (aggregateBy key arr) (key t) (getOrZero (aggregateBy key arr) (key t) + t.amount) := by
  unfold aggregateBy
  rw [List.foldl_append]
  rfl

theorem objGet_aggregateBy (key : Transaction → String) (arr : List Transaction) (k : String) :
    objGet (aggregateBy key arr) k =
      if k ∈ arr.map key then
        some (((arr.filter (fun t => decide (key t = k))).map (fun t => t.amount)).sum)
      else none := by
  induction arr using List.reverseRecOn generalizing k with
  | nil => simp [aggregateBy, objGet]
  | append_singleton arr t ih =>
    rw [aggregateBy_append]
    by_cases h : key t = k
    · subst h
      rw [objGet_objSet_self]
      simp only [List.map_append, List.map_cons, List.map_nil, List.mem_append,
        List.mem_singleton, or_true, if_true, List.filter_append, List.sum_append]
      congr 1
      unfold getOrZero
      rw [ih]
      split_ifs with hk
      · simp [orZero_eq]
      · have hz : arr.filter (fun u => decide (key u = key t)) = [] := by
          rw [List.filter_eq_nil_iff]
          intro u hu
          simp only [decide_eq_true_eq]
          intro hu'
          exact hk (List.mem_map.mpr ⟨u, hu, hu'⟩)
        simp [hz]
    · rw [objGet_objSet_of_ne _ _ _ _ h, ih]
      have h' : ¬ k = key t := fun e => h e.symm
      simp [List.filter_append, h, h']

theorem keys_aggregateBy_nodup (key : Transaction → String) (arr : List Transaction) :
    ((aggregateBy key arr).map (fun e => e.1)).Nodup := by
  induction arr using List.reverseRecOn with
  | nil => simp [aggregateBy]
  | append_singleton arr t ih =>
    rw [aggregateBy_append, keys_objSet]
    split_ifs with h
    · exact ih
    · rw [List.nodup_append]
      refine ⟨ih, List.nodup_singleton _, ?_⟩
      intro a ha hb
      rw [List.mem_singleton] at hb
      subst hb
      exact h ha

theorem mem_keys_aggregateBy (key : Transaction → String) (arr : List Transaction)
    (k : String) :
    k ∈ (aggregateBy key arr).map (fun e => e.1) ↔ k ∈ arr.map key := by
  have h := objGet_aggregateBy key arr k
  have h2 := objGet_eq_none_iff (aggregateBy key arr) k
  by_cases hk : k ∈ arr.map key
  · rw [if_pos hk] at h
    constructor
    · intro _; exact hk
    · intro _
      by_contra hc
      rw [h2.mpr hc] at h
      exact Option.noConfusion h
  · rw [if_neg hk] at h
    constructor
    · intro hc; exact absurd hc (h2.mp h)
    · intro hc; exact absurd hc hk

theorem sum_values_aggregateBy (key : Transaction → String) (arr : List Transaction) :
    ((aggregateBy key arr).map (fun e => e.2)).sum = sumAmounts arr := by
  induction arr using List.reverseRecOn with
  | nil => simp [aggregateBy, sumAmounts]
  | append_singleton arr t ih =>
    rw [aggregateBy_append, sum_values_objSet, ih, sumAmounts_eq_sum, sumAmounts_eq_sum]
    simp only [List.map_append, List.sum_append, List.map_cons, List.map_nil, List.sum_cons,
      List.sum_nil]
    ring

theorem expensesByCategory_eq (expenseData : List Transaction) :
    expensesByCategory expenseData = aggregateBy (fun t => t.category) expenseData := rfl

theorem foldl_add_eq_sum (l : List ℚ) (a : ℚ) : l.foldl (fun a b => a + b) a = a + l.sum := by
  induction l generalizing a with
  | nil => simp
  | cons x xs ih => simp [List.foldl_cons, ih, add_assoc]

theorem sum_nonneg_of_pos (l : List Transaction) (h : ∀ t ∈ l, 0 < t.amount) :
    0 ≤ (l.map (fun t => t.amount)).sum := by
  apply List.sum_nonneg
  intro x hx
  obtain ⟨t, ht, rfl⟩ := List.mem_map.mp hx
  exact le_of_lt (h t ht)

/-- C21: for expenses with positive amounts, the keys of `expensesByCategory` are
pairwise different and are exactly the categories that occur in the list, the value of
a key is the sum of the amounts of the expenses of that category, which is
non-negative; the labels and values of the chart are these keys and values in another
order, and `totalExp` is the sum of all expense amounts. -/
theorem renderCharts_byCategory (incomeData expenseData : List Transaction)
    (hpos : ∀ t ∈ expenseData, 0 < t.amount) :
    ((expensesByCategory expenseData).map (fun e => e.1)).Nodup ∧
    (∀ k, k ∈ (expensesByCategory expenseData).map (fun e => e.1) ↔
      ∃ t ∈ expenseData, t.category = k) ∧
    (∀ k, k ∈ (expensesByCategory expenseData).map (fun e => e.1) →
      objGet (expensesByCategory expenseData) k = some (categoryTotal expenseData k) ∧
      0 ≤ categoryTotal expenseData k) ∧
    List.Perm (renderCharts incomeData expenseData).catLabels
      ((expensesByCategory expenseData).map (fun e => e.1)) ∧
    List.Perm (renderCharts incomeData expenseData).catValues
      ((expensesByCategory expenseData).map (fun e => e.2)) ∧
    (renderCharts incomeData expenseData).totalExp = sumAmounts expenseData := by
  have hperm : List.Perm (sortedCats (expensesByCategory expenseData))
      (expensesByCategory expenseData) := List.perm_insertionSort _ _
  refine ⟨?_, ?_, ?_, hperm.map _, hperm.map _, ?_⟩
  · rw [expensesByCategory_eq]; exact keys_aggregateBy_nodup _ _
  · intro k
    rw [expensesByCategory_eq, mem_keys_aggregateBy, List.mem_map]
  · intro k hk
    rw [expensesByCategory_eq] at hk ⊢
    rw [mem_keys_aggregateBy] at hk
    rw [objGet_aggregateBy, if_pos hk]
    refine ⟨rfl, ?_⟩
    unfold categoryTotal
    apply sum_nonneg_of_pos
    intro t ht
    exact hpos t (List.mem_filter.mp ht).1
  · simp only [renderCharts]
    rw [orZero_eq, foldl_add_eq_sum, zero_add, (hperm.map _).sum_eq, expensesByCategory_eq,
      sum_values_aggregateBy]

/-- C21, at expenses of 30 and 5 in one category and 70 in another. -/
theorem renderCharts_byCategory_witness :
    expensesByCategory
        [⟨1, "обед", 30, "еда", some 1707541200000⟩,
         ⟨2, "кино", 70, "досуг", some 1707541200000⟩,
         ⟨3, "чай", 5, "еда", some 1707541200000⟩] = [("еда", 35), ("досуг", 70)] ∧
    (renderCharts []
        [⟨1, "обед", 30, "еда", some 1707541200000⟩,
         ⟨2, "кино", 70, "досуг", some 1707541200000⟩,
         ⟨3, "чай", 5, "еда", some 1707541200000⟩]).totalExp =
      sumAmounts
        [⟨1, "обед", 30, "еда", some 1707541200000⟩,
         ⟨2, "кино", 70, "досуг", some 1707541200000⟩,
         ⟨3, "чай", 5, "еда", some 1707541200000⟩] := by
  refine ⟨?_, (renderCharts_byCategory [] _ (by simp)).2.2.2.2.2⟩
  simp [expensesByCategory, objSet, getOrZero, objGet, orZero]
  norm_num

/-! ## Months of `renderCharts` -/

theorem uniqueKeys_append_singleton (keys : List String) (k : String) :
    uniqueKeys (keys ++ [k]) =
      if k ∈ uniqueKeys keys then uniqueKeys keys else uniqueKeys keys ++ [k] := by
  unfold uniqueKeys
  rw [List.foldl_append]
  rfl

theorem mem_uniqueKeys (keys : List String) (k : String) : k ∈ uniqueKeys keys ↔ k ∈ keys := by
  induction keys using List.reverseRecOn generalizing k with
  | nil => simp [uniqueKeys]
  | append_singleton keys x ih =>
    rw [uniqueKeys_append_singleton]
    split_ifs with h
    · rw [List.mem_append, List.mem_singleton, ih]
      constructor
      · intro hk; exact Or.inl hk
      · rintro (hk | hk)
        · exact hk
        · rw [hk]; exact (ih x).mp h
    · rw [List.mem_append, List.mem_append, ih]

theorem zip_map_self (l : List String) (f : String → ℚ) :
    l.zip (l.map f) = l.map (fun m => (m, f m)) := by
  induction l with
  | nil => rfl
  | cons a l ih => simp [ih]

theorem nodup_uniqueKeys (keys : List String) : (uniqueKeys keys).Nodup := by
  induction keys using List.reverseRecOn with
  | nil => simp [uniqueKeys]
  | append_singleton keys x ih =>
    rw [uniqueKeys_append_singleton]
    split_ifs with h
    · exact ih
    · rw [List.nodup_append]
      refine ⟨ih, List.nodup_singleton _, ?_⟩
      intro a ha hb
      rw [List.mem_singleton] at hb
      subst hb
      exact h ha

theorem sortStrings_perm (l : List String) : List.Perm (sortStrings l) l :=
  List.perm_insertionSort _ _

theorem sortStrings_sorted (l : List String) : (sortStrings l).Sorted (fun a b => a ≤ b) :=
  List.sorted_insertionSort _ _

theorem getOrZero_eq_getD (m : List (String × ℚ)) (k : String) :
    getOrZero m k = (objGet m k).getD 0 := by
  unfold getOrZero
  cases objGet m k with
  | none => rfl
  | some v => simp [orZero_eq]

/-- C22: the months of the net series are the keys of the two mappings, each once and
no others, in ascending string order (strictly ascending, as there are no duplicates),
and the entry of month m is (mInc[m] or 0) − (mExp[m] or 0); `renderCharts` builds its
series in this way from the two monthly mappings of `getMonthlyData`. -/
theorem chartMonths_series (mInc mExp : List (String × ℚ))
    (incomeData expenseData : List Transaction) :
    (chartMonths mInc mExp).Nodup ∧
    (chartMonths mInc mExp).Sorted (fun a b => a ≤ b) ∧
    (chartMonths mInc mExp).Sorted (fun a b => a < b) ∧
    (∀ k, k ∈ chartMonths mInc mExp ↔
      k ∈ mInc.map (fun e => e.1) ∨ k ∈ mExp.map (fun e => e.1)) ∧
    (chartMonths mInc mExp).zip (monthlyBalance mInc mExp) =
      (chartMonths mInc mExp).map
        (fun m => (m, (objGet mInc m).getD 0 - (objGet mExp m).getD 0)) ∧
    (renderCharts incomeData expenseData).months =
      chartMonths (getMonthlyData incomeData) (getMonthlyData expenseData) ∧
    (renderCharts incomeData expenseData).monthlyBalance =
      monthlyBalance (getMonthlyData incomeData) (getMonthlyData expenseData) := by
  have hperm := sortStrings_perm (uniqueKeys (mInc.map (fun e => e.1) ++ mExp.map (fun e => e.1)))
  have hnodup : (chartMonths mInc mExp).Nodup :=
    (hperm.nodup_iff).mpr (nodup_uniqueKeys _)
  have hsorted : (chartMonths mInc mExp).Sorted (fun a b => a ≤ b) := sortStrings_sorted _
  refine ⟨hnodup, hsorted, ?_, ?_, ?_, rfl, rfl⟩
  · have hne : (chartMonths mInc mExp).Pairwise (fun a b => a ≠ b) := hnodup
    exact (List.Pairwise.and hsorted hne).imp (fun h => lt_of_le_of_ne h.1 h.2)
  · intro k
    unfold chartMonths
    rw [hperm.mem_iff, mem_uniqueKeys, List.mem_append]
  · unfold monthlyBalance
    rw [zip_map_self]
    simp only [getOrZero_eq_getD]

/-- C22, at income 500 and expenses 200 under the one key of March 2024: the series is
the single entry of that key with the value 300. -/
theorem chartMonths_series_witness :
    (chartMonths [("2024-3", 500)] [("2024-3", 200)]).zip
        (monthlyBalance [("2024-3", 500)] [("2024-3", 200)]) = [("2024-3", 300)] := by
  rw [(chartMonths_series [("2024-3", 500)] [("2024-3", 200)] [] []).2.2.2.2.1]
  have hm : chartMonths [("2024-3", 500)] [("2024-3", 200)] = ["2024-3"] := by decide
  rw [hm]
  simp [objGet]
  norm_num

/-- The key of 5 October 2024. -/
theorem monthKey_october_2024 : monthKey (some 1728086400000) = "2024-10" := by
  have h : getFullYear 1728086400000 = 2024 ∧ getMonth 1728086400000 = 9 := by decide
  simp only [monthKey, h.1, h.2]
  simp [numberToString, decimalDigits, Nat.digitChar]

/-- C23: with one income of 100 on 10 February 2024 and one of 50 on 5 October 2024,
the months of `renderCharts` are ordered October, February: the key of October comes
first in the month labels, in the monthly balances and in the cumulative series,
although its date is the later one. -/
theorem renderCharts_months_not_chronological :
    (1707541200000 : Int) < 1728086400000 ∧
    getMonth 1707541200000 = 1 ∧ getMonth 1728086400000 = 9 ∧
    getMonthlyData
        [⟨1, "аванс", 100, "доход", some 1707541200000⟩,
         ⟨2, "премия", 50, "доход", some 1728086400000⟩] =
      [("2024-2", 100), ("2024-10", 50)] ∧
    (renderCharts
        [⟨1, "аванс", 100, "доход", some 1707541200000⟩,
         ⟨2, "премия", 50, "доход", some 1728086400000⟩] []).months =
      ["2024-10", "2024-2"] ∧
    (renderCharts
        [⟨1, "аванс", 100, "доход", some 1707541200000⟩,
         ⟨2, "премия", 50, "доход", some 1728086400000⟩] []).monthlyBalance = [50, 100] ∧
    (renderCharts
        [⟨1, "аванс", 100, "доход", some 1707541200000⟩,
         ⟨2, "премия", 50, "доход", some 1728086400000⟩] []).savings = [50, 150] := by
  have hm : getMonthlyData
      [⟨1, "аванс", 100, "доход", some 1707541200000⟩,
       ⟨2, "премия", 50, "доход", some 1728086400000⟩] =
      [("2024-2", 100), ("2024-10", 50)] := by
    simp only [getMonthlyData, List.foldl_cons, List.foldl_nil, monthKey_examples.2.2,
      monthKey_october_2024]
    simp [objSet, getOrZero, objGet, orZero]
  have he : getMonthlyData [] = [] := rfl
  have hlt : ("2024-10" : String) < "2024-2" := by
    rw [String.lt_iff_toList_lt]
    decide
  have hu : uniqueKeys ["2024-2", "2024-10"] = ["2024-2", "2024-10"] := by decide
  have hs : chartMonths [("2024-2", 100), ("2024-10", 50)] [] = ["2024-10", "2024-2"] := by
    simp only [chartMonths, sortStrings, List.map_cons, List.map_nil, List.append_nil, hu,
      List.insertionSort, List.orderedInsert, if_neg (not_le.mpr hlt)]
  refine ⟨by decide, by decide, by decide, hm, ?_, ?_, ?_⟩
  · simp only [renderCharts, hm, he, hs]
  · simp only [renderCharts, hm, he, hs]
    simp [getOrZero, objGet, orZero]
  · simp only [renderCharts, hm, he, hs]
    simp [getOrZero, objGet, orZero, runningTotals]
    norm_num

/-! ## Cumulative series of `renderCharts` -/

theorem foldl_runningTotals (net : List ℚ) :
    net.foldl (fun st x => (st.1 + x, st.2 ++ [st.1 + x])) ((0 : ℚ), ([] : List ℚ)) =
      (net.sum, (List.range net.length).map (fun (i : Nat) => (net.take (i + 1)).sum)) := by
  induction net using List.reverseRecOn with
  | nil => simp
  | append_singleton net x ih =>
    rw [List.foldl_append, ih]
    simp only [List.foldl_cons, List.foldl_nil, List.sum_append, List.sum_cons, List.sum_nil,
      add_zero, List.length_append, List.length_singleton, List.range_succ, List.map_append,
      List.map_cons, List.map_nil]
    congr 1
    congr 1
    · apply List.map_congr_left
      intro i hi
      rw [List.mem_range] at hi
      rw [List.take_append_of_le_length (by omega)]
    · rw [List.take_of_length_le (by simp)]
      simp

theorem runningTotals_eq (net : List ℚ) :
    runningTotals net =
      (List.range net.length).map (fun (i : Nat) => (net.take (i + 1)).sum) := by
  unfold runningTotals
  rw [foldl_runningTotals]

theorem runningTotals_getD (net : List ℚ) (i : Nat) (h : i < net.length) :
    (runningTotals net).getD i 0 = (net.take (i + 1)).sum := by
  rw [runningTotals_eq, List.getD_eq_getElem?_getD, List.getElem?_map,
    List.getElem?_range h]
  rfl

theorem sum_take_succ (net : List ℚ) (i : Nat) (h : i < net.length) :
    (net.take (i + 1)).sum = (net.take i).sum + net.getD i 0 := by
  rw [List.take_succ, List.sum_append, List.getD_eq_getElem?_getD,
    List.getElem?_eq_getElem h]
  simp

theorem getOrZero_of_not_mem (m : List (String × ℚ)) (k : String)
    (h : k ∉ m.map (fun e => e.1)) : getOrZero m k = 0 := by
  unfold getOrZero
  rw [(objGet_eq_none_iff m k).mpr h]

theorem values_eq_map_getOrZero (m : List (String × ℚ))
    (hnd : (m.map (fun e => e.1)).Nodup) :
    m.map (fun e => e.2) = (m.map (fun e => e.1)).map (getOrZero m) := by
  induction m with
  | nil => rfl
  | cons e rest ih =>
    obtain ⟨k, v⟩ := e
    rw [List.map_cons, List.nodup_cons] at hnd
    have ih' := ih hnd.2
    simp only [List.map_cons, List.map_map] at ih' ⊢
    congr 1
    · simp [getOrZero, objGet, orZero_eq]
    · rw [ih']
      apply List.map_congr_left
      intro e he
      have hne : ¬ k = e.1 := by
        intro hk
        apply hnd.1
        rw [hk]
        exact List.mem_map.mpr ⟨e, he, rfl⟩
      simp [getOrZero, objGet, hne]

/-- Summing the reads `m[k] || 0` over a duplicate-free list that has all keys of `m`
gives the sum of the values of `m`. -/
theorem sum_map_getOrZero (months : List String) (m : List (String × ℚ))
    (hL : months.Nodup) (hm : (m.map (fun e => e.1)).Nodup)
    (hsub : ∀ k ∈ m.map (fun e => e.1), k ∈ months) :
    (months.map (getOrZero m)).sum = (m.map (fun e => e.2)).sum := by
  rw [values_eq_map_getOrZero m hm, ← List.sum_toFinset _ hL, ← List.sum_toFinset _ hm]
  symm
  apply Finset.sum_subset
  · intro k hk
    rw [List.mem_toFinset] at hk ⊢
    exact hsub k hk
  · intro k _ hk
    rw [List.mem_toFinset] at hk
    exact getOrZero_of_not_mem m k hk

theorem chartMonths_nodup_mem (mInc mExp : List (String × ℚ)) :
    (chartMonths mInc mExp).Nodup ∧
    ∀ k, k ∈ chartMonths mInc mExp ↔
      k ∈ mInc.map (fun e => e.1) ∨ k ∈ mExp.map (fun e => e.1) := by
  have hperm : List.Perm (chartMonths mInc mExp)
      (uniqueKeys (mInc.map (fun e => e.1) ++ mExp.map (fun e => e.1))) :=
    List.perm_insertionSort _ _
  refine ⟨(hperm.nodup_iff).mpr (nodup_uniqueKeys _), fun k => ?_⟩
  rw [hperm.mem_iff, mem_uniqueKeys, List.mem_append]

/-- The sum of the monthly balances of the charted data is total income minus total
expenses. -/
theorem sum_monthlyBalance (incomeData expenseData : List Transaction) :
    (monthlyBalance (getMonthlyData incomeData) (getMonthlyData expenseData)).sum =
      sumAmounts incomeData - sumAmounts expenseData := by
  have hc := chartMonths_nodup_mem (getMonthlyData incomeData) (getMonthlyData expenseData)
  have h1 := sum_map_getOrZero _ (getMonthlyData incomeData) hc.1
    (keys_getMonthlyData_nodup incomeData) (fun k hk => (hc.2 k).mpr (Or.inl hk))
  have h2 := sum_map_getOrZero _ (getMonthlyData expenseData) hc.1
    (keys_getMonthlyData_nodup expenseData) (fun k hk => (hc.2 k).mpr (Or.inr hk))
  unfold monthlyBalance
  rw [← sum_values_getMonthlyData incomeData, ← sum_values_getMonthlyData expenseData,
    ← h1, ← h2]
  induction chartMonths (getMonthlyData incomeData) (getMonthlyData expenseData) with
  | nil => simp
  | cons a l ih => simp only [List.map_cons, List.sum_cons, ih]; ring

/-- C24: the cumulative series of a net series has the same length, starts with
net[0] and continues with cumulative[i+1] = cumulative[i] + net[i+1]; the savings of
`renderCharts` are the cumulative series of its monthly balances, their last element is
total income minus total expenses of the charted data, and the average level is that
last element divided by the length, or 0 for an empty series. -/
theorem renderCharts_savings (net : List ℚ) (incomeData expenseData : List Transaction) :
    (runningTotals net).length = net.length ∧
    (0 < net.length → (runningTotals net).getD 0 0 = net.getD 0 0) ∧
    (∀ i, i + 1 < net.length →
      (runningTotals net).getD (i + 1) 0 =
        (runningTotals net).getD i 0 + net.getD (i + 1) 0) ∧
    (renderCharts incomeData expenseData).savings =
      runningTotals (renderCharts incomeData expenseData).monthlyBalance ∧
    (renderCharts incomeData expenseData).savings.length =
      (renderCharts incomeData expenseData).months.length ∧
    ((renderCharts incomeData expenseData).savings.length ≠ 0 →
      (renderCharts incomeData expenseData).savings.getD
          ((renderCharts incomeData expenseData).savings.length - 1) 0 =
        sumAmounts incomeData - sumAmounts expenseData ∧
      (renderCharts incomeData expenseData).avg =
        (renderCharts incomeData expenseData).savings.getD
          ((renderCharts incomeData expenseData).savings.length - 1) 0 /
        ((renderCharts incomeData expenseData).savings.length : ℚ)) ∧
    ((renderCharts incomeData expenseData).savings.length = 0 →
      (renderCharts incomeData expenseData).avg = 0) := by
  have hlen : ∀ l : List ℚ, (runningTotals l).length = l.length := by
    intro l
    rw [runningTotals_eq, List.length_map, List.length_range]
  refine ⟨hlen net, ?_, ?_, rfl, ?_, ?_, ?_⟩
  · intro h0
    rw [runningTotals_getD net 0 h0, sum_take_succ net 0 h0]
    simp
  · intro i hi
    rw [runningTotals_getD net (i + 1) hi, runningTotals_getD net i (by omega),
      sum_take_succ net (i + 1) hi]
  · simp only [renderCharts]
    rw [hlen, List.length_map]
  · intro hne
    have hsav : (renderCharts incomeData expenseData).savings =
        runningTotals (monthlyBalance (getMonthlyData incomeData)
          (getMonthlyData expenseData)) := rfl
    have hl := hlen (monthlyBalance (getMonthlyData incomeData) (getMonthlyData expenseData))
    rw [hsav] at hne
    have hlast : (renderCharts incomeData expenseData).savings.getD
        ((renderCharts incomeData expenseData).savings.length - 1) 0 =
        sumAmounts incomeData - sumAmounts expenseData := by
      rw [hsav, runningTotals_getD _ _ (by omega), hl, ← sum_monthlyBalance]
      rw [Nat.sub_add_cancel (by omega), List.take_length]
    refine ⟨hlast, ?_⟩
    have hne' : (renderCharts incomeData expenseData).savings.length ≠ 0 := by
      rw [hsav]; exact hne
    simp only [renderCharts, ne_eq] at hne' ⊢
    rw [if_pos hne']
  · intro h0
    simp only [renderCharts, ne_eq] at h0 ⊢
    rw [if_neg (not_not.mpr h0)]

/-! ## Malformed amounts -/

theorem foldl_sumParsedOrZero (arr : List ParsedTransaction) (s : ℚ) :
    arr.foldl (fun s t => s + nanOrZero t.amount) s = s + wellFormedSum arr := by
  induction arr generalizing s with
  | nil => simp [wellFormedSum]
  | cons t ts ih =>
    rw [List.foldl_cons, ih]
    cases ha : t.amount with
    | none => simp [wellFormedSum, nanOrZero, ha]
    | some v => simp [wellFormedSum, nanOrZero, ha, orZero_eq, add_assoc]

/-- The reductions that read `t.amount || 0` give the sum of the well-formed amounts. -/
theorem sumParsedOrZero_eq (arr : List ParsedTransaction) :
    sumParsedOrZero arr = wellFormedSum arr := by
  unfold sumParsedOrZero
  rw [foldl_sumParsedOrZero, zero_add]

theorem foldl_nanAdd_none (arr : List ParsedTransaction) :
    arr.foldl (fun sum t => nanAdd sum t.amount) none = none := by
  induction arr with
  | nil => rfl
  | cons t ts ih => simpa [List.foldl_cons, nanAdd] using ih

theorem foldl_sumParsed (arr : List ParsedTransaction) (s : ℚ) :
    arr.foldl (fun sum t => nanAdd sum t.amount) (some s) =
      if ∀ t ∈ arr, t.amount ≠ none then some (s + wellFormedSum arr) else none := by
  induction arr generalizing s with
  | nil => simp [wellFormedSum]
  | cons t ts ih =>
    rw [List.foldl_cons]
    cases ha : t.amount with
    | none =>
      have hno : ¬ ∀ u ∈ t :: ts, u.amount ≠ none := by
        intro h
        exact h t (List.mem_cons_self _ _) ha
      rw [if_neg hno]
      simpa [nanAdd] using foldl_nanAdd_none ts
    | some v =>
      have hstep : nanAdd (some s) (some v) = some (s + v) := rfl
      rw [hstep, ih]
      have hiff : (∀ u ∈ t :: ts, u.amount ≠ none) ↔ ∀ u ∈ ts, u.amount ≠ none := by
        constructor
        · intro h u hu; exact h u (List.mem_cons_of_mem _ hu)
        · intro h u hu
          rcases List.mem_cons.mp hu with rfl | hu'
          · rw [ha]; exact Option.some_ne_none _
          · exact h u hu'
      by_cases hall : ∀ u ∈ ts, u.amount ≠ none
      · rw [if_pos hall, if_pos (hiff.mpr hall)]
        simp [wellFormedSum, ha, add_assoc]
      · rw [if_neg hall, if_neg (fun h => hall (hiff.mp h))]

/-- The reductions that read `t.amount` unguarded give `NaN` as soon as one amount is
malformed, and the sum of the amounts otherwise. -/
theorem sumParsed_eq (arr : List ParsedTransaction) :
    sumParsed arr =
      if ∀ t ∈ arr, t.amount ≠ none then some (wellFormedSum arr) else none := by
  unfold sumParsed
  rw [foldl_sumParsed]
  simp

/-- On transactions whose amounts are all well formed the totals on parsed
transactions are those of `updateEconomy` and `calculateMonthlySummary`. -/
theorem parsed_totals_of_wellFormed (transactions : List Transaction) (period : JSValue)
    (now currentMonth today : Int) :
    economyTotal (transactions.map toParsed) period now =
      some (updateEconomy period now now transactions []).periodIncome ∧
    monthlyTotal (transactions.map toParsed) currentMonth =
      some (calculateMonthlySummary currentMonth today transactions []).monthlyIncome := by
  have hsum : ∀ l : List Transaction, sumParsed (l.map toParsed) = some (sumAmounts l) := by
    intro l
    rw [sumParsed_eq, if_pos, sumAmounts_eq_sum]
    · have hfm : ∀ l' : List Transaction,
          List.filterMap (fun t => (toParsed t).amount) l' = l'.map (fun t => t.amount) := by
        intro l'
        induction l' with
        | nil => rfl
        | cons a l' ih => simp [List.filterMap_cons, toParsed, ← ih]
      simp only [wellFormedSum, List.filterMap_map, Function.comp_def]
      rw [hfm]
    · intro t ht
      obtain ⟨u, -, rfl⟩ := List.mem_map.mp ht
      exact Option.some_ne_none _
  have hfilter : ∀ (l : List Transaction) (p : Option Int → Bool),
      (l.map toParsed).filter (fun t => p t.date) = (l.filter (fun t => p t.date)).map toParsed := by
    intro l p
    rw [List.filter_map]
    rfl
  constructor
  · simp only [economyTotal, filterParsed, updateEconomy, filterTransactions]
    rw [hfilter transactions (fun d => dateBetween d _ _), hsum]
  · simp only [monthlyTotal, calculateMonthlySummary]
    rw [hfilter transactions (fun d => dateBetween d _ _), hsum]

/-- C25, at one income of 100 and one whose amount is malformed, both dated 20 January
2024, the clock and the selected month being at 15 January 2024 09:30: the all-time
total and the total of `updateAverages` are 100, the sum of the well-formed amounts,
but the period total of `updateEconomy` and the monthly total of
`calculateMonthlySummary` are `NaN`. -/
theorem malformed_amount_propagates :
    wellFormedSum
        [⟨1, "зарплата", some 100, "доход", some 1705773600000⟩,
         ⟨2, "премия", none, "доход", some 1705773600000⟩] = 100 ∧
    allTimeTotal
        [⟨1, "зарплата", some 100, "доход", some 1705773600000⟩,
         ⟨2, "премия", none, "доход", some 1705773600000⟩] = 100 ∧
    averagesTotal
        [⟨1, "зарплата", some 100, "доход", some 1705773600000⟩,
         ⟨2, "премия", none, "доход", some 1705773600000⟩]
        (JSValue.string "month") 1705311000000 = 100 ∧
    economyTotal
        [⟨1, "зарплата", some 100, "доход", some 1705773600000⟩,
         ⟨2, "премия", none, "доход", some 1705773600000⟩]
        (JSValue.string "month") 1705311000000 = none ∧
    monthlyTotal
        [⟨1, "зарплата", some 100, "доход", some 1705773600000⟩,
         ⟨2, "премия", none, "доход", some 1705773600000⟩] 1705311000000 = none := by
  have hu : JSValue.string "month" ≠ JSValue.undefined := by decide
  have hr : (getDateRange (JSValue.string "month") 1705311000000).startDate =
        1704067200000 ∧
      (getDateRange (JSValue.string "month") 1705311000000).endDate = 1706745599999 := by
    decide
  have hb : newDate (getFullYear 1705311000000) (getMonth 1705311000000) 1 0 0 0 0 =
        1704067200000 ∧
      newDate (getFullYear 1705311000000) (getMonth 1705311000000 + 1) 0 0 0 0 0 =
        1706659200000 := by
    decide
  refine ⟨?_, ?_, ?_, ?_, ?_⟩
  · simp [wellFormedSum]
  · simp [allTimeTotal, sumParsedOrZero, nanOrZero, orZero]
  · simp only [averagesTotal, if_neg hu, filterParsed, hr.1, hr.2]
    simp [sumParsedOrZero, nanOrZero, orZero, dateBetween]
  · simp only [economyTotal, if_neg hu, filterParsed, hr.1, hr.2]
    simp [sumParsed, nanAdd, dateBetween]
  · simp only [monthlyTotal, hb.1, hb.2]
    simp [sumParsed, nanAdd, dateBetween]

/-! ## Cash-flow projection against the monthly summary -/

theorem renderCashflowForecastChart_eq (currentMonth : Int)
    (incomeTransactions expensesTransactions : List Transaction)
    (hy : ¬ (0 ≤ getFullYear currentMonth ∧ getFullYear currentMonth ≤ 99)) :
    renderCashflowForecastChart currentMonth incomeTransactions expensesTransactions =
      (List.range (lastDayOfMonth (getFullYear currentMonth)
          (getMonth currentMonth)).toNat).map (fun (i : Nat) =>
        ({ day := (i : Int) + 1
           income := dayTotal incomeTransactions currentMonth ((i : Int) + 1)
           expenses := dayTotal expensesTransactions currentMonth ((i : Int) + 1)
           balance := ((List.range (i + 1)).map (fun (k : Nat) =>
            dayTotal incomeTransactions currentMonth ((k : Int) + 1) -
              dayTotal expensesTransactions currentMonth ((k : Int) + 1))).sum } :
          DailyEntry)) := by
  unfold renderCashflowForecastChart
  simp only
  rw [getDate_monthEnd currentMonth hy, cashflow_fold]

theorem dayTotal_april_last_day (day : Int) :
    dayTotal [⟨1, "зарплата", 1000, "доход", some 1714478400000⟩] 1712707200000 day =
      if day = 30 then 1000 else 0 := by
  have hf : getFullYear 1712707200000 = 2024 ∧ getMonth 1712707200000 = 3 ∧
      getFullYear 1714478400000 = 2024 ∧ getMonth 1714478400000 = 3 ∧
      getDate 1714478400000 = 30 := by decide
  obtain ⟨h1, h2, h3, h4, h5⟩ := hf
  unfold dayTotal
  simp only [List.filter_cons, List.filter_nil, h1, h2, h3, h4, h5, true_and]
  by_cases h : day = 30
  · subst h; simp
  · have h' : ¬ (30 : Int) = day := fun e => h e.symm
    simp [h, h']

/-- C26, at April 2024 with one income of 1000 dated 30 April 12:00, the last calendar
day of the month: the balance of the last day of the cash-flow projection is 1000, the
monthly surplus of `calculateMonthlySummary` is 0. -/
theorem cashflow_last_day_not_surplus :
    getFullYear 1714478400000 = 2024 ∧ getMonth 1714478400000 = 3 ∧
    getDate 1714478400000 = 30 ∧ lastDayOfMonth 2024 3 = 30 ∧
    ((renderCashflowForecastChart 1712707200000
        [⟨1, "зарплата", 1000, "доход", some 1714478400000⟩] []).getLast?).map
        (fun e => (e.day, e.balance)) = some (30, 1000) ∧
    (calculateMonthlySummary 1712707200000 1714478400000
        [⟨1, "зарплата", 1000, "доход", some 1714478400000⟩] []).surplus = 0 := by
  refine ⟨by decide, by decide, by decide, by decide, ?_, ?_⟩
  · rw [renderCashflowForecastChart_eq 1712707200000 _ _ (by decide)]
    have hl : lastDayOfMonth (getFullYear 1712707200000) (getMonth 1712707200000) = 30 := by
      decide
    have he : ∀ day : Int, dayTotal [] 1712707200000 day = 0 := by
      intro day; simp [dayTotal]
    rw [hl]
    simp only [dayTotal_april_last_day, he]
    have h30 : Int.toNat 30 = 29 + 1 := by decide
    rw [h30, List.range_succ, List.map_append, List.map_singleton, List.getLast?_append]
    simp [List.range_succ]
  · simp only [calculateMonthlySummary, monthBounds_april_2024.1, monthBounds_april_2024.2]
    simp [sumAmounts, dateBetween]

/-! ## Goal status order -/

theorem goalProgress_mono (target a₁ a₂ : ℚ) (ht : 0 < target) (h : a₁ ≤ a₂) :
    goalProgress target a₁ ≤ goalProgress target a₂ := by
  unfold goalProgress
  rw [if_pos ht, if_pos ht]
  apply min_le_min _ (le_refl _)
  have : a₁ / target ≤ a₂ / target := div_le_div_of_nonneg_right h (le_of_lt ht)
  linarith

theorem statusRank_goalItem (fm : ℚ) (accounts : List Account) (goal : Goal) :
    statusRank (goalItem fm accounts goal).statusText =
      if (goalItem fm accounts goal).accumulated > (goalItem fm accounts goal).target then 5
      else if (goalItem fm accounts goal).accumulated ≥ (goalItem fm accounts goal).target
        then 4
      else if goalProgress (goalItem fm accounts goal).target
        (goalItem fm accounts goal).accumulated ≥ 80 then 3
      else if goalProgress (goalItem fm accounts goal).target
        (goalItem fm accounts goal).accumulated ≥ 50 then 2
      else if goalProgress (goalItem fm accounts goal).target
        (goalItem fm accounts goal).accumulated ≥ 25 then 1
      else 0 := by
  rw [goalItem_statusText]
  have hp := (goalItem_fields fm accounts goal).2.2.2
  have ht := (goalItem_fields fm accounts goal).1
  rw [hp, ht]
  split_ifs <;> decide

theorem statusText_achieved_iff (fm : ℚ) (accounts : List Account) (goal : Goal) :
    (goalItem fm accounts goal).statusText = "Цель достигнута!" ↔
      (goalItem fm accounts goal).accumulated = (goalItem fm accounts goal).target := by
  rw [goalItem_statusText]
  constructor
  · intro h
    split_ifs at h with h1 h2 h3 h4 h5
    · exact absurd h (by decide)
    · exact le_antisymm (not_lt.mp h1) h2
    · exact absurd h (by decide)
    · exact absurd h (by decide)
    · exact absurd h (by decide)
    · exact absurd h (by decide)
  · intro h
    rw [if_neg (by rw [h]; exact lt_irrefl _), if_pos (by rw [h])]

/-- C27: for two items that `renderGoals` produces for the same positive target, the
one with the smaller (or equal) accumulated amount has a status that is not higher in
the order in progress, started, halfway, near, achieved, over target; and an item has
the status achieved exactly when its accumulated amount equals its target. -/
theorem renderGoals_status_monotone
    (incomeTransactions₁ expensesTransactions₁ : List Transaction)
    (accounts₁ : List Account) (goals₁ : List Goal)
    (incomeTransactions₂ expensesTransactions₂ : List Transaction)
    (accounts₂ : List Account) (goals₂ : List Goal) (it₁ it₂ : GoalItem)
    (h₁ : it₁ ∈ renderGoals incomeTransactions₁ expensesTransactions₁ accounts₁ goals₁)
    (h₂ : it₂ ∈ renderGoals incomeTransactions₂ expensesTransactions₂ accounts₂ goals₂)
    (htarget : it₁.target = it₂.target) (hpos : 0 < it₁.target)
    (hle : it₁.accumulated ≤ it₂.accumulated) :
    statusRank it₁.statusText ≤ statusRank it₂.statusText ∧
    (it₁.statusText = "Цель достигнута!" ↔ it₁.accumulated = it₁.target) ∧
    (it₂.statusText = "Цель достигнута!" ↔ it₂.accumulated = it₂.target) := by
  obtain ⟨g₁, -, rfl⟩ := mem_renderGoals h₁
  obtain ⟨g₂, -, rfl⟩ := mem_renderGoals h₂
  refine ⟨?_, statusText_achieved_iff _ _ _, statusText_achieved_iff _ _ _⟩
  rw [statusRank_goalItem, statusRank_goalItem, ← htarget]
  have hmono := goalProgress_mono _ _ _ hpos hle
  split_ifs <;> first | omega | (exfalso; linarith)

/-- C27, at target 1000 with free money 400 and with free money 1200: started is not
above over target. -/
theorem renderGoals_status_monotone_witness :
    ({ name := "отпуск", target := 1000, accountsSum := 0, connectedAccountsList := [],
       useOnlyAccounts := false, accumulated := 400, totalProgress := 40,
       canAfford := false, isOverBudget := false, statusText := "Есть прогресс!",
       emoji := "👍" } : GoalItem) ∈
      renderGoals [⟨1, "зарплата", 400, "доход", some 1705773600000⟩] [] []
        [⟨1, "отпуск", 1000, [], false⟩] ∧
    ({ name := "отпуск", target := 1000, accountsSum := 0, connectedAccountsList := [],
       useOnlyAccounts := false, accumulated := 1200, totalProgress := 100,
       canAfford := true, isOverBudget := true, statusText := "Цель перевыполнена!",
       emoji := "🎉" } : GoalItem) ∈
      renderGoals [⟨1, "зарплата", 1200, "доход", some 1705773600000⟩] [] []
        [⟨1, "отпуск", 1000, [], false⟩] ∧
    statusRank "Есть прогресс!" ≤ statusRank "Цель перевыполнена!" := by
  have heval₁ : renderGoals [⟨1, "зарплата", 400, "доход", some 1705773600000⟩] [] []
      [⟨1, "отпуск", 1000, [], false⟩] =
      [{ name := "отпуск", target := 1000, accountsSum := 0, connectedAccountsList := [],
         useOnlyAccounts := false, accumulated := 400, totalProgress := 40,
         canAfford := false, isOverBudget := false, statusText := "Есть прогресс!",
         emoji := "👍" }] := by
    simp [renderGoals, goalItem, freeMoney, sumAmounts, linkAccounts, goalProgress]
    norm_num
  have heval₂ : renderGoals [⟨1, "зарплата", 1200, "доход", some 1705773600000⟩] [] []
      [⟨1, "отпуск", 1000, [], false⟩] =
      [{ name := "отпуск", target := 1000, accountsSum := 0, connectedAccountsList := [],
         useOnlyAccounts := false, accumulated := 1200, totalProgress := 100,
         canAfford := true, isOverBudget := true, statusText := "Цель перевыполнена!",
         emoji := "🎉" }] := by
    simp [renderGoals, goalItem, freeMoney, sumAmounts, linkAccounts, goalProgress]
    norm_num
  have hmem₁ :
    ({ name := "отпуск", target := 1000, accountsSum := 0, connectedAccountsList := [],
       useOnlyAccounts := false, accumulated := 400, totalProgress := 40,
       canAfford := false, isOverBudget := false, statusText := "Есть прогресс!",
       emoji := "👍" } : GoalItem) ∈
      renderGoals [⟨1, "зарплата", 400, "доход", some 1705773600000⟩] [] []
        [⟨1, "отпуск", 1000, [], false⟩] := by
    rw [heval₁]; exact List.mem_singleton.mpr rfl
  have hmem₂ :
    ({ name := "отпуск", target := 1000, accountsSum := 0, connectedAccountsList := [],
       useOnlyAccounts := false, accumulated := 1200, totalProgress := 100,
       canAfford := true, isOverBudget := true, statusText := "Цель перевыполнена!",
       emoji := "🎉" } : GoalItem) ∈
      renderGoals [⟨1, "зарплата", 1200, "доход", some 1705773600000⟩] [] []
        [⟨1, "отпуск", 1000, [], false⟩] := by
    rw [heval₂]; exact List.mem_singleton.mpr rfl
  exact ⟨hmem₁, hmem₂,
    (renderGoals_status_monotone _ _ _ _ _ _ _ _ _ _ hmem₁ hmem₂ rfl (by norm_num)
      (by norm_num)).1⟩

/-! ## Buckets of `updateChart` -/

theorem sum_set_add (xs : List ℚ) (k : Nat) (hk : k < xs.length) (a : ℚ) :
    (xs.set k (xs.getD k 0 + a)).sum = xs.sum + a := by
  induction xs generalizing k with
  | nil => simp at hk
  | cons x xs ih =>
    cases k with
    | zero => simp; ring
    | succ k =>
      simp only [List.length_cons, Nat.succ_lt_succ_iff] at hk
      simp only [List.set_cons_succ, List.sum_cons, List.getD_cons_succ, ih k hk]
      ring

theorem getD_set_add (xs : List ℚ) (k j : Nat) (hk : k < xs.length) (a : ℚ) :
    (xs.set k (xs.getD k 0 + a)).getD j 0 =
      xs.getD j 0 + (if j = k then a else 0) := by
  by_cases hjk : j = k
  · subst hjk
    simp [List.getD_eq_getElem?_getD, List.getElem?_set, hk]
  · have : k ≠ j := fun h => hjk h.symm
    simp [List.getD_eq_getElem?_getD, List.getElem?_set, hjk, this]

theorem bucketAdd_valid (xs : List ℚ) (i : Int) (a : ℚ) (h0 : 0 ≤ i)
    (h1 : i < xs.length) :
    bucketAdd xs i a = some (xs.set i.toNat (xs.getD i.toNat 0 + a)) := by
  unfold bucketAdd
  rw [if_neg (not_lt.mpr h0), if_pos h1]

theorem foldl_bucketStep (index : Int → Int) (test : Int → Bool) (n : Nat)
    (ts : List Transaction)
    (h : ∀ t ∈ ts, ∃ d, t.date = some d ∧ test (index d) = true ∧
      0 ≤ index d ∧ index d < n)
    (xs0 : List ℚ) (hlen : xs0.length = n) :
    ∃ xs : List ℚ, ts.foldl (bucketStep index test) (some xs0) = some xs ∧
      xs.length = n ∧
      (∀ j : Nat, xs.getD j 0 = xs0.getD j 0 +
        sumAmounts (ts.filter (fun t => decide (t.date.map index = some (j : Int))))) ∧
      xs.sum = xs0.sum + sumAmounts ts := by
  induction ts generalizing xs0 with
  | nil => exact ⟨xs0, rfl, hlen, by simp [sumAmounts], by simp [sumAmounts]⟩
  | cons t ts ih =>
    obtain ⟨d, hd, htest, h0, h1⟩ := h t (List.mem_cons_self _ _)
    have hk : (index d).toNat < xs0.length := by
      rw [hlen]; omega
    have hstep : bucketStep index test (some xs0) t =
        some (xs0.set (index d).toNat (xs0.getD (index d).toNat 0 + t.amount)) := by
      unfold bucketStep
      rw [hd]
      simp only [htest, if_true, Option.some_bind]
      exact bucketAdd_valid xs0 (index d) t.amount h0 (by rw [hlen]; exact h1)
    obtain ⟨xs, hxs, hl, hj, hs⟩ := ih (fun t ht => h t (List.mem_cons_of_mem _ ht))
      (xs0.set (index d).toNat (xs0.getD (index d).toNat 0 + t.amount))
      (by rw [List.length_set]; exact hlen)
    refine ⟨xs, ?_, hl, ?_, ?_⟩
    · rw [List.foldl_cons, hstep, hxs]
    · intro j
      rw [hj j, getD_set_add xs0 _ j hk]
      simp only [sumAmounts_eq_sum, List.filter_cons, hd, Option.map_some']
      by_cases hjk : j = (index d).toNat
      · have hi : index d = (j : Int) := by omega
        rw [if_pos hjk]
        simp only [hi, decide_True, if_true, List.map_cons, List.sum_cons]
        ring
      · have hi : ¬ index d = (j : Int) := by omega
        rw [if_neg hjk]
        simp [hi]
    · rw [hs, sum_set_add xs0 _ hk]
      simp only [sumAmounts_eq_sum, List.map_cons, List.sum_cons]
      ring

theorem conserves_of_foldl (index : Int → Int) (test : Int → Bool) (n : Nat)
    (ts : List Transaction)
    (h : ∀ t ∈ ts, ∃ d, t.date = some d ∧ test (index d) = true ∧
      0 ≤ index d ∧ index d < n) :
    Conserves index n ts
      (ts.foldl (bucketStep index test) (some (List.replicate n 0))) := by
  obtain ⟨xs, hxs, hl, hj, hs⟩ :=
    foldl_bucketStep index test n ts h (List.replicate n 0) (by simp)
  refine ⟨xs, hxs, hl, ?_, ?_, ?_⟩
  · intro t ht
    obtain ⟨d, hd, _, h0, h1⟩ := h t ht
    exact ⟨d, hd, h0, h1⟩
  · intro j hjn
    rw [hj j]
    simp [List.getD_eq_getElem?_getD, List.getElem?_replicate, hjn]
  · rw [hs]; simp

theorem newDate_eq (year month date hours minutes seconds ms : Int) :
    newDate year month date hours minutes seconds ms =
      MakeDate (MakeDay (if 0 ≤ year ∧ year ≤ 99 then 1900 + year else year) month date)
        (MakeTime hours minutes seconds ms) := rfl

/-- An instant between the first instant of a month and the last millisecond of its
last day has a day of the month from 1 to the day of the month of the last day. -/
theorem getDate_of_month_range (y m d : Int) (hm0 : 0 ≤ m) (hm1 : m ≤ 11)
    (h0 : MakeDate (MakeDay y m 1) (MakeTime 0 0 0 0) ≤ d)
    (h1 : d ≤ MakeDate (MakeDay y (m + 1) 0) (MakeTime 23 59 59 999)) :
    1 ≤ getDate d ∧
      getDate d ≤ getDate (MakeDate (MakeDay y (m + 1) 0) (MakeTime 0 0 0 0)) := by
  rw [MakeDay_month_one y m hm0 hm1] at h0
  rw [MakeDay_succ_month_zero y m hm0 hm1] at h1 ⊢
  have hL := lastDayOfMonth_pos y m
  have hd := MakeDate_Day_TimeWithinDay d
  have htw := TimeWithinDay_bounds d
  have hend := (civil_of_MakeDate y m (lastDayOfMonth y m) (MakeTime 0 0 0 0) hm0 hm1 hL
    le_rfl MakeTime_bounds_start.1 MakeTime_bounds_start.2).2.2
  have hday : DayFromYear y + monthStartDay m (InLeapYear y) ≤ Day d ∧
      Day d ≤ DayFromYear y + monthStartDay m (InLeapYear y) + lastDayOfMonth y m - 1 := by
    unfold MakeDate MakeTime msPerDay at *
    omega
  have hcivil := (civil_of_MakeDate y m
    (Day d - (DayFromYear y + monthStartDay m (InLeapYear y)) + 1) (TimeWithinDay d)
    hm0 hm1 (by omega) (by omega) htw.1 htw.2).2.2
  have hsame : DayFromYear y + monthStartDay m (InLeapYear y) +
      (Day d - (DayFromYear y + monthStartDay m (InLeapYear y)) + 1) - 1 = Day d := by
    ring
  rw [hsame, hd] at hcivil
  unfold getDate
  rw [hend, hcivil]
  omega

theorem mem_filterTransactions (ts : List Transaction) (period : JSValue) (now : Int)
    (t : Transaction) :
    t ∈ filterTransactions ts period now ↔
      t ∈ ts ∧ ∃ d, t.date = some d ∧ (getDateRange period now).startDate ≤ d ∧
        d ≤ (getDateRange period now).endDate := by
  unfold filterTransactions
  simp only [List.mem_filter, dateBetween_iff]

theorem weekIndex_bounds (d : Int) :
    0 ≤ (getDay d + 6) % 7 ∧ (getDay d + 6) % 7 < 7 ∧
      ((getDay d + 6) % 7 = 0 ↔ getDay d = 1) := by
  unfold getDay WeekDay
  omega

theorem monthIndex_bounds (now nowYear nowMonth d : Int)
    (hy : getFullYear nowYear = getFullYear now) (hm : getMonth nowMonth = getMonth now)
    (h0 : (getDateRange (JSValue.string "month") now).startDate ≤ d)
    (h1 : d ≤ (getDateRange (JSValue.string "month") now).endDate) :
    0 ≤ getDate d - 1 ∧
      getDate d - 1 < getDate (newDate (getFullYear nowYear) (getMonth nowMonth + 1) 0 0 0 0 0) := by
  have hne : JSValue.string "month" ≠ JSValue.string "week" := by decide
  simp only [getDateRange, if_neg hne, if_true, newDate_eq] at h0 h1
  have hb := MonthFromTime_bounds now
  have := getDate_of_month_range _ (getMonth now) d hb.1 hb.2 h0 h1
  rw [hy, hm, newDate_eq]
  omega

/-- Conservation of amounts in `updateChart`, C28: for each of the periods week, month and
year the two bucket arrays have one element per weekday (Monday first), per day of the
current month, per month of the year; every transaction that `filterTransactions` selects
has an index in range, every element is the total of the selected transactions of its
index, and the elements add up to the total of the selected transactions.  For the month
the readings of the clock are taken to fall in one calendar month. -/
theorem updateChart_conserves (nowIncome nowExpenses nowYear nowMonth : Int)
    (incomeTransactions expensesTransactions : List Transaction) :
    (Conserves (fun d => (getDay d + 6) % 7) 7
        (filterTransactions incomeTransactions (JSValue.string "week") nowIncome)
        (updateChart (JSValue.string "week") nowIncome nowExpenses nowYear nowMonth
          incomeTransactions expensesTransactions).incomeData ∧
      Conserves (fun d => (getDay d + 6) % 7) 7
        (filterTransactions expensesTransactions (JSValue.string "week") nowExpenses)
        (updateChart (JSValue.string "week") nowIncome nowExpenses nowYear nowMonth
          incomeTransactions expensesTransactions).expensesData ∧
      ∀ d : Int, (getDay d + 6) % 7 = 0 ↔ getDay d = 1) ∧
    (getFullYear nowYear = getFullYear nowIncome →
      getFullYear nowYear = getFullYear nowExpenses →
      getMonth nowMonth = getMonth nowIncome →
      getMonth nowMonth = getMonth nowExpenses →
      Conserves (fun d => getDate d - 1)
        (getDate (newDate (getFullYear nowYear) (getMonth nowMonth + 1) 0 0 0 0 0)).toNat
        (filterTransactions incomeTransactions (JSValue.string "month") nowIncome)
        (updateChart (JSValue.string "month") nowIncome nowExpenses nowYear nowMonth
          incomeTransactions expensesTransactions).incomeData ∧
      Conserves (fun d => getDate d - 1)
        (getDate (newDate (getFullYear nowYear) (getMonth nowMonth + 1) 0 0 0 0 0)).toNat
        (filterTransactions expensesTransactions (JSValue.string "month") nowExpenses)
        (updateChart (JSValue.string "month") nowIncome nowExpenses nowYear nowMonth
          incomeTransactions expensesTransactions).expensesData) ∧
    (Conserves (fun d => getMonth d) 12
        (filterTransactions incomeTransactions (JSValue.string "year") nowIncome)
        (updateChart (JSValue.string "year") nowIncome nowExpenses nowYear nowMonth
          incomeTransactions expensesTransactions).incomeData ∧
      Conserves (fun d => getMonth d) 12
        (filterTransactions expensesTransactions (JSValue.string "year") nowExpenses)
        (updateChart (JSValue.string "year") nowIncome nowExpenses nowYear nowMonth
          incomeTransactions expensesTransactions).expensesData) := by
  have hmw : JSValue.string "month" ≠ JSValue.string "week" := by decide
  have hyw : JSValue.string "year" ≠ JSValue.string "week" := by decide
  have hym : JSValue.string "year" ≠ JSValue.string "month" := by decide
  have hweek : ∀ (ts : List Transaction) (now : Int),
      ∀ t ∈ filterTransactions ts (JSValue.string "week") now,
        ∃ d, t.date = some d ∧ (fun _ => true) ((getDay d + 6) % 7) = true ∧
          0 ≤ (getDay d + 6) % 7 ∧ (getDay d + 6) % 7 < ((7 : Nat) : Int) := by
    intro ts now t ht
    obtain ⟨_, d, hd, _, _⟩ := (mem_filterTransactions ts _ now t).mp ht
    have hb := weekIndex_bounds d
    exact ⟨d, hd, rfl, hb.1, by exact_mod_cast hb.2.1⟩
  have hyear : ∀ (ts : List Transaction) (now : Int),
      ∀ t ∈ filterTransactions ts (JSValue.string "year") now,
        ∃ d, t.date = some d ∧ (fun _ => true) (getMonth d) = true ∧
          0 ≤ getMonth d ∧ getMonth d < ((12 : Nat) : Int) := by
    intro ts now t ht
    obtain ⟨_, d, hd, _, _⟩ := (mem_filterTransactions ts _ now t).mp ht
    have hb := MonthFromTime_bounds d
    refine ⟨d, hd, rfl, hb.1, ?_⟩
    have : getMonth d ≤ 11 := hb.2
    push_cast
    omega
  have hmonth : ∀ (ts : List Transaction) (now : Int),
      getFullYear nowYear = getFullYear now → getMonth nowMonth = getMonth now →
      ∀ t ∈ filterTransactions ts (JSValue.string "month") now,
        ∃ d, t.date = some d ∧
          (fun day => decide (day ≥ 0) && decide (day <
            getDate (newDate (getFullYear nowYear) (getMonth nowMonth + 1) 0 0 0 0 0)))
            (getDate d - 1) = true ∧
          0 ≤ getDate d - 1 ∧ getDate d - 1 <
            (((getDate (newDate (getFullYear nowYear) (getMonth nowMonth + 1)
              0 0 0 0 0)).toNat : Nat) : Int) := by
    intro ts now hy hm t ht
    obtain ⟨_, d, hd, h0, h1⟩ := (mem_filterTransactions ts _ now t).mp ht
    have hb := monthIndex_bounds now nowYear nowMonth d hy hm h0 h1
    refine ⟨d, hd, ?_, hb.1, ?_⟩
    · simp only [ge_iff_le, Bool.and_eq_true, decide_eq_true_eq]
      exact hb
    · omega
  refine ⟨⟨?_, ?_, fun d => (weekIndex_bounds d).2.2⟩, ?_, ?_, ?_⟩
  · simp only [updateChart, if_true]
    exact conserves_of_foldl _ _ 7 _ (hweek _ _)
  · simp only [updateChart, if_true]
    exact conserves_of_foldl _ _ 7 _ (hweek _ _)
  · intro hy1 hy2 hm1 hm2
    simp only [updateChart, if_neg hmw, if_true]
    exact ⟨conserves_of_foldl _ _ _ _ (hmonth _ _ hy1 hm1),
      conserves_of_foldl _ _ _ _ (hmonth _ _ hy2 hm2)⟩
  · simp only [updateChart, if_neg hyw, if_neg hym]
    exact conserves_of_foldl _ _ 12 _ (hyear _ _)
  · simp only [updateChart, if_neg hyw, if_neg hym]
    exact conserves_of_foldl _ _ 12 _ (hyear _ _)

/-- C28, at the clock of 10 April 2024 and one income of 1000 dated 30 April 2024 12:00:
the month has 30 buckets and they conserve the amount of the selected income. -/
theorem updateChart_conserves_witness :
    (getDate (newDate (getFullYear 1712707200000) (getMonth 1712707200000 + 1)
      0 0 0 0 0)).toNat = 30 ∧
    Conserves (fun d => getDate d - 1)
      (getDate (newDate (getFullYear 1712707200000) (getMonth 1712707200000 + 1)
        0 0 0 0 0)).toNat
      (filterTransactions [⟨1, "зарплата", 1000, "доход", some 1714478400000⟩]
        (JSValue.string "month") 1712707200000)
      (updateChart (JSValue.string "month") 1712707200000 1712707200000 1712707200000
        1712707200000 [⟨1, "зарплата", 1000, "доход", some 1714478400000⟩] []).incomeData :=
  ⟨by decide,
    ((updateChart_conserves 1712707200000 1712707200000 1712707200000 1712707200000
      [⟨1, "зарплата", 1000, "доход", some 1714478400000⟩] []).2.1 rfl rfl rfl rfl).1⟩

/-! ## Period summary -/

theorem mathRound_le (x : ℚ) (n : Int) (h : x ≤ n) : mathRound x ≤ n := by
  unfold mathRound
  have h1 : x + 1 / 2 < (n : ℚ) + 1 := by linarith
  have h2 : ⌊x + 1 / 2⌋ < n + 1 := by
    rw [Int.floor_lt]
    push_cast
    exact h1
  omega

theorem mathRound_intCast (n : Int) : mathRound (n : ℚ) = n := by
  unfold mathRound
  rw [Int.floor_eq_iff]
  constructor <;> linarith

theorem mathRound_neg_iff (x : ℚ) : mathRound x < 0 ↔ x < -1 / 2 := by
  unfold mathRound
  rw [Int.floor_lt]
  push_cast
  constructor <;> intro h <;> linarith

/-- C29, amended: `updateEconomy` computes periodSavings = periodIncome −
periodExpenses and periodPercent = round(periodSavings / periodIncome × 100) when
periodIncome > 0 and 0 otherwise; with non-negative expenses the percent is at most 100,
it is 100 when expenses are 0 and income is positive; when expenses exceed a positive
income it is at most 0, and negative exactly when periodSavings / periodIncome × 100 is
below −1/2. -/
theorem updateEconomy_percent (period : JSValue) (nowIncome nowExpenses : Int)
    (incomeTransactions expensesTransactions : List Transaction) :
    (updateEconomy period nowIncome nowExpenses incomeTransactions
        expensesTransactions).periodSavings =
      (updateEconomy period nowIncome nowExpenses incomeTransactions
        expensesTransactions).periodIncome -
      (updateEconomy period nowIncome nowExpenses incomeTransactions
        expensesTransactions).periodExpenses ∧
    (updateEconomy period nowIncome nowExpenses incomeTransactions
        expensesTransactions).periodPercent =
      (if (updateEconomy period nowIncome nowExpenses incomeTransactions
          expensesTransactions).periodIncome > 0 then
        mathRound ((updateEconomy period nowIncome nowExpenses incomeTransactions
          expensesTransactions).periodSavings /
          (updateEconomy period nowIncome nowExpenses incomeTransactions
            expensesTransactions).periodIncome * 100)
       else 0) ∧
    (0 ≤ (updateEconomy period nowIncome nowExpenses incomeTransactions
        expensesTransactions).periodExpenses →
      (updateEconomy period nowIncome nowExpenses incomeTransactions
        expensesTransactions).periodPercent ≤ 100) ∧
    ((updateEconomy period nowIncome nowExpenses incomeTransactions
        expensesTransactions).periodExpenses = 0 →
      0 < (updateEconomy period nowIncome nowExpenses incomeTransactions
        expensesTransactions).periodIncome →
      (updateEconomy period nowIncome nowExpenses incomeTransactions
        expensesTransactions).periodPercent = 100) ∧
    (0 < (updateEconomy period nowIncome nowExpenses incomeTransactions
        expensesTransactions).periodIncome →
      (updateEconomy period nowIncome nowExpenses incomeTransactions
        expensesTransactions).periodIncome <
      (updateEconomy period nowIncome nowExpenses incomeTransactions
        expensesTransactions).periodExpenses →
      (updateEconomy period nowIncome nowExpenses incomeTransactions
        expensesTransactions).periodPercent ≤ 0 ∧
      ((updateEconomy period nowIncome nowExpenses incomeTransactions
        expensesTransactions).periodPercent < 0 ↔
        (updateEconomy period nowIncome nowExpenses incomeTransactions
          expensesTransactions).periodSavings /
          (updateEconomy period nowIncome nowExpenses incomeTransactions
            expensesTransactions).periodIncome * 100 < -1 / 2)) ∧
    (¬ 0 < (updateEconomy period nowIncome nowExpenses incomeTransactions
        expensesTransactions).periodIncome →
      (updateEconomy period nowIncome nowExpenses incomeTransactions
        expensesTransactions).periodPercent = 0) := by
  simp only [updateEconomy]
  generalize sumAmounts (filterTransactions incomeTransactions
    (if period = JSValue.undefined then JSValue.string "month" else period) nowIncome) = inc
  generalize sumAmounts (filterTransactions expensesTransactions
    (if period = JSValue.undefined then JSValue.string "month" else period) nowExpenses) = exp
  refine ⟨trivial, trivial, ?_, ?_, ?_, ?_⟩
  · intro hexp
    by_cases hi : inc > 0
    · rw [if_pos hi]
      apply mathRound_le
      have h1 : (inc - exp) / inc ≤ 1 := by
        rw [div_le_one hi]; linarith
      push_cast
      linarith
    · rw [if_neg hi]; norm_num
  · intro hexp hi
    rw [if_pos hi, hexp, sub_zero, div_self (ne_of_gt hi), one_mul]
    exact mathRound_intCast 100
  · intro hi hlt
    rw [if_pos hi]
    refine ⟨?_, mathRound_neg_iff _⟩
    apply mathRound_le
    have h1 : (inc - exp) / inc ≤ 0 :=
      div_nonpos_of_nonpos_of_nonneg (by linarith) (le_of_lt hi)
    push_cast
    linarith
  · intro hi
    rw [if_neg hi]

/-- The month range resolved at 15 January 2024 09:30. -/
theorem getDateRange_january_2024 :
    (getDateRange (JSValue.string "month") 1705311000000).startDate = 1704067200000 ∧
    (getDateRange (JSValue.string "month") 1705311000000).endDate = 1706745599999 := by
  decide

/-- C29 as stated fails: with one income of 1000 and one expense of 1001 in the
current month, expenses exceed income and the percent is 0, not negative. -/
theorem updateEconomy_small_overspend :
    (updateEconomy (JSValue.string "month") 1705311000000 1705311000000
        [⟨1, "зарплата", 1000, "доход", some 1705773600000⟩]
        [⟨2, "аренда", 1001, "жилье", some 1705773600000⟩]).periodIncome = 1000 ∧
    (updateEconomy (JSValue.string "month") 1705311000000 1705311000000
        [⟨1, "зарплата", 1000, "доход", some 1705773600000⟩]
        [⟨2, "аренда", 1001, "жилье", some 1705773600000⟩]).periodExpenses = 1001 ∧
    (updateEconomy (JSValue.string "month") 1705311000000 1705311000000
        [⟨1, "зарплата", 1000, "доход", some 1705773600000⟩]
        [⟨2, "аренда", 1001, "жилье", some 1705773600000⟩]).periodPercent = 0 := by
  have hu : JSValue.string "month" ≠ JSValue.undefined := by decide
  simp only [updateEconomy, if_neg hu, filterTransactions, getDateRange_january_2024.1,
    getDateRange_january_2024.2]
  simp only [List.filter_cons, List.filter_nil, dateBetween, sumAmounts, List.foldl_cons,
    List.foldl_nil]
  norm_num [mathRound]

/-- C29 amended, at one income of 100 and one expense of 300 in the current month: the
percent is −200, below the 0 at which the axis of the progress bar starts. -/
theorem updateEconomy_percent_witness :
    (updateEconomy (JSValue.string "month") 1705311000000 1705311000000
        [⟨1, "зарплата", 100, "доход", some 1705773600000⟩]
        [⟨2, "аренда", 300, "жилье", some 1705773600000⟩]).periodPercent = -200 := by
  have hu : JSValue.string "month" ≠ JSValue.undefined := by decide
  rw [(updateEconomy_percent (JSValue.string "month") 1705311000000 1705311000000 _ _).2.1]
  simp only [updateEconomy, if_neg hu, filterTransactions, getDateRange_january_2024.1,
    getDateRange_january_2024.2]
  simp only [List.filter_cons, List.filter_nil, dateBetween, sumAmounts, List.foldl_cons,
    List.foldl_nil]
  norm_num [mathRound]

/-! ## HTML escaping -/

/-- C30, at the string of the single character ampersand: the dashboard script returns
the entity without its closing semicolon, the forecast script returns the entity; so
the two functions disagree, and likewise on each of the other four characters. -/
theorem escapeHtml_disagree :
    Main.escapeHtml "&" = "&amp" ∧ Forecast.escapeHtml "&" = "&amp;" ∧
    Main.escapeHtml "&" ≠ Forecast.escapeHtml "&" ∧
    Main.escapeHtml "<" = "&lt" ∧ Forecast.escapeHtml "<" = "&lt;" ∧
    Main.escapeHtml ">" = "&gt" ∧ Forecast.escapeHtml ">" = "&gt;" ∧
    Main.escapeHtml (String.singleton doubleQuote) = "&quot" ∧
    Forecast.escapeHtml (String.singleton doubleQuote) = "&quot;" ∧
    Main.escapeHtml (String.singleton apostrophe) = "&#39" ∧
    Forecast.escapeHtml (String.singleton apostrophe) = "&#39;" := by
  decide

end CtrlMoney
